import Mathlib

/-!
# Pro Audio Spectrum 16 register model (`src/sound/snd_pas16.c`)

A shallow embedding of the device's I/O dispatch, MIDI FIFO helpers, PCM sampler
tick, base relocation and buffer pulls.  Machine integers are natural numbers,
truncated explicitly where the C code stores into a narrower type.  Diagnostic
logging (`pclog`, `pas16_log`) has no effect on the device and is left out.

Collaborators that live outside the file (interrupt controller, DMA controller,
synthesizer, DSP, MIDI UART, timer scheduler, port map) are represented by a log of
the calls made to them, newest first, and by read oracles for the values they
return.
-/

namespace PAS16

/-! ## Constants -/

def PAS16_INT_SAMP : Nat := 0x04
def PAS16_INT_PCM : Nat := 0x08
def PAS16_INT_MIDI : Nat := 0x10

def PAS16_PCM_MONO : Nat := 0x20
def PAS16_PCM_ENA : Nat := 0x40

def PAS16_SC2_16BIT : Nat := 0x04
def PAS16_SC2_MSBINV : Nat := 0x10

def PAS16_FILT_MUTE : Nat := 0x20

/-- Modelled from the spec: the macro `UART_FIFO_BYTE_VALID` is not defined in the
file; each FIFO slot "tracks a valid flag" next to its byte, taken here as bit 8. -/
def UART_FIFO_BYTE_VALID : Nat := 0x100

def pas16_dmas : List Nat := [4, 1, 2, 3, 0, 5, 6, 7]
def pas16_irqs : List Nat := [0, 2, 3, 4, 5, 6, 7, 10, 11, 12, 14, 15, 0, 0, 0, 0]
def pas16_sb_irqs : List Nat := [0, 2, 3, 5, 7, 10, 11, 12]
def pas16_sb_dmas : List Nat := [0, 1, 2, 3, 0, 0, 0, 0]

/-! ## Data model -/

/-- Modelled from the spec: `ctr_t` is declared in the timer module's header, outside
the file.  The fields the device touches are the mode byte `m`, the configured period
`l`, the 16-bit running countdown `rl` and the `enable` flag. -/
structure ctr_t where
  m : Nat
  l : Nat
  rl : Nat
  enable : Int

/-- Modelled from the spec: `pit_t`, the owned timer instance, is declared outside the
file; the device reaches its counters as `counters[0]`, `counters[1]`, `counters[2]`. -/
structure pit_t where
  counters_0 : ctr_t
  counters_1 : ctr_t
  counters_2 : ctr_t

/-- Calls made to collaborators outside the file. -/
inductive Call where
  | picint (mask : Nat)
  | picintc (mask : Nat)
  | opl_read (addr : Int)
  | opl_write (addr : Int) (val : Nat)
  | opl_update
  | opl_reset_buffer
  | midi_raw_out_byte (val : Nat)
  | sb_dsp_setaddr (addr : Nat)
  | sb_dsp_setirq (irq : Nat)
  | sb_dsp_setdma8 (dma : Nat)
  | sb_dsp_update
  | mpu401_change_addr (addr : Nat)
  | timer_advance_u64 (count : Nat)
  | pit_ctr_set_clock (new_out : Int)

/-- The device state block `pas16_t`, the timer it owns, and the host-side values
its entry points read.  The MIDI fields carry the names the functions use
(`uart_ctrl`, `uart_status`, `uart_data`, `uart_fifo`, `read_fifo_pos`,
`write_fifo_pos`); the struct declaration in the file lists them as `midi_ctrl`,
`midi_stat`, `midi_data`, `midi_fifo` and does not declare the two cursors. -/
structure pas16_t where
  base : Nat
  irq : Nat
  dma : Nat
  audiofilt : Nat
  audio_mixer : Nat
  compat : Nat
  compat_base : Nat
  enhancedscsi : Nat
  io_conf_1 : Nat
  io_conf_2 : Nat
  io_conf_3 : Nat
  io_conf_4 : Nat
  irq_stat : Nat
  irq_ena : Nat
  pcm_ctrl : Nat
  pcm_dat : Nat
  pcm_dat_l : Nat
  pcm_dat_r : Nat
  sb_irqdma : Nat
  stereo_lr : Nat
  sys_conf_1 : Nat
  sys_conf_2 : Nat
  sys_conf_3 : Nat
  sys_conf_4 : Nat
  waitstates : Nat
  uart_ctrl : Nat
  uart_status : Nat
  uart_data : Nat
  uart_fifo : Nat → Nat
  read_fifo_pos : Nat
  write_fifo_pos : Nat
  /-- Output buffer `pcm_buffer[channel][slot]` of signed 16-bit samples. -/
  pcm_buffer : Nat → Nat → Int
  pos : Nat
  midi_uart_out : Nat
  pit : pit_t
  /-- Position of the DSP collaborator's own buffer cursor (`dsp.pos`). -/
  dsp_pos : Nat
  /-- Host: the global time cursor `sound_pos_global`. -/
  sound_pos_global : Nat
  /-- Host: the byte `dma_channel_read` returns, by channel and by how many bytes
  were read before. -/
  dma_channel_read : Nat → Nat → Nat
  /-- Host: number of bytes read from the DMA controller so far. -/
  dma_reads : Nat
  /-- Host: the value the synthesizer returns for a register read, given the calls
  made so far. -/
  opl_read : List Call → Int → Nat
  /-- Host: calls made to collaborators, newest first. -/
  calls : List Call
  /-- Host: 4-port windows bound to `pas16_in`/`pas16_out`, by first port. -/
  io_windows : List Nat
  /-- Host: 4-port windows bound to the timer, by first port. -/
  pit_windows : List Nat
  /-- Host: ports bound to `pas16_out_base`. -/
  base_ports : List Nat
  /-- Host: the DSP collaborator's filtered, attenuated contribution to output slot
  `c` of a buffer pull (computed in floating point outside the file). -/
  dsp_out : Nat → Int
  /-- Host: the synthesizer's per-period output buffer, given the calls made so far. -/
  opl_buf : List Call → Nat → Int

/-! ## Machine arithmetic -/

/-- `a & ~m` on `uint8_t` operands. -/
def and_not (a m : Nat) : Nat := a &&& (0xff ^^^ m)

/-- `(int16_t) x` for a 16-bit value. -/
def int16 (x : Nat) : Int := if x % 65536 < 32768 then (x % 65536 : Nat) else (x % 65536 : Nat) - 65536

/-- `!x` of C. -/
def lnot (x : Nat) : Nat := if x = 0 then 1 else 0

/-- A port argument computed in `int` and passed as `uint16_t`. -/
def port16 (p : Int) : Nat := (p % 65536).toNat

/-! ## Collaborator calls -/

def picint (mask : Nat) (s : pas16_t) : pas16_t := { s with calls := Call.picint mask :: s.calls }

def picintc (mask : Nat) (s : pas16_t) : pas16_t := { s with calls := Call.picintc mask :: s.calls }

def call (c : Call) (s : pas16_t) : pas16_t := { s with calls := c :: s.calls }

/-- Modelled from the spec: `io_sethandler` of the port map (outside the file) binds
the 4-port window starting at the given port to the device's handlers. -/
def io_sethandler (p : Nat) (s : pas16_t) : pas16_t := { s with io_windows := p :: s.io_windows }

/-- Modelled from the spec: `io_removehandler` of the port map (outside the file)
unbinds one binding of the window starting at the given port. -/
def io_removehandler (p : Nat) (s : pas16_t) : pas16_t := { s with io_windows := s.io_windows.erase p }

/-- Modelled from the spec: `pit_handler` of the timer module (outside the file)
binds (`set ≠ 0`) or unbinds the timer's own 4-port window. -/
def pit_handler (set : Nat) (p : Nat) (s : pas16_t) : pas16_t :=
  if set ≠ 0 then { s with pit_windows := p :: s.pit_windows }
  else { s with pit_windows := s.pit_windows.erase p }

/-- `pas16_readdma`: one byte from the configured DMA channel. -/
def pas16_readdma (s : pas16_t) : Nat × pas16_t :=
  (s.dma_channel_read s.dma s.dma_reads % 256, { s with dma_reads := s.dma_reads + 1 })

/-! ## MIDI interrupt helpers -/

/-- `pas16_update_midi_irqs`.  The second operand of the test is written
`dev->uart_status` in the file; it is read as the same device block. -/
def pas16_update_midi_irqs (s : pas16_t) : pas16_t :=
  let s := { s with irq_stat := and_not s.irq_stat PAS16_INT_MIDI }
  if s.uart_status &&& 0x18 ≠ 0 ∨ s.uart_status &&& 0x04 ≠ 0 then
    picint (1 <<< s.irq) { s with irq_stat := s.irq_stat ||| PAS16_INT_MIDI }
  else
    picintc (1 <<< s.irq) s

def pas16_update_tx_irq (s : pas16_t) : pas16_t :=
  let s := { s with uart_status := and_not s.uart_status 0x18 }
  let s := if s.irq_ena &&& PAS16_INT_MIDI ≠ 0 ∧ s.uart_ctrl &&& 0x18 ≠ 0 then
      { s with uart_status := s.uart_status ||| 0x18 } else s
  pas16_update_midi_irqs s

def pas16_update_rx_irq (s : pas16_t) : pas16_t :=
  let s := { s with uart_status := and_not s.uart_status 0x04 }
  let s := if s.irq_ena &&& PAS16_INT_MIDI ≠ 0 ∧ s.uart_ctrl &&& 0x04 ≠ 0 then
      { s with uart_status := s.uart_status ||| 0x04 } else s
  pas16_update_midi_irqs s

/-- Modelled from the spec: `pas16_set_tx_irq` is called but not defined in the file.
It tracks the transmit-ready sub-bits (0x18) of the UART status: cleared, then set
again when `set` is nonzero. -/
def pas16_set_tx_irq (set : Nat) (s : pas16_t) : pas16_t :=
  let s := { s with uart_status := and_not s.uart_status 0x18 }
  if set ≠ 0 then { s with uart_status := s.uart_status ||| 0x18 } else s

/-- Modelled from the spec: `pas16_set_rx_irq` (and `es1371_set_rx_irq`, the name the
FIFO helpers use for it) is called but not defined in the file.  It tracks the
receive-ready sub-bit (0x04) of the UART status: cleared, then set again when `set`
is nonzero. -/
def pas16_set_rx_irq (set : Nat) (s : pas16_t) : pas16_t :=
  let s := { s with uart_status := and_not s.uart_status 0x04 }
  if set ≠ 0 then { s with uart_status := s.uart_status ||| 0x04 } else s

def es1371_set_rx_irq (set : Nat) (s : pas16_t) : pas16_t := pas16_set_rx_irq set s

/-- First definition of `pas16_scan_fifo` (cursor advanced `& 0x0f`). -/
def pas16_scan_fifo (s : pas16_t) : pas16_t :=
  if s.read_fifo_pos ≠ s.write_fifo_pos then
    let s := { s with uart_data := s.uart_fifo s.read_fifo_pos % 256 }
    let s := { s with read_fifo_pos := (s.read_fifo_pos + 1) &&& 0x0f }
    es1371_set_rx_irq 1 s
  else
    es1371_set_rx_irq 0 s

/-- Second definition of `pas16_scan_fifo`, further down the file (cursor advanced
`& 7`). -/
def pas16_scan_fifo_2 (s : pas16_t) : pas16_t :=
  if s.read_fifo_pos ≠ s.write_fifo_pos then
    let s := { s with uart_data := s.uart_fifo s.read_fifo_pos % 256 }
    let s := { s with read_fifo_pos := (s.read_fifo_pos + 1) &&& 7 }
    pas16_set_rx_irq 1 s
  else
    pas16_set_rx_irq 0 s

def es1371_write_fifo (val : Nat) (s : pas16_t) : pas16_t :=
  if s.write_fifo_pos < 16 then
    let s := { s with uart_fifo := Function.update s.uart_fifo s.write_fifo_pos (val ||| UART_FIFO_BYTE_VALID) }
    { s with write_fifo_pos := (s.write_fifo_pos + 1) &&& 0x0f }
  else s

def es1371_reset_fifo (s : pas16_t) : pas16_t :=
  let s := { s with uart_fifo := fun i => if i < 16 then 0 else s.uart_fifo i }
  let s := { s with write_fifo_pos := 0 }
  let s := { s with read_fifo_pos := 0 }
  es1371_set_rx_irq 0 s

/-- `pas16_reset_fifo` is called but not defined in the file; the FIFO reset the file
does define is `es1371_reset_fifo`, over the same fields. -/
def pas16_reset_fifo (s : pas16_t) : pas16_t := es1371_reset_fifo s

def pas16_reset (s : pas16_t) : pas16_t :=
  let s := { s with uart_status := 0xff }
  let s := { s with uart_ctrl := 0x00 }
  let s := { s with uart_fifo := fun i => if i < 16 then 0x00 else s.uart_fifo i }
  let s := pas16_set_tx_irq 0 s
  let s := pas16_reset_fifo s
  pas16_update_midi_irqs s

/-! ## Output sampler -/

/-- The body of the two `for (; pos < sound_pos_global; pos++)` loops of
`pas16_update`: `hold = false` stores silence, `hold = true` stores the latches. -/
def pas16_update_loop (hold : Bool) : Nat → pas16_t → pas16_t
  | 0, s => s
  | fuel + 1, s =>
    if s.pos < s.sound_pos_global then
      let l : Int := if hold then int16 s.pcm_dat_l else 0
      let r : Int := if hold then int16 s.pcm_dat_r else 0
      let s := { s with pcm_buffer := fun c i =>
        if c = 1 ∧ i = s.pos then r else if c = 0 ∧ i = s.pos then l else s.pcm_buffer c i }
      pas16_update_loop hold fuel { s with pos := s.pos + 1 }
    else s

def pas16_update (s : pas16_t) : pas16_t :=
  if s.audiofilt &&& PAS16_FILT_MUTE = 0 then
    pas16_update_loop false (s.sound_pos_global - s.pos) s
  else
    pas16_update_loop true (s.sound_pos_global - s.pos) s

/-! ## Register decode and dispatch -/

/-- The switch value `(port - pas16->base) + 0x388`, computed in `int`. -/
def decode (port : Nat) (s : pas16_t) : Int := ((port : Int) - (s.base : Int)) + 0x388

def pas16_in (port : Nat) (s : pas16_t) : Nat × pas16_t :=
  let off := decode port s
  if off = 0x388 ∨ off = 0x389 ∨ off = 0x38a ∨ off = 0x38b then
    (s.opl_read s.calls off % 256, call (Call.opl_read off) s)
  else if off = 0xb88 then (s.audio_mixer, s)
  else if off = 0xb89 then (s.irq_stat, s)
  else if off = 0xb8a then (s.audiofilt, s)
  else if off = 0xb8b then (and_not s.irq_ena 0xe0 ||| 0x01, s)
  else if off = 0xf8a then (s.pcm_ctrl, s)
  else if off = 0x1789 then (0, s)
  else if off = 0x178a then (s.uart_data, pas16_set_rx_irq 0 s)
  else if off = 0x1b88 then (s.uart_status, s)
  else if off = 0x2789 then (0, s)
  else if off = 0x7f89 then (and_not s.enhancedscsi 0x01, s)
  else if off = 0x8388 then (s.sys_conf_1, s)
  else if off = 0x8389 then (s.sys_conf_2, s)
  else if off = 0x838b then (s.sys_conf_3, s)
  else if off = 0x838c then (s.sys_conf_4, s)
  else if off = 0xbf88 then (s.waitstates, s)
  else if off = 0xef8b then (0x0c, s)
  else if off = 0xf388 then (s.io_conf_1, s)
  else if off = 0xf389 then (s.io_conf_2, s)
  else if off = 0xf38a then (s.io_conf_3, s)
  else if off = 0xf38b then (s.io_conf_4, s)
  else if off = 0xf788 then (s.compat, s)
  else if off = 0xf789 then (s.compat_base, s)
  else if off = 0xfb8a then (s.sb_irqdma, s)
  else if off = 0xff88 then (0x04, s)
  else if off = 0xff8b then (0x20 ||| 0x10 ||| 0x01, s)
  else (0xff, s)

def pas16_out (port : Nat) (val : Nat) (s : pas16_t) : pas16_t :=
  let off := decode port s
  if off = 0x388 ∨ off = 0x389 ∨ off = 0x38a ∨ off = 0x38b then
    call (Call.opl_write off val) s
  else if off = 0xb88 then { s with audio_mixer := val }
  else if off = 0xb89 then { s with irq_stat := and_not s.irq_stat val }
  else if off = 0xb8a then
    let s := pas16_update s
    { s with audiofilt := val }
  else if off = 0xb8b then { s with irq_ena := val }
  else if off = 0xf88 then
    let s := pas16_update s
    { s with pcm_dat := (s.pcm_dat &&& 0xff00) ||| val }
  else if off = 0xf89 then
    let s := pas16_update s
    { s with pcm_dat := ((s.pcm_dat &&& 0x00ff) ||| (val <<< 8)) % 65536 }
  else if off = 0xf8a then
    let s := if val &&& PAS16_PCM_ENA ≠ 0 ∧ ¬ (s.pcm_ctrl &&& PAS16_PCM_ENA ≠ 0) then
        { s with stereo_lr := 0 } else s
    { s with pcm_ctrl := val }
  else if off = 0x1789 ∨ off = 0x178b then
    let s := { s with uart_ctrl := val }
    if val &&& 0x60 = 0x60 then
      let s := pas16_set_tx_irq 1 s
      pas16_reset_fifo s
    else
      let s := pas16_set_tx_irq 1 s
      let s := pas16_update_tx_irq s
      pas16_update_rx_irq s
  else if off = 0x178a then
    let s := call (Call.midi_raw_out_byte val) s
    pas16_set_tx_irq 1 s
  else if off = 0x1b88 then { s with uart_status := val }
  else if off = 0x7f89 then { s with enhancedscsi := val }
  else if off = 0x8388 then
    let s := if val &&& 0x80 ≠ 0 ∧ ¬ (s.sys_conf_1 &&& 0x80 ≠ 0) then pas16_reset s else s
    { s with sys_conf_1 := val }
  else if off = 0x8389 then { s with sys_conf_2 := val }
  else if off = 0x838a then { s with sys_conf_3 := val }
  else if off = 0x838b then { s with sys_conf_4 := val }
  else if off = 0xbf88 then { s with waitstates := val }
  else if off = 0xf388 then { s with io_conf_1 := val }
  else if off = 0xf389 then
    let s := { s with io_conf_2 := val }
    { s with dma := pas16_dmas.getD (val &&& 0x7) 0 }
  else if off = 0xf38a then
    let s := { s with io_conf_3 := val }
    { s with irq := pas16_irqs.getD (val &&& 0xf) 0 }
  else if off = 0xf38b then { s with io_conf_4 := val }
  else if off = 0xf788 then
    let s := { s with compat := val }
    let s := if s.compat &&& 0x02 ≠ 0 then
        call (Call.sb_dsp_setaddr (((s.compat_base &&& 0xf) <<< 4) ||| 0x200)) s
      else call (Call.sb_dsp_setaddr 0) s
    if s.compat &&& 0x01 ≠ 0 then
      call (Call.mpu401_change_addr ((s.compat_base &&& 0xf0) ||| 0x300)) s
    else call (Call.mpu401_change_addr 0) s
  else if off = 0xf789 then
    let s := { s with compat_base := val }
    let s := if s.compat &&& 0x02 ≠ 0 then
        call (Call.sb_dsp_setaddr (((s.compat_base &&& 0xf) <<< 4) ||| 0x200)) s else s
    if s.compat &&& 0x01 ≠ 0 then
      call (Call.mpu401_change_addr ((s.compat_base &&& 0xf0) ||| 0x300)) s
    else s
  else if off = 0xfb8a then
    let s := { s with sb_irqdma := val }
    let s := call (Call.sb_dsp_setirq (pas16_sb_irqs.getD ((val >>> 3) &&& 7) 0)) s
    call (Call.sb_dsp_setdma8 (pas16_sb_dmas.getD ((val >>> 6) &&& 3) 0)) s
  else s

/-! ## PCM sampler tick -/

/-- The sample read of `pas16_pcm_poll`: the 16-bit value `temp` assembled from one
(8-bit mode) or two (16-bit mode) DMA bytes, with the MSB inverted on request. -/
def pas16_pcm_assemble (s : pas16_t) : Nat × pas16_t :=
  let (temp, s) :=
    if s.sys_conf_2 &&& PAS16_SC2_16BIT ≠ 0 then
      let (hi, s) := pas16_readdma s
      let temp := (hi <<< 8) % 65536
      let (lo, s) := pas16_readdma s
      (temp ||| lo, s)
    else
      let (b, s) := pas16_readdma s
      (((b ^^^ 0x80) <<< 8) % 65536, s)
  let temp := if s.sys_conf_2 &&& PAS16_SC2_MSBINV ≠ 0 then temp ^^^ 0x8000 else temp
  (temp, s)

/-- The sampling block of `pas16_pcm_poll` (run when the countdown is enabled and
`PAS16_PCM_ENA` is set): assemble the sample and route it to the latches. -/
def pas16_pcm_sample (s : pas16_t) : pas16_t :=
  let (temp, s) := pas16_pcm_assemble s
  if s.pcm_ctrl &&& PAS16_PCM_MONO ≠ 0 then
    let s := { s with pcm_dat_r := temp }
    { s with pcm_dat_l := temp }
  else
    let s := if s.stereo_lr ≠ 0 then { s with pcm_dat_r := temp } else { s with pcm_dat_l := temp }
    { s with stereo_lr := lnot s.stereo_lr }

/-- Store into `pit->counters[1].rl`. -/
def set_rl (v : Nat) (s : pas16_t) : pas16_t :=
  { s with pit := { s.pit with counters_1 := { s.pit.counters_1 with rl := v } } }

/-- Store into `pit->counters[1].enable`. -/
def set_enable (v : Int) (s : pas16_t) : pas16_t :=
  { s with pit := { s.pit with counters_1 := { s.pit.counters_1 with enable := v } } }

/-- The countdown block of `pas16_pcm_poll` (run when the countdown is enabled):
decrement the 16-bit countdown, and on the value 0xffff reload or stop and raise the
block-complete interrupt. -/
def pas16_pcm_count (s : pas16_t) : pas16_t :=
  let s := if s.sys_conf_2 &&& PAS16_SC2_16BIT ≠ 0 then
      set_rl ((s.pit.counters_1.rl + 65536 - 2) % 65536) s
    else set_rl ((s.pit.counters_1.rl + 65536 - 1) % 65536) s
  if s.pit.counters_1.rl = 0xffff then
    let s := if s.pit.counters_1.m &&& 2 ≠ 0 then
        (if s.pit.counters_1.l &&& 0xffff ≠ 0 then set_rl (s.pit.counters_1.l &&& 0xffff) s
         else set_rl 0 s)
      else
        let s := set_enable 0 s
        set_rl 0 s
    let s := { s with irq_stat := s.irq_stat ||| PAS16_INT_PCM }
    if s.irq_ena &&& PAS16_INT_PCM ≠ 0 then picint (1 <<< s.irq) s else picintc (1 <<< s.irq) s
  else s

/-- The unconditional head of `pas16_pcm_poll`: flush the output sampler, re-arm the
callback timer, set the sample-rate bit and drive the interrupt line. -/
def pas16_pcm_head (s : pas16_t) : pas16_t :=
  let s := pas16_update s
  let s := if s.pit.counters_0.m &&& 2 ≠ 0 then
      (if s.pit.counters_0.l ≠ 0 then call (Call.timer_advance_u64 s.pit.counters_0.l) s
       else call (Call.timer_advance_u64 0x10000) s)
    else s
  let s := { s with irq_stat := s.irq_stat ||| PAS16_INT_SAMP }
  if s.irq_ena &&& PAS16_INT_SAMP ≠ 0 then picint (1 <<< s.irq) s
  else picintc (1 <<< s.irq) s

def pas16_pcm_poll (s : pas16_t) : pas16_t :=
  let s := pas16_pcm_head s
  if s.pit.counters_1.enable ≠ 0 then
    let s := if s.pcm_ctrl &&& PAS16_PCM_ENA ≠ 0 then pas16_pcm_sample s else s
    pas16_pcm_count s
  else s

def pas16_pit_timer0 (new_out : Int) (s : pas16_t) : pas16_t :=
  let s := set_enable new_out s
  call (Call.pit_ctr_set_clock new_out) s

/-! ## Base relocation -/

/-- Offsets of the windows `pas16_out_base` passes to `io_removehandler` and
`io_sethandler`, in order. -/
def io_window_offsets : List Int :=
  [0x0388, 0x0788, 0x0b88, 0x0f88, 0x1788, 0x1b88, 0x2788, 0x7f88, 0x8388, 0xbf88,
   0xe388, 0xe788, 0xeb88, 0xef88, 0xf388, 0xf788, 0xfb88, 0xff88]

/-- Offset of the timer's own window. -/
def pit_window_offset : Int := 0x1388

/-- The port `(pas16->base - 0x388) + off`, passed as `uint16_t`. -/
def window_port (base : Nat) (off : Int) : Nat := port16 (((base : Int) - 0x388) + off)

def pas16_out_base (val : Nat) (s : pas16_t) : pas16_t :=
  let s := (io_window_offsets.take 4).foldl (fun s off => io_removehandler (window_port s.base off) s) s
  let s := pit_handler 0 (window_port s.base pit_window_offset) s
  let s := (io_window_offsets.drop 4).foldl (fun s off => io_removehandler (window_port s.base off) s) s
  let s := { s with base := (val <<< 2) % 65536 }
  let s := (io_window_offsets.take 4).foldl (fun s off => io_sethandler (window_port s.base off) s) s
  let s := pit_handler 1 (window_port s.base pit_window_offset) s
  (io_window_offsets.drop 4).foldl (fun s off => io_sethandler (window_port s.base off) s) s

/-! ## Buffer pulls -/

/-- `pas16_get_buffer`: the caller's accumulator after the pull, and the device
state.  Slot `c < len * 2` receives the DSP contribution and half the PCM sample. -/
def pas16_get_buffer (buffer : Nat → Int) (len : Nat) (s : pas16_t) : (Nat → Int) × pas16_t :=
  let s := call Call.sb_dsp_update s
  let s := pas16_update s
  let buffer' : Nat → Int := fun c =>
    if c < len * 2 then buffer c + s.dsp_out c + Int.tdiv (s.pcm_buffer (c &&& 1) (c >>> 1)) 2
    else buffer c
  let s := { s with pos := 0 }
  (buffer', { s with dsp_pos := 0 })

def pas16_get_music_buffer (buffer : Nat → Int) (len : Nat) (s : pas16_t) : (Nat → Int) × pas16_t :=
  let opl_buf := s.opl_buf s.calls
  let s := call Call.opl_update s
  let buffer' : Nat → Int := fun c => if c < len * 2 then buffer c + opl_buf c else buffer c
  (buffer', call Call.opl_reset_buffer s)

/-! ## Construction -/

/-- `pas16_init`: the zeroed state block, with the timer instance and the host-side
oracles supplied by the caller.  Only the base-select port is bound. -/
def pas16_init (pit : pit_t) (sound_pos_global : Nat) (dma_channel_read : Nat → Nat → Nat)
    (opl_read : List Call → Int → Nat) (dsp_out : Nat → Int) (opl_buf : List Call → Nat → Int) :
    pas16_t :=
  { base := 0, irq := 0, dma := 0, audiofilt := 0, audio_mixer := 0, compat := 0,
    compat_base := 0, enhancedscsi := 0, io_conf_1 := 0, io_conf_2 := 0, io_conf_3 := 0,
    io_conf_4 := 0, irq_stat := 0, irq_ena := 0, pcm_ctrl := 0, pcm_dat := 0, pcm_dat_l := 0,
    pcm_dat_r := 0, sb_irqdma := 0, stereo_lr := 0, sys_conf_1 := 0, sys_conf_2 := 0,
    sys_conf_3 := 0, sys_conf_4 := 0, waitstates := 0, uart_ctrl := 0, uart_status := 0,
    uart_data := 0, uart_fifo := fun _ => 0, read_fifo_pos := 0, write_fifo_pos := 0,
    pcm_buffer := fun _ _ => 0, pos := 0, midi_uart_out := 1, pit := pit, dsp_pos := 0,
    sound_pos_global := sound_pos_global, dma_channel_read := dma_channel_read, dma_reads := 0,
    opl_read := opl_read, calls := [], io_windows := [], pit_windows := [],
    base_ports := [0x9a01], dsp_out := dsp_out, opl_buf := opl_buf }

/-! ## Example states -/

/-- A timer whose counters are all zero and stopped. -/
def pit_zero : pit_t :=
  { counters_0 := { m := 0, l := 0, rl := 0, enable := 0 },
    counters_1 := { m := 0, l := 0, rl := 0, enable := 0 },
    counters_2 := { m := 0, l := 0, rl := 0, enable := 0 } }

/-- The state right after construction, on a silent host. -/
def state_init : pas16_t :=
  pas16_init pit_zero 0 (fun _ _ => 0) (fun _ _ => 0) (fun _ => 0) (fun _ _ => 0)

/-- A state armed for PCM playback: countdown enabled in repeat mode with period and
countdown `p`, system-config-2 `sc2`, PCM control `ctrl`, and a DMA controller that
delivers the given bytes in order (then zeroes). -/
def state_pcm (p sc2 ctrl : Nat) (bytes : List Nat) : pas16_t :=
  { state_init with
    pit := { pit_zero with counters_1 := { m := 2, l := p, rl := p, enable := 1 } },
    sys_conf_2 := sc2, pcm_ctrl := ctrl,
    dma_channel_read := fun _ i => bytes.getD i 0 }

/-! ## Case labels of the dispatch -/

/-- The case labels of the switch in `pas16_in`. -/
def pas16_in_cases : List Int :=
  [0x388, 0x389, 0x38a, 0x38b, 0xb88, 0xb89, 0xb8a, 0xb8b, 0xf8a, 0x1789, 0x178a, 0x1b88,
   0x2789, 0x7f89, 0x8388, 0x8389, 0x838b, 0x838c, 0xbf88, 0xef8b, 0xf388, 0xf389, 0xf38a,
   0xf38b, 0xf788, 0xf789, 0xfb8a, 0xff88, 0xff8b]

/-- The case labels of the switch in `pas16_out`. -/
def pas16_out_cases : List Int :=
  [0x388, 0x389, 0x38a, 0x38b, 0xb88, 0xb89, 0xb8a, 0xb8b, 0xf88, 0xf89, 0xf8a, 0x1789,
   0x178b, 0x178a, 0x1b88, 0x7f89, 0x8388, 0x8389, 0x838a, 0x838b, 0xbf88, 0xf388, 0xf389,
   0xf38a, 0xf38b, 0xf788, 0xf789, 0xfb8a]

/-! ## Observables used in the statements -/

/-- The value of the 16-bit countdown right after the decrement of a tick. -/
def pcm_dec (s : pas16_t) : Nat :=
  if s.sys_conf_2 &&& PAS16_SC2_16BIT ≠ 0 then (s.pit.counters_1.rl + 65536 - 2) % 65536
  else (s.pit.counters_1.rl + 65536 - 1) % 65536

/-- The tick that starts in `s` raises the PCM-block-complete bit: the bit is set after
the tick even when it was clear before it. -/
def pcm_raised (s : pas16_t) : Prop :=
  (pas16_pcm_poll { s with irq_stat := and_not s.irq_stat PAS16_INT_PCM }).irq_stat
    &&& PAS16_INT_PCM ≠ 0

/-- The countdown is enabled, in repeat mode, and both the configured period and the
running countdown equal `p`. -/
def pcm_armed (s : pas16_t) (p : Nat) : Prop :=
  s.pit.counters_1.enable ≠ 0 ∧ s.pit.counters_1.m &&& 2 ≠ 0 ∧
  s.pit.counters_1.l &&& 0xffff = p ∧ s.pit.counters_1.rl = p

instance (s : pas16_t) : Decidable (pcm_raised s) := by
  unfold pcm_raised; infer_instance

instance (s : pas16_t) (p : Nat) : Decidable (pcm_armed s p) := by
  unfold pcm_armed; infer_instance

/-- The FIFO after the bytes `vals` are written in order with no read in between. -/
def fifo_writes (vals : List Nat) (s : pas16_t) : pas16_t :=
  vals.foldl (fun s v => es1371_write_fifo v s) s

/-- States the device can be in: the state after construction, followed by any
sequence of port reads and writes, base-select writes, sampler ticks, prescaler
output edges, buffer pulls, timer reprogramming and host time advance. -/
inductive Reachable : pas16_t → Prop where
  | init (pit : pit_t) (g : Nat) (dma : Nat → Nat → Nat) (opl : List Call → Int → Nat)
      (dsp : Nat → Int) (buf : List Call → Nat → Int) :
      Reachable (pas16_init pit g dma opl dsp buf)
  | port_in (s : pas16_t) (port : Nat) : Reachable s → Reachable (pas16_in port s).2
  | port_out (s : pas16_t) (port val : Nat) : val < 256 → Reachable s →
      Reachable (pas16_out port val s)
  | base_out (s : pas16_t) (val : Nat) : val < 256 → Reachable s →
      Reachable (pas16_out_base val s)
  | tick (s : pas16_t) : Reachable s → Reachable (pas16_pcm_poll s)
  | timer0 (s : pas16_t) (new_out : Int) : Reachable s → Reachable (pas16_pit_timer0 new_out s)
  | pull (s : pas16_t) (buffer : Nat → Int) (len : Nat) : Reachable s →
      Reachable (pas16_get_buffer buffer len s).2
  | pull_music (s : pas16_t) (buffer : Nat → Int) (len : Nat) : Reachable s →
      Reachable (pas16_get_music_buffer buffer len s).2
  | timer_write (s : pas16_t) (pit : pit_t) : Reachable s → Reachable { s with pit := pit }
  | host_time (s : pas16_t) (g : Nat) : Reachable s → Reachable { s with sound_pos_global := g }

/-- A state with filter register `filt`, latches `l` and `r`, a fill cursor at 0 and
the host's time cursor at `g`. -/
def state_out (filt l r g : Nat) : pas16_t :=
  { state_init with audiofilt := filt, pcm_dat_l := l, pcm_dat_r := r, sound_pos_global := g }


/-- The windows left bound after one binding of each device window at `base` is
removed from the bound windows `w` (the `io_removehandler` calls of
`pas16_out_base`). -/
def unbind_all (base : Nat) (w : List Nat) : List Nat :=
  io_window_offsets.foldl (fun w off => w.erase (window_port base off)) w

/-- The bound windows after every device window at `base` is added to `w` (the
`io_sethandler` calls of `pas16_out_base`). -/
def bind_all (base : Nat) (w : List Nat) : List Nat :=
  io_window_offsets.foldl (fun w off => window_port base off :: w) w

/-- The state `s` with another base address and other bound windows, every device
register as in `s`. -/
def relocated (b : Nat) (w pw : List Nat) (s : pas16_t) : pas16_t :=
  { s with base := b, io_windows := w, pit_windows := pw }


/-- The sample `temp` of `pas16_pcm_poll` as assembled from the next DMA bytes, before
the MSB inversion is applied. -/
def pcm_raw (s : pas16_t) : Nat :=
  if s.sys_conf_2 &&& PAS16_SC2_16BIT ≠ 0 then
    (((s.dma_channel_read s.dma s.dma_reads % 256) <<< 8) % 65536) |||
      (s.dma_channel_read s.dma (s.dma_reads + 1) % 256)
  else (((s.dma_channel_read s.dma s.dma_reads % 256) ^^^ 0x80) <<< 8) % 65536


/-- The host call by which a producer of `pas16_pcm_poll` drives the shared interrupt
line for its mask bit: `picint(1 << irq)` when the bit is enabled in `irq_ena`,
`picintc(1 << irq)` otherwise. -/
def line_call (s : pas16_t) (bit : Nat) : Call :=
  if s.irq_ena &&& bit ≠ 0 then Call.picint (1 <<< s.irq) else Call.picintc (1 <<< s.irq)

/-- The callback-timer re-arm of `pas16_pcm_poll`, as the list of host calls it makes. -/
def timer_rearm (s : pas16_t) : List Call :=
  if s.pit.counters_0.m &&& 2 ≠ 0 then
    (if s.pit.counters_0.l ≠ 0 then [Call.timer_advance_u64 s.pit.counters_0.l]
     else [Call.timer_advance_u64 0x10000])
  else []

/-! ## Host port map -/

/-- Modelled from the spec: the port map (outside the file) as the set of bound 4-port
windows; `port` lies in one of the windows that start at the ports of `w`. -/
def in_window (port : Nat) (w : List Nat) : Bool :=
  w.any (fun p => decide (p ≤ port ∧ port < p + 4))

/-- Modelled from the spec: a host read at `port`.  A port in a bound device window is
routed to `pas16_in`, a port in the timer's bound window to the read handler `pit_read`
of the timer module (outside the file), and a port in no bound window is unrouted and
reads 0xFF. -/
def io_inb (pit_read : Nat → pit_t → Nat × pit_t) (port : Nat) (s : pas16_t) : Nat × pas16_t :=
  if in_window port s.io_windows then pas16_in port s
  else if in_window port s.pit_windows then
    ((pit_read port s.pit).1, { s with pit := (pit_read port s.pit).2 })
  else (0xff, s)

/-- Modelled from the spec: a host write of `val` at `port`.  A port in a bound device
window is routed to `pas16_out`, a port in the timer's bound window to the write
handler `pit_write` of the timer module (outside the file), the base-select port to
`pas16_out_base`, and a write at any other port is dropped. -/
def io_outb (pit_write : Nat → Nat → pit_t → pit_t) (port val : Nat) (s : pas16_t) : pas16_t :=
  if in_window port s.io_windows then pas16_out port val s
  else if in_window port s.pit_windows then { s with pit := pit_write port val s.pit }
  else if s.base_ports.contains port then pas16_out_base val s
  else s

/-- The bound windows of `s` are exactly the device windows and the timer window at
the base address of `s`, one binding each (the port map after a base-select write). -/
def bound_at_base (s : pas16_t) : Prop :=
  s.io_windows = bind_all s.base [] ∧ s.pit_windows = [window_port s.base pit_window_offset]

instance (s : pas16_t) : Decidable (bound_at_base s) := by
  unfold bound_at_base
  exact inferInstance

/-! ## Bit lemmas -/

theorem and_not_testBit (a m i : Nat) (hi : i < 8) :
    (and_not a m).testBit i = (a.testBit i && !m.testBit i) := by
  have h255 : (0xff : Nat).testBit i = true := by
    have := Nat.testBit_two_pow_sub_one 8 i
    simpa [hi] using this
  simp [and_not, Nat.testBit_and, Nat.testBit_xor, h255]

theorem and_not_testBit_imp (a m i : Nat) (h : (and_not a m).testBit i = true) :
    a.testBit i = true := by
  simp [and_not, Nat.testBit_and] at h
  exact h.1

/-! ## Interrupt status/clear register -/

/-- C1: a write of `val` to the interrupt status/clear register (offset 0xb89) stores
`irq_stat & ~val` and changes no other field; bit by bit the new status is the old
status and-not the written value, so no status bit is ever set by the write. -/
theorem pas16_out_irq_stat_clear (s : pas16_t) (port val : Nat)
    (hport : decode port s = 0xb89) :
    pas16_out port val s = { s with irq_stat := and_not s.irq_stat val } ∧
    (∀ i, i < 8 → (pas16_out port val s).irq_stat.testBit i
        = (s.irq_stat.testBit i && !val.testBit i)) ∧
    (∀ i, (pas16_out port val s).irq_stat.testBit i = true → s.irq_stat.testBit i = true) := by
  have h : pas16_out port val s = { s with irq_stat := and_not s.irq_stat val } := by
    unfold pas16_out
    simp -zeta only [hport]
    rfl
  rw [h]
  exact ⟨rfl, fun i hi => and_not_testBit _ _ i hi, fun i hi => and_not_testBit_imp _ _ i hi⟩

theorem pas16_out_irq_stat_clear_witness :
    decode 0x801 state_init = 0xb89 ∧
    pas16_out 0x801 0x0c state_init
      = { state_init with irq_stat := and_not state_init.irq_stat 0x0c } :=
  ⟨by decide, (pas16_out_irq_stat_clear state_init 0x801 0x0c (by decide)).1⟩

/-! ## Unmapped offsets -/

/-- C2: at a port whose decoded offset is not a case label of the dispatch, a read
returns 0xFF and leaves the state unchanged, and a write of any value leaves the
state unchanged. -/
theorem pas16_unmapped (s : pas16_t) (port : Nat) :
    (decode port s ∉ pas16_in_cases → pas16_in port s = (0xff, s)) ∧
    (decode port s ∉ pas16_out_cases → ∀ val, pas16_out port val s = s) := by
  constructor
  · intro h
    simp only [pas16_in_cases, List.mem_cons, List.mem_singleton, not_or, List.not_mem_nil,
      not_false_eq_true, and_true] at h
    obtain ⟨h1, h2, h3, h4, h5, h6, h7, h8, h9, h10, h11, h12, h13, h14, h15, h16, h17, h18,
      h19, h20, h21, h22, h23, h24, h25, h26, h27, h28, h29⟩ := h
    simp only [pas16_in, h1, h2, h3, h4, h5, h6, h7, h8, h9, h10, h11, h12, h13, h14, h15, h16,
      h17, h18, h19, h20, h21, h22, h23, h24, h25, h26, h27, h28, h29, or_self, if_false]
  · intro h val
    simp only [pas16_out_cases, List.mem_cons, List.mem_singleton, not_or, List.not_mem_nil,
      not_false_eq_true, and_true] at h
    obtain ⟨h1, h2, h3, h4, h5, h6, h7, h8, h9, h10, h11, h12, h13, h14, h15, h16, h17, h18,
      h19, h20, h21, h22, h23, h24, h25, h26, h27, h28⟩ := h
    simp only [pas16_out, h1, h2, h3, h4, h5, h6, h7, h8, h9, h10, h11, h12, h13, h14, h15, h16,
      h17, h18, h19, h20, h21, h22, h23, h24, h25, h26, h27, h28, or_self, if_false]

theorem pas16_unmapped_witness :
    (decode 0x78 state_init ∉ pas16_in_cases ∧ pas16_in 0x78 state_init = (0xff, state_init)) ∧
    (decode 0x78 state_init ∉ pas16_out_cases ∧ pas16_out 0x78 0x55 state_init = state_init) :=
  ⟨⟨by decide, (pas16_unmapped state_init 0x78).1 (by decide)⟩,
   ⟨by decide, (pas16_unmapped state_init 0x78).2 (by decide) 0x55⟩⟩

/-! ## Frame lemmas for the sampler tick -/

theorem pas16_update_loop_frame (hold : Bool) (n : Nat) (s : pas16_t) :
    ∃ buf pos, pas16_update_loop hold n s = { s with pcm_buffer := buf, pos := pos } := by
  induction n generalizing s with
  | zero => exact ⟨s.pcm_buffer, s.pos, rfl⟩
  | succ n ih =>
    unfold pas16_update_loop
    split
    · obtain ⟨buf, pos, h⟩ := ih _
      exact ⟨buf, pos, by rw [h]⟩
    · exact ⟨s.pcm_buffer, s.pos, rfl⟩

theorem pas16_update_frame (s : pas16_t) :
    ∃ buf pos, pas16_update s = { s with pcm_buffer := buf, pos := pos } := by
  unfold pas16_update
  split
  · exact pas16_update_loop_frame _ _ _
  · exact pas16_update_loop_frame _ _ _

theorem pas16_pcm_head_frame (s : pas16_t) :
    ∃ buf pos calls, pas16_pcm_head s =
      { s with pcm_buffer := buf, pos := pos, calls := calls,
               irq_stat := s.irq_stat ||| PAS16_INT_SAMP } := by
  obtain ⟨buf, pos, h⟩ := pas16_update_frame s
  unfold pas16_pcm_head
  rw [h]
  simp only [picint, picintc, call]
  split_ifs <;> exact ⟨_, _, _, rfl⟩

theorem pas16_pcm_count_frame (s : pas16_t) :
    ∃ pit irq calls, pas16_pcm_count s = { s with pit := pit, irq_stat := irq, calls := calls } := by
  unfold pas16_pcm_count
  simp only [picint, picintc, set_rl, set_enable]
  split_ifs <;> exact ⟨_, _, _, rfl⟩

/-- A sampled tick (countdown enabled, PCM enabled): the latches, the toggle and the
DMA position afterwards, in terms of the state before the tick. -/
theorem pas16_pcm_poll_sampled (s : pas16_t) (hen : s.pit.counters_1.enable ≠ 0)
    (hena : s.pcm_ctrl &&& PAS16_PCM_ENA ≠ 0) :
    (pas16_pcm_poll s).pcm_dat_l =
        (if s.pcm_ctrl &&& PAS16_PCM_MONO ≠ 0 then (pas16_pcm_assemble s).1
         else if s.stereo_lr ≠ 0 then s.pcm_dat_l else (pas16_pcm_assemble s).1) ∧
    (pas16_pcm_poll s).pcm_dat_r =
        (if s.pcm_ctrl &&& PAS16_PCM_MONO ≠ 0 then (pas16_pcm_assemble s).1
         else if s.stereo_lr ≠ 0 then (pas16_pcm_assemble s).1 else s.pcm_dat_r) ∧
    (pas16_pcm_poll s).stereo_lr =
        (if s.pcm_ctrl &&& PAS16_PCM_MONO ≠ 0 then s.stereo_lr else lnot s.stereo_lr) ∧
    (pas16_pcm_poll s).dma_reads =
        s.dma_reads + (if s.sys_conf_2 &&& PAS16_SC2_16BIT ≠ 0 then 2 else 1) ∧
    (pas16_pcm_poll s).pcm_ctrl = s.pcm_ctrl ∧
    (pas16_pcm_poll s).sys_conf_2 = s.sys_conf_2 ∧
    (pas16_pcm_poll s).dma = s.dma ∧
    (pas16_pcm_poll s).dma_channel_read = s.dma_channel_read := by
  obtain ⟨buf, pos, calls, hh⟩ := pas16_pcm_head_frame s
  unfold pas16_pcm_poll
  rw [hh]
  simp only [hen, hena, ne_eq, not_false_eq_true, if_true]
  obtain ⟨pit, irq, calls2, hc⟩ := pas16_pcm_count_frame (pas16_pcm_sample
    { s with pcm_buffer := buf, pos := pos, calls := calls,
             irq_stat := s.irq_stat ||| PAS16_INT_SAMP })
  rw [hc]
  simp only [pas16_pcm_sample, pas16_pcm_assemble, pas16_readdma]
  split_ifs <;> simp

theorem pas16_pcm_sample_frame (s : pas16_t) :
    ∃ l r lr dr, pas16_pcm_sample s =
      { s with pcm_dat_l := l, pcm_dat_r := r, stereo_lr := lr, dma_reads := dr } := by
  simp only [pas16_pcm_sample, pas16_pcm_assemble, pas16_readdma]
  split_ifs <;> exact ⟨_, _, _, _, rfl⟩

/-- The countdown block on its own: the second counter, the interrupt status and
system-config-2 afterwards. -/
theorem pas16_pcm_count_effect (u : pas16_t) :
    (pas16_pcm_count u).pit.counters_1 =
        (if pcm_dec u = 0xffff then
          (if u.pit.counters_1.m &&& 2 ≠ 0 then
            { u.pit.counters_1 with rl := u.pit.counters_1.l &&& 0xffff }
           else { u.pit.counters_1 with enable := 0, rl := 0 })
         else { u.pit.counters_1 with rl := pcm_dec u }) ∧
    (pas16_pcm_count u).irq_stat =
        (if pcm_dec u = 0xffff then u.irq_stat ||| PAS16_INT_PCM else u.irq_stat) ∧
    (pas16_pcm_count u).sys_conf_2 = u.sys_conf_2 := by
  have h1 : (if u.sys_conf_2 &&& PAS16_SC2_16BIT ≠ 0 then
        set_rl ((u.pit.counters_1.rl + 65536 - 2) % 65536) u
      else set_rl ((u.pit.counters_1.rl + 65536 - 1) % 65536) u) = set_rl (pcm_dec u) u := by
    unfold pcm_dec
    split_ifs <;> rfl
  unfold pas16_pcm_count
  rw [h1]
  by_cases hd : pcm_dec u = 0xffff
  · have hd' : (set_rl (pcm_dec u) u).pit.counters_1.rl = 0xffff := hd
    simp only []
    rw [if_pos hd', if_pos hd, if_pos hd]
    by_cases hm : u.pit.counters_1.m &&& 2 ≠ 0
    · have hm' : (set_rl (pcm_dec u) u).pit.counters_1.m &&& 2 ≠ 0 := hm
      rw [if_pos hm', if_pos hm]
      by_cases hl : u.pit.counters_1.l &&& 0xffff ≠ 0
      · have hl' : (set_rl (pcm_dec u) u).pit.counters_1.l &&& 0xffff ≠ 0 := hl
        rw [if_pos hl']
        refine ⟨?_, ?_, ?_⟩ <;> (unfold picint picintc; split_ifs <;> rfl)
      · have hl' : ¬ ((set_rl (pcm_dec u) u).pit.counters_1.l &&& 0xffff ≠ 0) := hl
        rw [if_neg hl']
        have hl0 : u.pit.counters_1.l &&& 0xffff = 0 := by simpa using hl
        rw [hl0]
        refine ⟨?_, ?_, ?_⟩ <;> (unfold picint picintc; split_ifs <;> rfl)
    · have hm' : ¬ ((set_rl (pcm_dec u) u).pit.counters_1.m &&& 2 ≠ 0) := hm
      rw [if_neg hm', if_neg hm]
      refine ⟨?_, ?_, ?_⟩ <;> (unfold picint picintc; split_ifs <;> rfl)
  · have hd' : ¬ ((set_rl (pcm_dec u) u).pit.counters_1.rl = 0xffff) := hd
    simp only []
    rw [if_neg hd', if_neg hd, if_neg hd]
    exact ⟨rfl, rfl, rfl⟩

/-- The countdown block of a tick, on the state before the tick. -/
theorem pas16_pcm_poll_countdown (s : pas16_t) (hen : s.pit.counters_1.enable ≠ 0) :
    (pas16_pcm_poll s).pit.counters_1 =
        (if pcm_dec s = 0xffff then
          (if s.pit.counters_1.m &&& 2 ≠ 0 then
            { s.pit.counters_1 with rl := s.pit.counters_1.l &&& 0xffff }
           else { s.pit.counters_1 with enable := 0, rl := 0 })
         else { s.pit.counters_1 with rl := pcm_dec s }) ∧
    (pas16_pcm_poll s).irq_stat =
        (if pcm_dec s = 0xffff then s.irq_stat ||| PAS16_INT_SAMP ||| PAS16_INT_PCM
         else s.irq_stat ||| PAS16_INT_SAMP) ∧
    (pas16_pcm_poll s).sys_conf_2 = s.sys_conf_2 := by
  obtain ⟨buf, pos, calls, hh⟩ := pas16_pcm_head_frame s
  have hen' : (pas16_pcm_head s).pit.counters_1.enable ≠ 0 := by rw [hh]; exact hen
  have hpoll : pas16_pcm_poll s = pas16_pcm_count
      (if (pas16_pcm_head s).pcm_ctrl &&& PAS16_PCM_ENA ≠ 0 then
        pas16_pcm_sample (pas16_pcm_head s) else pas16_pcm_head s) := by
    unfold pas16_pcm_poll
    simp only []
    rw [if_pos hen']
  obtain ⟨l, r, lr, dr, hsmp⟩ := pas16_pcm_sample_frame (pas16_pcm_head s)
  have hu : ∀ u : pas16_t, u.pit = s.pit → u.sys_conf_2 = s.sys_conf_2 →
      u.irq_stat = s.irq_stat ||| PAS16_INT_SAMP → pcm_dec u = pcm_dec s ∧
      u.pit.counters_1 = s.pit.counters_1 := by
    intro u hp hs _
    unfold pcm_dec
    rw [hp, hs]
    exact ⟨rfl, rfl⟩
  have main : ∀ u : pas16_t, u.pit = s.pit → u.sys_conf_2 = s.sys_conf_2 →
      u.irq_stat = s.irq_stat ||| PAS16_INT_SAMP →
      (pas16_pcm_count u).pit.counters_1 =
        (if pcm_dec s = 0xffff then
          (if s.pit.counters_1.m &&& 2 ≠ 0 then
            { s.pit.counters_1 with rl := s.pit.counters_1.l &&& 0xffff }
           else { s.pit.counters_1 with enable := 0, rl := 0 })
         else { s.pit.counters_1 with rl := pcm_dec s }) ∧
      (pas16_pcm_count u).irq_stat =
        (if pcm_dec s = 0xffff then s.irq_stat ||| PAS16_INT_SAMP ||| PAS16_INT_PCM
         else s.irq_stat ||| PAS16_INT_SAMP) ∧
      (pas16_pcm_count u).sys_conf_2 = s.sys_conf_2 := by
    intro u hp hs hi
    obtain ⟨e1, e2, e3⟩ := pas16_pcm_count_effect u
    obtain ⟨d1, d2⟩ := hu u hp hs hi
    rw [e1, e2, e3, d1, d2, hi, hs]
    exact ⟨rfl, rfl, rfl⟩
  rw [hpoll]
  by_cases hena : (pas16_pcm_head s).pcm_ctrl &&& PAS16_PCM_ENA ≠ 0
  · rw [if_pos hena, hsmp, hh]
    exact main _ rfl rfl rfl
  · rw [if_neg hena, hh]
    exact main _ rfl rfl rfl

theorem pas16_pcm_assemble_16bit (s : pas16_t) (h16 : s.sys_conf_2 &&& PAS16_SC2_16BIT ≠ 0)
    (hinv : s.sys_conf_2 &&& PAS16_SC2_MSBINV = 0) :
    (pas16_pcm_assemble s).1 =
      (((s.dma_channel_read s.dma s.dma_reads % 256) <<< 8) % 65536) |||
        (s.dma_channel_read s.dma (s.dma_reads + 1) % 256) := by
  simp [pas16_pcm_assemble, pas16_readdma, h16, hinv]

theorem byte_shift8 (b : Nat) (hb : b < 256) : ((b % 256) <<< 8) % 65536 = b <<< 8 := by
  rw [Nat.mod_eq_of_lt hb, Nat.shiftLeft_eq]
  omega

/-! ## 16-bit stereo sampling -/

/-- C3: with the countdown enabled, PCM enabled, stereo routing, 16-bit mode, no MSB
inversion and the toggle at left-next, two consecutive ticks that both sample (the
countdown is still enabled at the second) leave `(b0 << 8) | b1` in the left latch,
`(b2 << 8) | b3` in the right latch and the toggle at left-next again, where
`b0 .. b3` are the next four DMA bytes; with countdown 2 the second tick always
samples, and the bytes 0x12, 0x34, 0x56, 0x78 give left 0x1234 and right 0x5678. -/
theorem pcm_stereo16_two_ticks (s : pas16_t) (b0 b1 b2 b3 : Nat)
    (hb0 : b0 < 256) (hb1 : b1 < 256) (hb2 : b2 < 256) (hb3 : b3 < 256)
    (hen : s.pit.counters_1.enable ≠ 0)
    (hena : s.pcm_ctrl &&& PAS16_PCM_ENA ≠ 0) (hst : s.pcm_ctrl &&& PAS16_PCM_MONO = 0)
    (h16 : s.sys_conf_2 &&& PAS16_SC2_16BIT ≠ 0) (hinv : s.sys_conf_2 &&& PAS16_SC2_MSBINV = 0)
    (hlr : s.stereo_lr = 0)
    (hd0 : s.dma_channel_read s.dma s.dma_reads = b0)
    (hd1 : s.dma_channel_read s.dma (s.dma_reads + 1) = b1)
    (hd2 : s.dma_channel_read s.dma (s.dma_reads + 2) = b2)
    (hd3 : s.dma_channel_read s.dma (s.dma_reads + 3) = b3) :
    ((pas16_pcm_poll s).pit.counters_1.enable ≠ 0 →
      (pas16_pcm_poll (pas16_pcm_poll s)).pcm_dat_l = (b0 <<< 8) ||| b1 ∧
      (pas16_pcm_poll (pas16_pcm_poll s)).pcm_dat_r = (b2 <<< 8) ||| b3 ∧
      (pas16_pcm_poll (pas16_pcm_poll s)).stereo_lr = 0) ∧
    (s.pit.counters_1.rl = 2 → b0 = 0x12 → b1 = 0x34 → b2 = 0x56 → b3 = 0x78 →
      (pas16_pcm_poll (pas16_pcm_poll s)).pcm_dat_l = 0x1234 ∧
      (pas16_pcm_poll (pas16_pcm_poll s)).pcm_dat_r = 0x5678 ∧
      (pas16_pcm_poll (pas16_pcm_poll s)).stereo_lr = 0) := by
  obtain ⟨hl1, hr1, hlr1, hdr1, hc1, hs1, hdma1, hdcr1⟩ := pas16_pcm_poll_sampled s hen hena
  have hmono : ¬ (s.pcm_ctrl &&& PAS16_PCM_MONO ≠ 0) := by simp [hst]
  rw [if_neg hmono] at hl1 hr1 hlr1
  rw [if_pos h16] at hdr1
  have hlr0 : ¬ (s.stereo_lr ≠ 0) := by simp [hlr]
  rw [if_neg hlr0, pas16_pcm_assemble_16bit s h16 hinv, hd0, hd1, byte_shift8 b0 hb0,
    Nat.mod_eq_of_lt hb1] at hl1
  rw [if_neg hlr0] at hr1
  have hlr1b : (pas16_pcm_poll s).stereo_lr = 1 := by rw [hlr1, hlr]; rfl
  have general : (pas16_pcm_poll s).pit.counters_1.enable ≠ 0 →
      (pas16_pcm_poll (pas16_pcm_poll s)).pcm_dat_l = (b0 <<< 8) ||| b1 ∧
      (pas16_pcm_poll (pas16_pcm_poll s)).pcm_dat_r = (b2 <<< 8) ||| b3 ∧
      (pas16_pcm_poll (pas16_pcm_poll s)).stereo_lr = 0 := by
    intro hen1
    have hena1 : (pas16_pcm_poll s).pcm_ctrl &&& PAS16_PCM_ENA ≠ 0 := by rw [hc1]; exact hena
    have h16b : (pas16_pcm_poll s).sys_conf_2 &&& PAS16_SC2_16BIT ≠ 0 := by rw [hs1]; exact h16
    have hinvb : (pas16_pcm_poll s).sys_conf_2 &&& PAS16_SC2_MSBINV = 0 := by rw [hs1]; exact hinv
    obtain ⟨hl2, hr2, hlr2, -, -, -, -, -⟩ :=
      pas16_pcm_poll_sampled (pas16_pcm_poll s) hen1 hena1
    have hmono1 : ¬ ((pas16_pcm_poll s).pcm_ctrl &&& PAS16_PCM_MONO ≠ 0) := by
      rw [hc1]; exact hmono
    have hlrn : (pas16_pcm_poll s).stereo_lr ≠ 0 := by rw [hlr1b]; decide
    rw [if_neg hmono1] at hl2 hr2 hlr2
    rw [if_pos hlrn] at hl2 hr2
    rw [pas16_pcm_assemble_16bit _ h16b hinvb, hdcr1, hdma1, hdr1, hd2,
      show s.dma_reads + 2 + 1 = s.dma_reads + 3 from rfl, hd3, byte_shift8 b2 hb2,
      Nat.mod_eq_of_lt hb3] at hr2
    refine ⟨by rw [hl2, hl1], hr2, ?_⟩
    rw [hlr2, hlr1b]; rfl
  refine ⟨general, ?_⟩
  intro hrl e0 e1 e2 e3
  have hen1 : (pas16_pcm_poll s).pit.counters_1.enable ≠ 0 := by
    have hcd := (pas16_pcm_poll_countdown s hen).1
    have hdec : pcm_dec s = 0 := by simp [pcm_dec, h16, hrl]
    rw [hdec] at hcd
    rw [hcd]
    simpa using hen
  obtain ⟨g1, g2, g3⟩ := general hen1
  subst e0 e1 e2 e3
  exact ⟨g1, g2, g3⟩

theorem pcm_stereo16_two_ticks_witness :
    (pas16_pcm_poll (pas16_pcm_poll (state_pcm 2 0x04 0x40 [0x12, 0x34, 0x56, 0x78]))).pcm_dat_l
        = 0x1234 ∧
    (pas16_pcm_poll (pas16_pcm_poll (state_pcm 2 0x04 0x40 [0x12, 0x34, 0x56, 0x78]))).pcm_dat_r
        = 0x5678 ∧
    (pas16_pcm_poll (pas16_pcm_poll (state_pcm 2 0x04 0x40 [0x12, 0x34, 0x56, 0x78]))).stereo_lr
        = 0 :=
  (pcm_stereo16_two_ticks (state_pcm 2 0x04 0x40 [0x12, 0x34, 0x56, 0x78]) 0x12 0x34 0x56 0x78
    (by decide) (by decide) (by decide) (by decide) (by decide) (by decide) (by decide)
    (by decide) (by decide) (by decide) (by decide) (by decide) (by decide) (by decide)).2
    (by decide) rfl rfl rfl rfl

/-! ## Block-complete countdown -/

theorem and_two_pow_ne_zero (x k : Nat) : x &&& 2 ^ k ≠ 0 ↔ x.testBit k = true := by
  rw [Nat.and_two_pow]
  cases x.testBit k <;> simp

theorem and_two_pow_eq_zero (x k : Nat) : x &&& 2 ^ k = 0 ↔ x.testBit k = false := by
  rw [Nat.and_two_pow]
  cases x.testBit k <;> simp

theorem pcm_bit_set (x : Nat) : (x ||| PAS16_INT_PCM) &&& PAS16_INT_PCM ≠ 0 := by
  have h : (8 : Nat).testBit 3 = true := by decide
  rw [show PAS16_INT_PCM = 2 ^ 3 from rfl, and_two_pow_ne_zero, Nat.testBit_or]
  simp [h]

theorem pcm_bit_clear (a : Nat) :
    (and_not a PAS16_INT_PCM ||| PAS16_INT_SAMP) &&& PAS16_INT_PCM = 0 := by
  have h1 : (247 : Nat).testBit 3 = false := by decide
  have h2 : (4 : Nat).testBit 3 = false := by decide
  rw [show PAS16_INT_PCM = 2 ^ 3 from rfl, and_two_pow_eq_zero, Nat.testBit_or]
  simp [and_not, PAS16_INT_SAMP, Nat.testBit_and, h1, h2]

theorem pcm_raised_iff (s : pas16_t) (hen : s.pit.counters_1.enable ≠ 0) :
    pcm_raised s ↔ pcm_dec s = 0xffff := by
  unfold pcm_raised
  have h := (pas16_pcm_poll_countdown
    { s with irq_stat := and_not s.irq_stat PAS16_INT_PCM } hen).2.1
  rw [h]
  have hd : pcm_dec { s with irq_stat := and_not s.irq_stat PAS16_INT_PCM } = pcm_dec s := rfl
  rw [hd]
  by_cases hc : pcm_dec s = 0xffff
  · simp only [hc, if_true, iff_true]
    exact pcm_bit_set _
  · simp only [hc, if_false, iff_false, not_not]
    exact pcm_bit_clear _

theorem succ_mod_cases (k c : Nat) (hc : 0 < c) :
    (k + 1) % c = if k % c + 1 = c then 0 else k % c + 1 := by
  have hlt := Nat.mod_lt k hc
  have hdiv := Nat.mod_add_div k c
  split_ifs with h
  · have e : k + 1 = c * (k / c + 1) := by rw [Nat.mul_add]; omega
    rw [e]; simp
  · have e : k + 1 = (k % c + 1) + c * (k / c) := by omega
    rw [e, Nat.add_mul_mod_self_left]
    exact Nat.mod_eq_of_lt (by omega)

/-- In 8-bit repeat mode the countdown after `k` ticks is `p - k mod (p + 1)`. -/
theorem pcm_ticks_8bit (s : pas16_t) (p : Nat) (hp : p ≤ 0xffff)
    (h8 : s.sys_conf_2 &&& PAS16_SC2_16BIT = 0) (harm : pcm_armed s p) (k : Nat) :
    (pas16_pcm_poll^[k] s).pit.counters_1.enable ≠ 0 ∧
    (pas16_pcm_poll^[k] s).pit.counters_1.m &&& 2 ≠ 0 ∧
    (pas16_pcm_poll^[k] s).pit.counters_1.l &&& 0xffff = p ∧
    (pas16_pcm_poll^[k] s).sys_conf_2 &&& PAS16_SC2_16BIT = 0 ∧
    (pas16_pcm_poll^[k] s).pit.counters_1.rl = p - k % (p + 1) := by
  induction k with
  | zero =>
    obtain ⟨a, b, c, d⟩ := harm
    exact ⟨a, b, c, h8, by simpa using d⟩
  | succ k ih =>
    obtain ⟨a, b, c, d, e⟩ := ih
    rw [Function.iterate_succ_apply']
    obtain ⟨hc, -, hs⟩ := pas16_pcm_poll_countdown _ a
    have hp1 : 0 < p + 1 := by omega
    have hlt := Nat.mod_lt k hp1
    have hmod := succ_mod_cases k (p + 1) hp1
    have hdec : pcm_dec (pas16_pcm_poll^[k] s)
        = ((pas16_pcm_poll^[k] s).pit.counters_1.rl + 65536 - 1) % 65536 := by
      simp [pcm_dec, d]
    rw [hc, hs, hdec, e, if_pos b]
    by_cases hz : k % (p + 1) = p
    · have h1 : (p - k % (p + 1) + 65536 - 1) % 65536 = 0xffff := by rw [hz]; simp
      rw [if_pos h1]
      refine ⟨a, b, c, d, ?_⟩
      rw [hmod, if_pos (by omega)]
      simpa using c
    · have h1 : (p - k % (p + 1) + 65536 - 1) % 65536 = p - k % (p + 1) - 1 := by omega
      have h2 : ¬ (p - k % (p + 1) + 65536 - 1) % 65536 = 0xffff := by omega
      rw [if_neg h2]
      refine ⟨a, b, c, d, ?_⟩
      rw [hmod, if_neg (by omega)]
      show (p - k % (p + 1) + 65536 - 1) % 65536 = _
      omega

/-- In 16-bit repeat mode with an odd period the countdown after `k` ticks is
`p - 2 * (k mod ((p + 1) / 2))`. -/
theorem pcm_ticks_16bit_odd (s : pas16_t) (p : Nat) (hp : p ≤ 0xffff) (hodd : p % 2 = 1)
    (h16 : s.sys_conf_2 &&& PAS16_SC2_16BIT ≠ 0) (harm : pcm_armed s p) (k : Nat) :
    (pas16_pcm_poll^[k] s).pit.counters_1.enable ≠ 0 ∧
    (pas16_pcm_poll^[k] s).pit.counters_1.m &&& 2 ≠ 0 ∧
    (pas16_pcm_poll^[k] s).pit.counters_1.l &&& 0xffff = p ∧
    (pas16_pcm_poll^[k] s).sys_conf_2 &&& PAS16_SC2_16BIT ≠ 0 ∧
    (pas16_pcm_poll^[k] s).pit.counters_1.rl = p - 2 * (k % ((p + 1) / 2)) := by
  have hcpos : 0 < (p + 1) / 2 := by omega
  induction k with
  | zero =>
    obtain ⟨a, b, c, d⟩ := harm
    exact ⟨a, b, c, h16, by simpa using d⟩
  | succ k ih =>
    obtain ⟨a, b, c, d, e⟩ := ih
    rw [Function.iterate_succ_apply']
    obtain ⟨hc, -, hs⟩ := pas16_pcm_poll_countdown _ a
    have hlt := Nat.mod_lt k hcpos
    have hmod := succ_mod_cases k ((p + 1) / 2) hcpos
    have hdec : pcm_dec (pas16_pcm_poll^[k] s)
        = ((pas16_pcm_poll^[k] s).pit.counters_1.rl + 65536 - 2) % 65536 := by
      simp [pcm_dec, d]
    rw [hc, hs, hdec, e, if_pos b]
    by_cases hz : k % ((p + 1) / 2) + 1 = (p + 1) / 2
    · have h1 : (p - 2 * (k % ((p + 1) / 2)) + 65536 - 2) % 65536 = 0xffff := by omega
      rw [if_pos h1]
      refine ⟨a, b, c, d, ?_⟩
      rw [hmod, if_pos hz]
      simpa using c
    · have h2 : ¬ (p - 2 * (k % ((p + 1) / 2)) + 65536 - 2) % 65536 = 0xffff := by omega
      rw [if_neg h2]
      refine ⟨a, b, c, d, ?_⟩
      rw [hmod, if_neg hz]
      show (p - 2 * (k % ((p + 1) / 2)) + 65536 - 2) % 65536 = _
      omega

/-- In 16-bit mode an even countdown stays even, so it never takes the value 0xffff:
the block-complete branch is never entered. -/
theorem pcm_ticks_16bit_even (s : pas16_t)
    (h16 : s.sys_conf_2 &&& PAS16_SC2_16BIT ≠ 0) (hen : s.pit.counters_1.enable ≠ 0)
    (hrl : s.pit.counters_1.rl % 2 = 0) (k : Nat) :
    (pas16_pcm_poll^[k] s).pit.counters_1.enable ≠ 0 ∧
    (pas16_pcm_poll^[k] s).sys_conf_2 &&& PAS16_SC2_16BIT ≠ 0 ∧
    (pas16_pcm_poll^[k] s).pit.counters_1.rl % 2 = 0 ∧
    ¬ pcm_raised (pas16_pcm_poll^[k] s) := by
  have step : ∀ t : pas16_t, t.sys_conf_2 &&& PAS16_SC2_16BIT ≠ 0 →
      t.pit.counters_1.rl % 2 = 0 → pcm_dec t ≠ 0xffff ∧ pcm_dec t % 2 = 0 := by
    intro t h1 h2
    have hdec : pcm_dec t = (t.pit.counters_1.rl + 65536 - 2) % 65536 := by
      simp [pcm_dec, h1]
    rw [hdec]
    omega
  induction k with
  | zero => exact ⟨hen, h16, hrl, by rw [Function.iterate_zero_apply, pcm_raised_iff s hen]; exact (step s h16 hrl).1⟩
  | succ k ih =>
    obtain ⟨a, b, c, -⟩ := ih
    rw [Function.iterate_succ_apply']
    obtain ⟨hc, -, hs⟩ := pas16_pcm_poll_countdown _ a
    obtain ⟨hne, hev⟩ := step _ b c
    rw [if_neg hne] at hc
    have a' : (pas16_pcm_poll (pas16_pcm_poll^[k] s)).pit.counters_1.enable ≠ 0 := by
      rw [hc]; exact a
    have b' : (pas16_pcm_poll (pas16_pcm_poll^[k] s)).sys_conf_2 &&& PAS16_SC2_16BIT ≠ 0 := by
      rw [hs]; exact b
    have c' : (pas16_pcm_poll (pas16_pcm_poll^[k] s)).pit.counters_1.rl % 2 = 0 := by
      rw [hc]; exact hev
    exact ⟨a', b', c', by rw [pcm_raised_iff _ a']; exact (step _ b' c').1⟩

/-- A tick never changes the mode or the configured period of the second counter. -/
theorem pas16_pcm_poll_keeps (s : pas16_t) :
    (pas16_pcm_poll s).pit.counters_1.m = s.pit.counters_1.m ∧
    (pas16_pcm_poll s).pit.counters_1.l = s.pit.counters_1.l := by
  by_cases hen : s.pit.counters_1.enable ≠ 0
  · rw [(pas16_pcm_poll_countdown s hen).1]
    split_ifs <;> simp
  · obtain ⟨buf, pos, calls, hh⟩ := pas16_pcm_head_frame s
    unfold pas16_pcm_poll
    rw [hh]
    simp only [hen, if_false]
    simp

theorem pas16_pcm_poll_iterate_keeps (s : pas16_t) (k : Nat) :
    (pas16_pcm_poll^[k] s).pit.counters_1.m = s.pit.counters_1.m ∧
    (pas16_pcm_poll^[k] s).pit.counters_1.l = s.pit.counters_1.l := by
  induction k with
  | zero => exact ⟨rfl, rfl⟩
  | succ k ih =>
    rw [Function.iterate_succ_apply']
    obtain ⟨h1, h2⟩ := pas16_pcm_poll_keeps (pas16_pcm_poll^[k] s)
    exact ⟨h1.trans ih.1, h2.trans ih.2⟩

/-- C4 (as the code behaves): in 16-bit mode with the countdown armed in repeat mode
with period `p`, `1 ≤ p ≤ 0xffff`, every tick decrements the 16-bit countdown by 2
(reloading `p` when the decremented value is 0xffff).  For odd `p` the tick that raises
the PCM-block-complete bit is tick number `k + 1` exactly when `(p + 1) / 2`, which is
`ceil(p / 2)`, divides `k + 1`.  For even `p` no tick raises the bit: the countdown
stays even and steps from 0 to 0xfffe, past the value 0xffff the test looks for. -/
theorem pcm_block_complete_16bit (s : pas16_t) (p : Nat) (hp1 : 1 ≤ p) (hp2 : p ≤ 0xffff)
    (h16 : s.sys_conf_2 &&& PAS16_SC2_16BIT ≠ 0) (harm : pcm_armed s p) (k : Nat) :
    (pas16_pcm_poll^[k + 1] s).pit.counters_1.rl =
      (if ((pas16_pcm_poll^[k] s).pit.counters_1.rl + 65536 - 2) % 65536 = 0xffff then p
       else ((pas16_pcm_poll^[k] s).pit.counters_1.rl + 65536 - 2) % 65536) ∧
    (p % 2 = 1 → (pcm_raised (pas16_pcm_poll^[k] s) ↔ (p + 1) / 2 ∣ k + 1)) ∧
    (p % 2 = 0 → ¬ pcm_raised (pas16_pcm_poll^[k] s)) := by
  have inv : (pas16_pcm_poll^[k] s).pit.counters_1.enable ≠ 0 ∧
      (pas16_pcm_poll^[k] s).sys_conf_2 &&& PAS16_SC2_16BIT ≠ 0 := by
    rcases Nat.mod_two_eq_zero_or_one p with h | h
    · obtain ⟨a, b, -, -⟩ := pcm_ticks_16bit_even s h16 harm.1 (by rw [harm.2.2.2]; exact h) k
      exact ⟨a, b⟩
    · obtain ⟨a, -, -, b, -⟩ := pcm_ticks_16bit_odd s p hp2 h h16 harm k
      exact ⟨a, b⟩
  obtain ⟨a, d⟩ := inv
  obtain ⟨hm, hl⟩ := pas16_pcm_poll_iterate_keeps s k
  have b : (pas16_pcm_poll^[k] s).pit.counters_1.m &&& 2 ≠ 0 := by rw [hm]; exact harm.2.1
  have c : (pas16_pcm_poll^[k] s).pit.counters_1.l &&& 0xffff = p := by rw [hl]; exact harm.2.2.1
  have hdec : pcm_dec (pas16_pcm_poll^[k] s)
      = ((pas16_pcm_poll^[k] s).pit.counters_1.rl + 65536 - 2) % 65536 := by
    simp [pcm_dec, d]
  refine ⟨?_, ?_, ?_⟩
  · rw [Function.iterate_succ_apply', (pas16_pcm_poll_countdown _ a).1, hdec, if_pos b]
    split_ifs
    · exact c
    · rfl
  · intro hodd
    obtain ⟨-, -, -, -, e⟩ := pcm_ticks_16bit_odd s p hp2 hodd h16 harm k
    have hcpos : 0 < (p + 1) / 2 := by omega
    have hlt := Nat.mod_lt k hcpos
    have hmod := succ_mod_cases k ((p + 1) / 2) hcpos
    rw [pcm_raised_iff _ a, hdec, e, Nat.dvd_iff_mod_eq_zero, hmod]
    split_ifs with hz
    · simp only [iff_true]; omega
    · simp only [Nat.add_one_ne_zero, iff_false]; omega
  · intro hev
    exact (pcm_ticks_16bit_even s h16 harm.1 (by rw [harm.2.2.2]; exact hev) k).2.2.2

theorem pcm_block_complete_16bit_witness :
    (pas16_pcm_poll^[1 + 1] (state_pcm 3 0x04 0 [])).pit.counters_1.rl =
      (if ((pas16_pcm_poll^[1] (state_pcm 3 0x04 0 [])).pit.counters_1.rl + 65536 - 2) % 65536
          = 0xffff then 3
       else ((pas16_pcm_poll^[1] (state_pcm 3 0x04 0 [])).pit.counters_1.rl + 65536 - 2) % 65536) ∧
    (pcm_raised (pas16_pcm_poll^[1] (state_pcm 3 0x04 0 [])) ↔ (3 + 1) / 2 ∣ 1 + 1) ∧
    ¬ pcm_raised (pas16_pcm_poll^[5] (state_pcm 2 0x04 0 [])) :=
  ⟨(pcm_block_complete_16bit (state_pcm 3 0x04 0 []) 3 (by decide) (by decide) (by decide)
      (by decide) 1).1,
   (pcm_block_complete_16bit (state_pcm 3 0x04 0 []) 3 (by decide) (by decide) (by decide)
      (by decide) 1).2.1 (by decide),
   (pcm_block_complete_16bit (state_pcm 2 0x04 0 []) 2 (by decide) (by decide) (by decide)
      (by decide) 5).2.2 (by decide)⟩

/-- C4 fails on the code for an even period: armed with period 2 in 16-bit mode, the
first tick (tick `ceil(2 / 2) = 1`) takes the countdown from 2 to 0, not to 0xffff,
and does not raise the PCM-block-complete bit; the second tick takes it from 0 to
0xfffe, past 0xffff, and does not raise the bit either. -/
theorem pcm_block_complete_16bit_counterexample :
    pcm_armed (state_pcm 2 0x04 0 []) 2 ∧
    (state_pcm 2 0x04 0 []).sys_conf_2 &&& PAS16_SC2_16BIT ≠ 0 ∧
    (2 + 1) / 2 ∣ 0 + 1 ∧
    (pas16_pcm_poll (state_pcm 2 0x04 0 [])).pit.counters_1.rl = 0 ∧
    ¬ pcm_raised (pas16_pcm_poll^[0] (state_pcm 2 0x04 0 [])) ∧
    (pas16_pcm_poll^[2] (state_pcm 2 0x04 0 [])).pit.counters_1.rl = 0xfffe ∧
    ¬ pcm_raised (pas16_pcm_poll^[1] (state_pcm 2 0x04 0 [])) := by
  refine ⟨by decide, by decide, by decide, by decide, by decide, by decide, by decide⟩

/-- C5 (amended): in 8-bit mode with the countdown armed in repeat mode with period
`p`, `1 ≤ p ≤ 0xffff`, every tick decrements the 16-bit countdown by 1 (reloading `p`
when the decremented value is 0xffff), and the tick that raises the
PCM-block-complete bit is tick number `k + 1` exactly when `p + 1` divides `k + 1`. -/
theorem pcm_block_complete_8bit (s : pas16_t) (p : Nat) (hp1 : 1 ≤ p) (hp2 : p ≤ 0xffff)
    (h8 : s.sys_conf_2 &&& PAS16_SC2_16BIT = 0) (harm : pcm_armed s p) (k : Nat) :
    (pas16_pcm_poll^[k + 1] s).pit.counters_1.rl =
      (if ((pas16_pcm_poll^[k] s).pit.counters_1.rl + 65536 - 1) % 65536 = 0xffff then p
       else ((pas16_pcm_poll^[k] s).pit.counters_1.rl + 65536 - 1) % 65536) ∧
    (pcm_raised (pas16_pcm_poll^[k] s) ↔ p + 1 ∣ k + 1) := by
  obtain ⟨a, b, c, d, e⟩ := pcm_ticks_8bit s p hp2 h8 harm k
  have hdec : pcm_dec (pas16_pcm_poll^[k] s)
      = ((pas16_pcm_poll^[k] s).pit.counters_1.rl + 65536 - 1) % 65536 := by
    simp [pcm_dec, d]
  constructor
  · rw [Function.iterate_succ_apply', (pas16_pcm_poll_countdown _ a).1, hdec, if_pos b]
    split_ifs
    · exact c
    · rfl
  · have hp : 0 < p + 1 := by omega
    have hlt := Nat.mod_lt k hp
    have hmod := succ_mod_cases k (p + 1) hp
    rw [pcm_raised_iff _ a, hdec, e, Nat.dvd_iff_mod_eq_zero, hmod]
    split_ifs with hz
    · simp only [iff_true]; omega
    · simp only [Nat.add_one_ne_zero, iff_false]; omega

theorem pcm_block_complete_8bit_witness :
    (pas16_pcm_poll^[2 + 1] (state_pcm 2 0 0 [])).pit.counters_1.rl =
      (if ((pas16_pcm_poll^[2] (state_pcm 2 0 0 [])).pit.counters_1.rl + 65536 - 1) % 65536
          = 0xffff then 2
       else ((pas16_pcm_poll^[2] (state_pcm 2 0 0 [])).pit.counters_1.rl + 65536 - 1) % 65536) ∧
    (pcm_raised (pas16_pcm_poll^[2] (state_pcm 2 0 0 [])) ↔ 2 + 1 ∣ 2 + 1) :=
  pcm_block_complete_8bit (state_pcm 2 0 0 []) 2 (by decide) (by decide) (by decide)
    (by decide) 2

/-- C5 as stated fails: armed with period 1 in 8-bit mode, the first tick (tick
`p = 1`) takes the countdown from 1 to 0 and does not raise the PCM-block-complete
bit; the second tick takes it to 0xffff and raises it. -/
theorem pcm_block_complete_8bit_counterexample :
    pcm_armed (state_pcm 1 0 0 []) 1 ∧
    (state_pcm 1 0 0 []).sys_conf_2 &&& PAS16_SC2_16BIT = 0 ∧
    1 ∣ 0 + 1 ∧
    (pas16_pcm_poll (state_pcm 1 0 0 [])).pit.counters_1.rl = 0 ∧
    ¬ pcm_raised (pas16_pcm_poll^[0] (state_pcm 1 0 0 [])) ∧
    pcm_raised (pas16_pcm_poll^[1] (state_pcm 1 0 0 [])) := by
  refine ⟨by decide, by decide, by decide, by decide, by decide, by decide⟩

/-! ## PCM control register and the stereo toggle -/

/-- C6: a write of `val` to the PCM control register (offset 0xf8a) leaves the stereo
toggle at left-next (0) when `val` has the enable bit 0x40 set and the stored control
byte had it clear, and leaves the toggle unchanged otherwise; after such a 0→1
transition into stereo routing, the next sampled tick puts the assembled sample in
the left latch and leaves the right latch unchanged. -/
theorem pcm_ctrl_write_toggle (s : pas16_t) (port val : Nat)
    (hport : decode port s = 0xf8a) :
    (pas16_out port val s).stereo_lr =
      (if val &&& PAS16_PCM_ENA ≠ 0 ∧ s.pcm_ctrl &&& PAS16_PCM_ENA = 0 then 0
       else s.stereo_lr) ∧
    (pas16_out port val s).pcm_ctrl = val ∧
    (val &&& PAS16_PCM_ENA ≠ 0 → s.pcm_ctrl &&& PAS16_PCM_ENA = 0 →
      val &&& PAS16_PCM_MONO = 0 → s.pit.counters_1.enable ≠ 0 →
      (pas16_pcm_poll (pas16_out port val s)).pcm_dat_l
          = (pas16_pcm_assemble (pas16_out port val s)).1 ∧
      (pas16_pcm_poll (pas16_out port val s)).pcm_dat_r = s.pcm_dat_r ∧
      (pas16_pcm_poll (pas16_out port val s)).stereo_lr = 1) := by
  have hout : pas16_out port val s =
      (let s := if val &&& PAS16_PCM_ENA ≠ 0 ∧ ¬ (s.pcm_ctrl &&& PAS16_PCM_ENA ≠ 0) then
          { s with stereo_lr := 0 } else s
       { s with pcm_ctrl := val }) := by
    unfold pas16_out
    simp -zeta only [hport]
    rfl
  by_cases h : val &&& PAS16_PCM_ENA ≠ 0 ∧ s.pcm_ctrl &&& PAS16_PCM_ENA = 0
  · have h2 : val &&& PAS16_PCM_ENA ≠ 0 ∧ ¬ (s.pcm_ctrl &&& PAS16_PCM_ENA ≠ 0) :=
      ⟨h.1, not_not.mpr h.2⟩
    rw [if_pos h2] at hout
    rw [hout, if_pos h]
    refine ⟨rfl, rfl, ?_⟩
    intro hv _ hst hen
    obtain ⟨hl, hr, hlr, -⟩ := pas16_pcm_poll_sampled
      { { s with stereo_lr := 0 } with pcm_ctrl := val } hen hv
    have hmono : ¬ (val &&& PAS16_PCM_MONO ≠ 0) := not_not.mpr hst
    rw [if_neg hmono] at hl hr hlr
    exact ⟨hl, hr, hlr⟩
  · have h2 : ¬ (val &&& PAS16_PCM_ENA ≠ 0 ∧ ¬ (s.pcm_ctrl &&& PAS16_PCM_ENA ≠ 0)) := by
      intro hh; exact h ⟨hh.1, not_not.mp hh.2⟩
    rw [if_neg h2] at hout
    rw [hout, if_neg h]
    refine ⟨rfl, rfl, ?_⟩
    intro hv hs _ _
    exact absurd ⟨hv, hs⟩ h

theorem pcm_ctrl_write_toggle_witness :
    (pas16_pcm_poll (pas16_out 0xc02 0x40
        { state_pcm 4 0 0 [0x90] with stereo_lr := 1, pcm_dat_r := 7 })).pcm_dat_l
      = (pas16_pcm_assemble (pas16_out 0xc02 0x40
        { state_pcm 4 0 0 [0x90] with stereo_lr := 1, pcm_dat_r := 7 })).1 ∧
    (pas16_pcm_poll (pas16_out 0xc02 0x40
        { state_pcm 4 0 0 [0x90] with stereo_lr := 1, pcm_dat_r := 7 })).pcm_dat_r = 7 ∧
    (pas16_pcm_poll (pas16_out 0xc02 0x40
        { state_pcm 4 0 0 [0x90] with stereo_lr := 1, pcm_dat_r := 7 })).stereo_lr = 1 :=
  (pcm_ctrl_write_toggle { state_pcm 4 0 0 [0x90] with stereo_lr := 1, pcm_dat_r := 7 }
    0xc02 0x40 (by decide)).2.2 (by decide) (by decide) (by decide) (by decide)

/-! ## MIDI control register and the receive FIFO -/

theorem and_not_bit_clear (a k : Nat) (hk : k < 8) : and_not a (2 ^ k) &&& 2 ^ k = 0 := by
  rw [and_two_pow_eq_zero, and_not_testBit a (2 ^ k) k hk, Nat.testBit_two_pow_self]
  simp

/-- C7: a write to the MIDI control register (offset 0x1789 or 0x178b) of a value with
both bits 0x60 set leaves the receive FIFO empty (read cursor = write cursor) and the
receive-ready sub-bit 0x04 of the UART status clear, whatever the state before. -/
theorem midi_ctrl_soft_reset (s : pas16_t) (port val : Nat)
    (hport : decode port s = 0x1789 ∨ decode port s = 0x178b)
    (hval : val &&& 0x60 = 0x60) :
    (pas16_out port val s).read_fifo_pos = (pas16_out port val s).write_fifo_pos ∧
    (pas16_out port val s).uart_status &&& 0x04 = 0 ∧
    (∀ i, i < 16 → (pas16_out port val s).uart_fifo i = 0) := by
  have hout : pas16_out port val s =
      pas16_reset_fifo (pas16_set_tx_irq 1 { s with uart_ctrl := val }) := by
    rcases hport with h | h
    · unfold pas16_out
      simp -zeta only [h]
      rw [if_pos hval]
      rfl
    · unfold pas16_out
      simp -zeta only [h]
      rw [if_pos hval]
      rfl
  rw [hout]
  refine ⟨rfl, ?_, ?_⟩
  · exact and_not_bit_clear _ 2 (by decide)
  · intro i hi
    show (if i < 16 then 0 else _) = 0
    rw [if_pos hi]

theorem midi_ctrl_soft_reset_witness :
    (pas16_out 0x1401 0x60 (es1371_write_fifo 0x90 state_init)).read_fifo_pos
      = (pas16_out 0x1401 0x60 (es1371_write_fifo 0x90 state_init)).write_fifo_pos ∧
    (pas16_out 0x1401 0x60 (es1371_write_fifo 0x90 state_init)).uart_status &&& 0x04 = 0 :=
  ⟨(midi_ctrl_soft_reset (es1371_write_fifo 0x90 state_init) 0x1401 0x60
      (Or.inl (by decide)) (by decide)).1,
   (midi_ctrl_soft_reset (es1371_write_fifo 0x90 state_init) 0x1401 0x60
      (Or.inl (by decide)) (by decide)).2.1⟩

theorem es1371_write_fifo_cursor (v : Nat) (s : pas16_t) (h : s.write_fifo_pos < 16) :
    (es1371_write_fifo v s).write_fifo_pos = (s.write_fifo_pos + 1) % 16 ∧
    (es1371_write_fifo v s).read_fifo_pos = s.read_fifo_pos := by
  simp only [es1371_write_fifo, h, if_true]
  exact ⟨Nat.and_pow_two_sub_one_eq_mod _ 4, trivial⟩

theorem fifo_writes_cursor (vals : List Nat) (s : pas16_t) (h : s.write_fifo_pos < 16) :
    (fifo_writes vals s).write_fifo_pos = (s.write_fifo_pos + vals.length) % 16 ∧
    (fifo_writes vals s).read_fifo_pos = s.read_fifo_pos := by
  induction vals generalizing s with
  | nil => exact ⟨by simp [fifo_writes, Nat.mod_eq_of_lt h], rfl⟩
  | cons v vs ih =>
    obtain ⟨h1, h2⟩ := es1371_write_fifo_cursor v s h
    have hlt : (es1371_write_fifo v s).write_fifo_pos < 16 := by rw [h1]; omega
    obtain ⟨g1, g2⟩ := ih (es1371_write_fifo v s) hlt
    have e : fifo_writes (v :: vs) s = fifo_writes vs (es1371_write_fifo v s) := rfl
    rw [e, g1, g2, h1, h2]
    refine ⟨?_, rfl⟩
    simp only [List.length_cons]
    omega

/-- C8: from a FIFO whose write cursor is in 0..15, sixteen writes with no read in
between bring the write cursor back to where it started, the cursor stays in 0..15
after each of them, and the read cursor does not move; so a FIFO that was empty
(read cursor = write cursor) has read cursor = write cursor again. -/
theorem fifo_sixteen_writes (s : pas16_t) (vals : List Nat)
    (hw : s.write_fifo_pos < 16) (hlen : vals.length = 16) :
    (fifo_writes vals s).write_fifo_pos = s.write_fifo_pos ∧
    (∀ k, k ≤ 16 → (fifo_writes (vals.take k) s).write_fifo_pos < 16) ∧
    (fifo_writes vals s).read_fifo_pos = s.read_fifo_pos ∧
    (s.read_fifo_pos = s.write_fifo_pos →
      (fifo_writes vals s).write_fifo_pos = (fifo_writes vals s).read_fifo_pos) := by
  obtain ⟨h1, h2⟩ := fifo_writes_cursor vals s hw
  have hback : (fifo_writes vals s).write_fifo_pos = s.write_fifo_pos := by
    rw [h1, hlen]; omega
  refine ⟨hback, ?_, h2, ?_⟩
  · intro k _
    rw [(fifo_writes_cursor (vals.take k) s hw).1]
    exact Nat.mod_lt _ (by decide)
  · intro he
    rw [hback, h2, he]

theorem fifo_sixteen_writes_witness :
    (fifo_writes (List.range 16) (es1371_write_fifo 0x90 state_init)).write_fifo_pos
      = (es1371_write_fifo 0x90 state_init).write_fifo_pos ∧
    (fifo_writes (List.range 16) state_init).write_fifo_pos
      = (fifo_writes (List.range 16) state_init).read_fifo_pos :=
  ⟨(fifo_sixteen_writes (es1371_write_fifo 0x90 state_init) (List.range 16)
      (by decide) (by decide)).1,
   (fifo_sixteen_writes state_init (List.range 16) (by decide) (by decide)).2.2.2 (by decide)⟩

/-! ## System-config-1 and the device reset -/

/-- The state `pas16_reset` hands to `pas16_update_midi_irqs`. -/
theorem pas16_reset_eq (s : pas16_t) :
    pas16_reset s = pas16_update_midi_irqs (pas16_reset_fifo (pas16_set_tx_irq 0
      { s with uart_status := 0xff, uart_ctrl := 0x00,
               uart_fifo := fun i => if i < 16 then 0x00 else s.uart_fifo i })) := rfl

theorem pas16_reset_pre (s : pas16_t) :
    (pas16_reset_fifo (pas16_set_tx_irq 0
      { s with uart_status := 0xff, uart_ctrl := 0x00,
               uart_fifo := fun i => if i < 16 then 0x00 else s.uart_fifo i })).uart_status
      = 0xe3 := by
  show and_not (and_not 0xff 0x18) 0x04 = 0xe3
  rfl

theorem pas16_update_midi_irqs_idle (t : pas16_t) (h : t.uart_status = 0xe3) :
    pas16_update_midi_irqs t =
      picintc (1 <<< t.irq) { t with irq_stat := and_not t.irq_stat PAS16_INT_MIDI } := by
  unfold pas16_update_midi_irqs
  simp only []
  have hc : ¬ (t.uart_status &&& 0x18 ≠ 0 ∨ t.uart_status &&& 0x04 ≠ 0) := by
    rw [h]; decide
  rw [if_neg hc]

theorem pas16_reset_effect (s : pas16_t) :
    (pas16_reset s).uart_status = 0xe3 ∧
    (pas16_reset s).irq_stat = and_not s.irq_stat PAS16_INT_MIDI ∧
    (pas16_reset s).read_fifo_pos = 0 ∧ (pas16_reset s).write_fifo_pos = 0 ∧
    (pas16_reset s).base = s.base := by
  rw [pas16_reset_eq, pas16_update_midi_irqs_idle _ (pas16_reset_pre s)]
  refine ⟨pas16_reset_pre s, rfl, ?_, ?_, rfl⟩
  · show (0 : Nat) = 0
    rfl
  · show (0 : Nat) = 0
    rfl

theorem pas16_out_sys_conf_1 (s : pas16_t) (port val : Nat)
    (hport : decode port s = 0x8388) :
    pas16_out port val s =
        (let s := if val &&& 0x80 ≠ 0 ∧ ¬ (s.sys_conf_1 &&& 0x80 ≠ 0) then pas16_reset s else s
         { s with sys_conf_1 := val }) := by
  unfold pas16_out
  simp -zeta only [hport]
  rfl

theorem pas16_in_uart_status (s : pas16_t) (port : Nat) (hport : decode port s = 0x1b88) :
    pas16_in port s = (s.uart_status, s) := by
  unfold pas16_in
  simp -zeta only [hport]
  rfl

/-- Storing system-config-1 leaves the fields read below as they were. -/
theorem with_sys_conf_1_fields (x : pas16_t) (v : Nat) :
    ({ x with sys_conf_1 := v } : pas16_t).uart_status = x.uart_status ∧
    ({ x with sys_conf_1 := v } : pas16_t).irq_stat = x.irq_stat ∧
    ({ x with sys_conf_1 := v } : pas16_t).read_fifo_pos = x.read_fifo_pos ∧
    ({ x with sys_conf_1 := v } : pas16_t).write_fifo_pos = x.write_fifo_pos :=
  ⟨rfl, rfl, rfl, rfl⟩

/-- C9 (amended): a write to system-config-1 (offset 0x8388) that newly sets bit 7
performs the device reset, after which a read of the MIDI UART status register
(0x1b88) returns 0xE3 (0xFF with the tracked sub-bits 0x18 and 0x04 cleared), the
MIDI bit 0x10 of the interrupt status is clear and the receive FIFO is empty; a write
that does not newly set bit 7 changes only the stored system-config-1 byte. -/
theorem sys_conf_1_write_reset (s : pas16_t) (port val : Nat)
    (hport : decode port s = 0x8388) :
    (val &&& 0x80 ≠ 0 → s.sys_conf_1 &&& 0x80 = 0 →
      pas16_out port val s = { pas16_reset s with sys_conf_1 := val } ∧
      (∀ q, decode q (pas16_out port val s) = 0x1b88 →
        (pas16_in q (pas16_out port val s)).1 = 0xe3) ∧
      (pas16_out port val s).irq_stat &&& PAS16_INT_MIDI = 0 ∧
      (pas16_out port val s).read_fifo_pos = (pas16_out port val s).write_fifo_pos) ∧
    (¬ (val &&& 0x80 ≠ 0 ∧ s.sys_conf_1 &&& 0x80 = 0) →
      pas16_out port val s = { s with sys_conf_1 := val }) := by
  have h0 := pas16_out_sys_conf_1 s port val hport
  constructor
  · intro hv hs
    have hout : pas16_out port val s = { pas16_reset s with sys_conf_1 := val } := by
      rw [h0, if_pos ⟨hv, not_not.mpr hs⟩]
    obtain ⟨h1, h2, h3, h4, -⟩ := pas16_reset_effect s
    obtain ⟨f1, f2, f3, f4⟩ := with_sys_conf_1_fields (pas16_reset s) val
    have e1 : (pas16_out port val s).uart_status = 0xe3 :=
      ((congrArg pas16_t.uart_status hout).trans f1).trans h1
    have e2 : (pas16_out port val s).irq_stat = and_not s.irq_stat PAS16_INT_MIDI :=
      ((congrArg pas16_t.irq_stat hout).trans f2).trans h2
    have e3 : (pas16_out port val s).read_fifo_pos = 0 :=
      ((congrArg pas16_t.read_fifo_pos hout).trans f3).trans h3
    have e4 : (pas16_out port val s).write_fifo_pos = 0 :=
      ((congrArg pas16_t.write_fifo_pos hout).trans f4).trans h4
    refine ⟨hout, ?_, ?_, ?_⟩
    · intro q hq
      rw [pas16_in_uart_status _ q hq]
      exact e1
    · rw [e2]
      exact and_not_bit_clear _ 4 (by decide)
    · rw [e3, e4]
  · intro h
    have h2 : ¬ (val &&& 0x80 ≠ 0 ∧ ¬ (s.sys_conf_1 &&& 0x80 ≠ 0)) := by
      intro hh; exact h ⟨hh.1, not_not.mp hh.2⟩
    rw [h0, if_neg h2]

theorem sys_conf_1_write_reset_witness :
    (pas16_in 0x1800 (pas16_out 0x8000 0x80 (es1371_write_fifo 0x90 state_init))).1 = 0xe3 ∧
    pas16_out 0x8000 0x01 state_init = { state_init with sys_conf_1 := 0x01 } :=
  ⟨((sys_conf_1_write_reset (es1371_write_fifo 0x90 state_init) 0x8000 0x80 (by decide)).1
      (by decide) (by decide)).2.1 0x1800 (by decide),
   (sys_conf_1_write_reset state_init 0x8000 0x01 (by decide)).2 (by decide)⟩

/-- C9 as stated fails: after a system-config-1 write that newly sets bit 7, the MIDI
UART status register reads 0xE3, not 0xFF, while the MIDI interrupt bit is clear. -/
theorem sys_conf_1_write_reset_counterexample :
    decode 0x8000 state_init = 0x8388 ∧
    state_init.sys_conf_1 &&& 0x80 = 0 ∧
    decode 0x1800 (pas16_out 0x8000 0x80 state_init) = 0x1b88 ∧
    (pas16_in 0x1800 (pas16_out 0x8000 0x80 state_init)).1 = 0xe3 ∧
    (pas16_in 0x1800 (pas16_out 0x8000 0x80 state_init)).1 ≠ 0xff ∧
    (pas16_out 0x8000 0x80 state_init).irq_stat &&& PAS16_INT_MIDI = 0 := by
  refine ⟨by decide, by decide, by decide, by decide, by decide, by decide⟩

/-- Whatever the helpers called before it did, after `pas16_update_midi_irqs` a UART
status of 0xFF comes with the MIDI interrupt bit set. -/
theorem pas16_update_midi_irqs_status_ff (s : pas16_t) (h : s.uart_status = 0xff) :
    (pas16_update_midi_irqs s).uart_status = 0xff ∧
    (pas16_update_midi_irqs s).irq_stat &&& PAS16_INT_MIDI ≠ 0 := by
  have hbit : ∀ x : Nat, (x ||| PAS16_INT_MIDI) &&& PAS16_INT_MIDI ≠ 0 := by
    intro x
    have h4 : (16 : Nat).testBit 4 = true := by decide
    rw [show PAS16_INT_MIDI = 2 ^ 4 from rfl, and_two_pow_ne_zero, Nat.testBit_or]
    simp [h4]
  have hc : (0xff : Nat) &&& 0x18 ≠ 0 := by decide
  simp only [pas16_update_midi_irqs, h, picint]
  rw [if_pos (Or.inl hc)]
  exact ⟨rfl, hbit _⟩

/-! ## Base address -/

theorem pas16_update_base (s : pas16_t) : (pas16_update s).base = s.base := by
  obtain ⟨buf, pos, h⟩ := pas16_update_frame s
  rw [h]

theorem pas16_update_loop_base (hold : Bool) (n : Nat) (s : pas16_t) :
    (pas16_update_loop hold n s).base = s.base := by
  obtain ⟨buf, pos, h⟩ := pas16_update_loop_frame hold n s
  rw [h]

theorem ite_base {c : Prop} [Decidable c] {a b : pas16_t} {x : Nat}
    (ha : a.base = x) (hb : b.base = x) : (if c then a else b).base = x := by
  split_ifs
  · exact ha
  · exact hb

theorem ite_snd_base {c : Prop} [Decidable c] {a b : Nat × pas16_t} {x : Nat}
    (ha : a.2.base = x) (hb : b.2.base = x) : (if c then a else b).2.base = x := by
  split_ifs
  · exact ha
  · exact hb

theorem pas16_in_base (port : Nat) (s : pas16_t) : (pas16_in port s).2.base = s.base := by
  simp only [pas16_in, call]
  repeat' apply ite_snd_base
  all_goals rfl

theorem pas16_out_keeps_base (port val : Nat) (s : pas16_t) :
    (pas16_out port val s).base = s.base := by
  simp only [pas16_out, call]
  repeat' apply ite_base
  all_goals first
    | rfl
    | exact pas16_update_base _
    | exact pas16_update_loop_base _ _ _

theorem pas16_pcm_poll_base (s : pas16_t) : (pas16_pcm_poll s).base = s.base := by
  obtain ⟨buf, pos, calls, hh⟩ := pas16_pcm_head_frame s
  have hc : ∀ u : pas16_t, (pas16_pcm_count u).base = u.base := by
    intro u
    obtain ⟨pit, irq, calls, h⟩ := pas16_pcm_count_frame u
    rw [h]
  have hs : ∀ u : pas16_t, (pas16_pcm_sample u).base = u.base := by
    intro u
    obtain ⟨l, r, lr, dr, h⟩ := pas16_pcm_sample_frame u
    rw [h]
  unfold pas16_pcm_poll
  rw [hh]
  simp only []
  split_ifs
  · rw [hc, hs]
  · rw [hc]
  · rfl

theorem io_removehandler_fold_base (l : List Int) (s : pas16_t) :
    (l.foldl (fun s off => io_removehandler (window_port s.base off) s) s).base = s.base := by
  induction l generalizing s with
  | nil => rfl
  | cons a l ih => rw [List.foldl_cons, ih]; rfl

theorem io_sethandler_fold_base (l : List Int) (s : pas16_t) :
    (l.foldl (fun s off => io_sethandler (window_port s.base off) s) s).base = s.base := by
  induction l generalizing s with
  | nil => rfl
  | cons a l ih => rw [List.foldl_cons, ih]; rfl

theorem pit_handler_base (set p : Nat) (s : pas16_t) : (pit_handler set p s).base = s.base := by
  simp only [pit_handler]
  split_ifs <;> rfl

theorem pas16_out_base_sets_base (val : Nat) (s : pas16_t) :
    (pas16_out_base val s).base = (val <<< 2) % 65536 := by
  simp only [pas16_out_base]
  rw [io_sethandler_fold_base, pit_handler_base, io_sethandler_fold_base]

theorem shl2_bound (val : Nat) (h : val < 256) :
    (val <<< 2) % 65536 = val <<< 2 ∧ val <<< 2 ≤ 0x3fc ∧ (val <<< 2) % 4 = 0 := by
  rw [Nat.shiftLeft_eq]
  omega

/-- C10: the base address is 0 after construction; a base-select write of a byte `val`
sets it to `val << 2`, at most 0x3fc; port reads and writes, sampler ticks and the two
buffer pulls leave it unchanged; hence it is a multiple of 4 (and at most 0x3fc) in
every reachable state. -/
theorem base_multiple_of_four :
    (∀ pit g dma opl dsp buf, (pas16_init pit g dma opl dsp buf).base = 0) ∧
    (∀ (s : pas16_t) (val : Nat), val < 256 →
      (pas16_out_base val s).base = val <<< 2 ∧ (pas16_out_base val s).base ≤ 0x3fc) ∧
    (∀ (s : pas16_t) (port val : Nat) (buffer : Nat → Int) (len : Nat),
      (pas16_in port s).2.base = s.base ∧ (pas16_out port val s).base = s.base ∧
      (pas16_pcm_poll s).base = s.base ∧ (pas16_get_buffer buffer len s).2.base = s.base ∧
      (pas16_get_music_buffer buffer len s).2.base = s.base) ∧
    (∀ s : pas16_t, Reachable s → s.base % 4 = 0 ∧ s.base ≤ 0x3fc) := by
  have hset : ∀ (s : pas16_t) (val : Nat), val < 256 →
      (pas16_out_base val s).base = val <<< 2 ∧ (pas16_out_base val s).base ≤ 0x3fc := by
    intro s val hv
    obtain ⟨h1, h2, -⟩ := shl2_bound val hv
    rw [pas16_out_base_sets_base, h1]
    exact ⟨rfl, h2⟩
  have hpull : ∀ (s : pas16_t) (buffer : Nat → Int) (len : Nat),
      (pas16_get_buffer buffer len s).2.base = s.base := by
    intro s buffer len
    simp only [pas16_get_buffer]
    rw [pas16_update_base]
    rfl
  refine ⟨fun _ _ _ _ _ _ => rfl, hset, ?_, ?_⟩
  · intro s port val buffer len
    exact ⟨pas16_in_base port s, pas16_out_keeps_base port val s, pas16_pcm_poll_base s,
      hpull s buffer len, rfl⟩
  · intro s hs
    induction hs with
    | init => exact ⟨rfl, Nat.zero_le _⟩
    | port_in s port _ ih => rw [pas16_in_base]; exact ih
    | port_out s port val _ _ ih => rw [pas16_out_keeps_base]; exact ih
    | base_out s val hv _ _ =>
      obtain ⟨h1, h2⟩ := hset s val hv
      refine ⟨?_, h2⟩
      rw [h1]
      exact (shl2_bound val hv).2.2
    | tick s _ ih => rw [pas16_pcm_poll_base]; exact ih
    | timer0 s new_out _ ih => exact ih
    | pull s buffer len _ ih => rw [hpull]; exact ih
    | pull_music s buffer len _ ih => exact ih
    | timer_write s pit _ ih => exact ih
    | host_time s g _ ih => exact ih

theorem base_multiple_of_four_witness :
    (pas16_out_base 0xe2 state_init).base = 0x388 ∧
    (pas16_pcm_poll (pas16_out 0xb8b 0x1c (pas16_out_base 0xe2 state_init))).base % 4 = 0 :=
  ⟨(base_multiple_of_four.2.1 state_init 0xe2 (by decide)).1,
   (base_multiple_of_four.2.2.2 _
      (Reachable.tick _ (Reachable.port_out _ 0xb8b 0x1c (by decide)
        (Reachable.base_out _ 0xe2 (by decide)
          (Reachable.init pit_zero 0 (fun _ _ => 0) (fun _ _ => 0) (fun _ => 0)
            (fun _ _ => 0)))))).1⟩

/-! ## Output sampler fill -/

/-- One turn of the fill loop of `pas16_update`. -/
theorem pas16_update_loop_step (hold : Bool) (n : Nat) (s : pas16_t)
    (h : s.pos < s.sound_pos_global) :
    pas16_update_loop hold (n + 1) s =
      pas16_update_loop hold n
        { s with
          pcm_buffer := fun c i =>
            if c = 1 ∧ i = s.pos then (if hold then int16 s.pcm_dat_r else 0)
            else if c = 0 ∧ i = s.pos then (if hold then int16 s.pcm_dat_l else 0)
            else s.pcm_buffer c i,
          pos := s.pos + 1 } := by
  rw [pas16_update_loop, if_pos h]

/-- The fill loop run with enough fuel: the cursor ends at `max pos g`, the slots in
`[pos, g)` of channels 0 and 1 hold the fill value, every other slot is unchanged. -/
theorem pas16_update_loop_spec (hold : Bool) (n : Nat) (s : pas16_t)
    (hn : s.sound_pos_global - s.pos ≤ n) :
    (pas16_update_loop hold n s).pos = max s.pos s.sound_pos_global ∧
    (∀ c i, (pas16_update_loop hold n s).pcm_buffer c i =
      if (c = 0 ∨ c = 1) ∧ s.pos ≤ i ∧ i < s.sound_pos_global then
        (if hold then (if c = 0 then int16 s.pcm_dat_l else int16 s.pcm_dat_r) else 0)
      else s.pcm_buffer c i) := by
  induction n generalizing s with
  | zero =>
    have hg : s.sound_pos_global ≤ s.pos := by omega
    refine ⟨(Nat.max_eq_left hg).symm, ?_⟩
    intro c i
    rw [if_neg (by omega)]
    rfl
  | succ n ih =>
    by_cases h : s.pos < s.sound_pos_global
    · rw [pas16_update_loop_step hold n s h]
      have key : ∀ t : pas16_t, t.pos = s.pos + 1 → t.sound_pos_global = s.sound_pos_global →
          t.pcm_dat_l = s.pcm_dat_l → t.pcm_dat_r = s.pcm_dat_r →
          (∀ c i, t.pcm_buffer c i =
            if c = 1 ∧ i = s.pos then (if hold then int16 s.pcm_dat_r else 0)
            else if c = 0 ∧ i = s.pos then (if hold then int16 s.pcm_dat_l else 0)
            else s.pcm_buffer c i) →
          (pas16_update_loop hold n t).pos = max s.pos s.sound_pos_global ∧
          (∀ c i, (pas16_update_loop hold n t).pcm_buffer c i =
            if (c = 0 ∨ c = 1) ∧ s.pos ≤ i ∧ i < s.sound_pos_global then
              (if hold then (if c = 0 then int16 s.pcm_dat_l else int16 s.pcm_dat_r) else 0)
            else s.pcm_buffer c i) := by
        intro t tp tg tl tr tb
        obtain ⟨h1, h2⟩ := ih t (by rw [tp, tg]; omega)
        refine ⟨?_, ?_⟩
        · rw [h1, tp, tg, Nat.max_eq_right (by omega), Nat.max_eq_right (by omega)]
        · intro c i
          rw [h2 c i, tp, tg, tl, tr, tb c i]
          by_cases hi : i = s.pos
          · subst hi
            rcases Nat.lt_or_ge c 2 with hc | hc
            · interval_cases c <;> simp [h]
            · have c0 : c ≠ 0 := by omega
              have c1 : c ≠ 1 := by omega
              simp [c0, c1]
          · by_cases hr : s.pos + 1 ≤ i ∧ i < s.sound_pos_global
            · have hr2 : s.pos ≤ i ∧ i < s.sound_pos_global := ⟨by omega, hr.2⟩
              simp [hr, hr2, hi]
            · have hr2 : ¬ (s.pos ≤ i ∧ i < s.sound_pos_global) := by omega
              simp [hr, hr2, hi]
      exact key _ rfl rfl rfl rfl (fun _ _ => rfl)
    · have hg : s.sound_pos_global ≤ s.pos := by omega
      have e : pas16_update_loop hold (n + 1) s = s := by
        rw [pas16_update_loop, if_neg h]
      rw [e]
      refine ⟨(Nat.max_eq_left hg).symm, ?_⟩
      intro c i
      rw [if_neg (by omega)]

/-- What `pas16_update` leaves in the output buffer and in the fill cursor. -/
theorem pas16_update_spec (s : pas16_t) :
    (pas16_update s).pos = max s.pos s.sound_pos_global ∧
    (∀ c i, (pas16_update s).pcm_buffer c i =
      if (c = 0 ∨ c = 1) ∧ s.pos ≤ i ∧ i < s.sound_pos_global then
        (if s.audiofilt &&& PAS16_FILT_MUTE = 0 then 0
         else if c = 0 then int16 s.pcm_dat_l else int16 s.pcm_dat_r)
      else s.pcm_buffer c i) := by
  unfold pas16_update
  by_cases hm : s.audiofilt &&& PAS16_FILT_MUTE = 0
  · rw [if_pos hm]
    obtain ⟨h1, h2⟩ := pas16_update_loop_spec false _ s (Nat.le_refl _)
    refine ⟨h1, ?_⟩
    intro c i
    rw [h2 c i, if_pos hm]
    rfl
  · rw [if_neg hm]
    obtain ⟨h1, h2⟩ := pas16_update_loop_spec true _ s (Nat.le_refl _)
    refine ⟨h1, ?_⟩
    intro c i
    rw [h2 c i, if_neg hm]
    rfl

/-- C12 (amended): `pas16_update` fills every output-buffer slot `i` with
`pos ≤ i < g` of both channels with silence (0) if the mute filter bit 0x20 is clear,
and with the latched left value (channel 0) and right value (channel 1), read as signed
16-bit, if the bit is set; slots below `pos` are unchanged, the fill cursor becomes
`max pos g`, and no other field changes. -/
theorem pas16_update_fill (s : pas16_t) :
    (pas16_update s).pos = max s.pos s.sound_pos_global ∧
    (∀ c i, (c = 0 ∨ c = 1) → s.pos ≤ i → i < s.sound_pos_global →
      (pas16_update s).pcm_buffer c i =
        (if s.audiofilt &&& PAS16_FILT_MUTE = 0 then 0
         else if c = 0 then int16 s.pcm_dat_l else int16 s.pcm_dat_r)) ∧
    (∀ c i, i < s.pos → (pas16_update s).pcm_buffer c i = s.pcm_buffer c i) ∧
    (∃ buf pos, pas16_update s = { s with pcm_buffer := buf, pos := pos }) := by
  obtain ⟨h1, h2⟩ := pas16_update_spec s
  refine ⟨h1, ?_, ?_, pas16_update_frame s⟩
  · intro c i hc hp hg
    rw [h2 c i, if_pos ⟨hc, hp, hg⟩]
  · intro c i hi
    rw [h2 c i, if_neg (by omega)]

theorem pas16_update_fill_witness :
    (pas16_update (state_out 0x20 0x1234 0x8000 3)).pcm_buffer 0 2 = int16 0x1234 ∧
    (pas16_update (state_out 0x20 0x1234 0x8000 3)).pcm_buffer 1 2 = int16 0x8000 ∧
    (pas16_update (state_out 0x00 0x1234 0x8000 3)).pcm_buffer 0 2 = 0 :=
  ⟨(pas16_update_fill (state_out 0x20 0x1234 0x8000 3)).2.1 0 2 (Or.inl rfl) (by decide)
      (by decide),
   (pas16_update_fill (state_out 0x20 0x1234 0x8000 3)).2.1 1 2 (Or.inr rfl) (by decide)
      (by decide),
   (pas16_update_fill (state_out 0x00 0x1234 0x8000 3)).2.1 0 2 (Or.inl rfl) (by decide)
      (by decide)⟩

/-- C12 as stated fails: with the mute bit 0x20 set the slots are filled with the
latches (0x1234 left, 0x8000 read as -32768 right), not with silence; with the bit
clear they are filled with 0, not with the latches. -/
theorem pas16_update_fill_counterexample :
    (state_out 0x20 0x1234 0x8000 3).audiofilt &&& PAS16_FILT_MUTE ≠ 0 ∧
    (pas16_update (state_out 0x20 0x1234 0x8000 3)).pcm_buffer 0 0 = 0x1234 ∧
    (pas16_update (state_out 0x20 0x1234 0x8000 3)).pcm_buffer 1 0 = -32768 ∧
    (state_out 0x00 0x1234 0x8000 3).audiofilt &&& PAS16_FILT_MUTE = 0 ∧
    (pas16_update (state_out 0x00 0x1234 0x8000 3)).pcm_buffer 0 0 = 0 ∧
    int16 (state_out 0x00 0x1234 0x8000 3).pcm_dat_l ≠ 0 := by
  refine ⟨by decide, by decide, by decide, by decide, by decide, by decide⟩

/-! ## Filter and PCM-data writes -/

theorem testBit_ff00 (i : Nat) :
    (0xff00 : Nat).testBit i = (decide (8 ≤ i) && decide (i < 16)) := by
  have h : (0xff00 : Nat) = 0xff <<< 8 := rfl
  have h2 := Nat.testBit_two_pow_sub_one 8 (i - 8)
  rw [h, Nat.testBit_shiftLeft]
  norm_num at h2
  rw [h2]
  by_cases h8 : 8 ≤ i
  · simp [h8]; omega
  · simp [h8]

theorem testBit_ff (i : Nat) : (0xff : Nat).testBit i = decide (i < 8) := by
  have h2 := Nat.testBit_two_pow_sub_one 8 i
  norm_num at h2
  exact h2

theorem testBit_byte_high (v i : Nat) (hv : v < 256) (hi : 8 ≤ i) : v.testBit i = false := by
  apply Nat.testBit_lt_two_pow
  calc v < 2 ^ 8 := hv
    _ ≤ 2 ^ i := Nat.pow_le_pow_right (by decide) hi

/-- Storing a byte in the low half of the PCM data word. -/
theorem pcm_dat_low_write (x v : Nat) (hv : v < 256) :
    ((x &&& 0xff00) ||| v) % 256 = v ∧
    ((x &&& 0xff00) ||| v) / 256 % 256 = x / 256 % 256 := by
  constructor
  · apply Nat.eq_of_testBit_eq
    intro i
    rw [show (256 : Nat) = 2 ^ 8 from rfl, Nat.testBit_mod_two_pow, Nat.testBit_or,
      Nat.testBit_and, testBit_ff00]
    by_cases h8 : i < 8
    · have : ¬ 8 ≤ i := by omega
      simp [h8, this]
    · simp [h8, testBit_byte_high v i hv (by omega)]
  · apply Nat.eq_of_testBit_eq
    intro i
    rw [show (256 : Nat) = 2 ^ 8 from rfl, Nat.testBit_mod_two_pow, Nat.testBit_mod_two_pow,
      ← Nat.shiftRight_eq_div_pow, ← Nat.shiftRight_eq_div_pow, Nat.testBit_shiftRight,
      Nat.testBit_shiftRight, Nat.testBit_or, Nat.testBit_and, testBit_ff00]
    by_cases h8 : i < 8
    · have h1 : 8 ≤ 8 + i := by omega
      have h2 : 8 + i < 16 := by omega
      simp [h8, h1, h2, testBit_byte_high v (8 + i) hv (by omega)]
    · simp [h8]

/-- Storing a byte in the high half of the PCM data word. -/
theorem pcm_dat_high_write (x v : Nat) (hv : v < 256) :
    (((x &&& 0x00ff) ||| (v <<< 8)) % 65536) % 256 = x % 256 ∧
    (((x &&& 0x00ff) ||| (v <<< 8)) % 65536) / 256 = v := by
  constructor
  · apply Nat.eq_of_testBit_eq
    intro i
    rw [show (256 : Nat) = 2 ^ 8 from rfl, show (65536 : Nat) = 2 ^ 16 from rfl,
      Nat.testBit_mod_two_pow, Nat.testBit_mod_two_pow, Nat.testBit_mod_two_pow,
      Nat.testBit_or, Nat.testBit_and, testBit_ff, Nat.testBit_shiftLeft]
    by_cases h8 : i < 8
    · have h1 : ¬ i ≥ 8 := by omega
      have h2 : i < 16 := by omega
      simp [h8, h1, h2]
    · simp [h8]
  · apply Nat.eq_of_testBit_eq
    intro i
    rw [show (256 : Nat) = 2 ^ 8 from rfl, show (65536 : Nat) = 2 ^ 16 from rfl,
      ← Nat.shiftRight_eq_div_pow, Nat.testBit_shiftRight, Nat.testBit_mod_two_pow,
      Nat.testBit_or, Nat.testBit_and, testBit_ff, Nat.testBit_shiftLeft]
    by_cases h8 : i < 8
    · have h1 : 8 + i ≥ 8 := by omega
      have h2 : 8 + i < 16 := by omega
      have h3 : ¬ 8 + i < 8 := by omega
      simp [h1, h2, h3]
    · have h2 : ¬ 8 + i < 16 := by omega
      simp [h2, testBit_byte_high v i hv (by omega)]

theorem pas16_out_audiofilt (s : pas16_t) (port val : Nat) (hport : decode port s = 0xb8a) :
    pas16_out port val s = { pas16_update s with audiofilt := val } := by
  unfold pas16_out
  simp -zeta only [hport]
  rfl

theorem pas16_out_pcm_dat_low (s : pas16_t) (port val : Nat) (hport : decode port s = 0xf88) :
    pas16_out port val s =
      { pas16_update s with pcm_dat := ((pas16_update s).pcm_dat &&& 0xff00) ||| val } := by
  unfold pas16_out
  simp -zeta only [hport]
  rfl

theorem pas16_out_pcm_dat_high (s : pas16_t) (port val : Nat) (hport : decode port s = 0xf89) :
    pas16_out port val s =
      { pas16_update s with
        pcm_dat := (((pas16_update s).pcm_dat &&& 0x00ff) ||| (val <<< 8)) % 65536 } := by
  unfold pas16_out
  simp -zeta only [hport]
  rfl

/-- Storing the filter byte or the PCM data word leaves the output buffer and the fill
cursor as they were. -/
theorem with_reg_keeps_buffer (x : pas16_t) (v : Nat) :
    (({ x with audiofilt := v } : pas16_t).pos = x.pos ∧
     ({ x with audiofilt := v } : pas16_t).pcm_buffer = x.pcm_buffer ∧
     ({ x with audiofilt := v } : pas16_t).audiofilt = v) ∧
    (({ x with pcm_dat := v } : pas16_t).pos = x.pos ∧
     ({ x with pcm_dat := v } : pas16_t).pcm_buffer = x.pcm_buffer ∧
     ({ x with pcm_dat := v } : pas16_t).pcm_dat = v) :=
  ⟨⟨rfl, rfl, rfl⟩, ⟨rfl, rfl, rfl⟩⟩

theorem pas16_update_pcm_dat (s : pas16_t) : (pas16_update s).pcm_dat = s.pcm_dat := by
  obtain ⟨buf, pos, h⟩ := pas16_update_frame s
  rw [h]

/-- C20: a write to the filter register (0xb8a) or to a PCM-data register (0xf88,
0xf89) first flushes the sampler with the filter value and latches held before the
write (slots in `[pos, g)` filled as `pas16_update` fills them, slots below `pos`
unchanged, fill cursor at `max pos g`) and then stores the written byte: 0xb8a holds
`val`, 0xf88 replaces only the low byte of the PCM data word, 0xf89 only the high
byte. -/
theorem filter_pcm_write_flush (s : pas16_t) (port val : Nat) (hv : val < 256)
    (hport : decode port s = 0xb8a ∨ decode port s = 0xf88 ∨ decode port s = 0xf89) :
    (pas16_out port val s).pos = max s.pos s.sound_pos_global ∧
    (∀ c i, (c = 0 ∨ c = 1) → s.pos ≤ i → i < s.sound_pos_global →
      (pas16_out port val s).pcm_buffer c i = (pas16_update s).pcm_buffer c i ∧
      (pas16_update s).pcm_buffer c i =
        (if s.audiofilt &&& PAS16_FILT_MUTE = 0 then 0
         else if c = 0 then int16 s.pcm_dat_l else int16 s.pcm_dat_r)) ∧
    (∀ c i, i < s.pos → (pas16_out port val s).pcm_buffer c i = s.pcm_buffer c i) ∧
    (decode port s = 0xb8a →
      pas16_out port val s = { pas16_update s with audiofilt := val } ∧
      (pas16_out port val s).audiofilt = val) ∧
    (decode port s = 0xf88 →
      pas16_out port val s =
        { pas16_update s with pcm_dat := (s.pcm_dat &&& 0xff00) ||| val } ∧
      (pas16_out port val s).pcm_dat % 256 = val ∧
      (pas16_out port val s).pcm_dat / 256 % 256 = s.pcm_dat / 256 % 256) ∧
    (decode port s = 0xf89 →
      pas16_out port val s =
        { pas16_update s with pcm_dat := ((s.pcm_dat &&& 0x00ff) ||| (val <<< 8)) % 65536 } ∧
      (pas16_out port val s).pcm_dat % 256 = s.pcm_dat % 256 ∧
      (pas16_out port val s).pcm_dat / 256 = val) := by
  obtain ⟨u1, u2⟩ := pas16_update_spec s
  have hd := pas16_update_pcm_dat s
  have hbuf : (pas16_out port val s).pos = (pas16_update s).pos ∧
      (pas16_out port val s).pcm_buffer = (pas16_update s).pcm_buffer := by
    rcases hport with h | h | h
    · have e := pas16_out_audiofilt s port val h
      obtain ⟨⟨f1, f2, -⟩, -⟩ := with_reg_keeps_buffer (pas16_update s) val
      exact ⟨(congrArg pas16_t.pos e).trans f1, (congrArg pas16_t.pcm_buffer e).trans f2⟩
    · have e := pas16_out_pcm_dat_low s port val h
      obtain ⟨-, ⟨f1, f2, -⟩⟩ := with_reg_keeps_buffer (pas16_update s)
        (((pas16_update s).pcm_dat &&& 0xff00) ||| val)
      exact ⟨(congrArg pas16_t.pos e).trans f1, (congrArg pas16_t.pcm_buffer e).trans f2⟩
    · have e := pas16_out_pcm_dat_high s port val h
      obtain ⟨-, ⟨f1, f2, -⟩⟩ := with_reg_keeps_buffer (pas16_update s)
        ((((pas16_update s).pcm_dat &&& 0x00ff) ||| (val <<< 8)) % 65536)
      exact ⟨(congrArg pas16_t.pos e).trans f1, (congrArg pas16_t.pcm_buffer e).trans f2⟩
  obtain ⟨b1, b2⟩ := hbuf
  refine ⟨b1.trans u1, ?_, ?_, ?_, ?_, ?_⟩
  · intro c i hc hp hg
    refine ⟨by rw [b2], ?_⟩
    rw [u2 c i, if_pos ⟨hc, hp, hg⟩]
  · intro c i hi
    rw [b2, u2 c i, if_neg (by omega)]
  · intro h
    have e := pas16_out_audiofilt s port val h
    obtain ⟨⟨-, -, f3⟩, -⟩ := with_reg_keeps_buffer (pas16_update s) val
    exact ⟨e, (congrArg pas16_t.audiofilt e).trans f3⟩
  · intro h
    have e := pas16_out_pcm_dat_low s port val h
    rw [hd] at e
    obtain ⟨-, ⟨-, -, f3⟩⟩ := with_reg_keeps_buffer (pas16_update s)
      ((s.pcm_dat &&& 0xff00) ||| val)
    have e3 := (congrArg pas16_t.pcm_dat e).trans f3
    obtain ⟨l1, l2⟩ := pcm_dat_low_write s.pcm_dat val hv
    exact ⟨e, by rw [e3]; exact l1, by rw [e3]; exact l2⟩
  · intro h
    have e := pas16_out_pcm_dat_high s port val h
    rw [hd] at e
    obtain ⟨-, ⟨-, -, f3⟩⟩ := with_reg_keeps_buffer (pas16_update s)
      (((s.pcm_dat &&& 0x00ff) ||| (val <<< 8)) % 65536)
    have e3 := (congrArg pas16_t.pcm_dat e).trans f3
    obtain ⟨l1, l2⟩ := pcm_dat_high_write s.pcm_dat val hv
    exact ⟨e, by rw [e3]; exact l1, by rw [e3]; exact l2⟩

theorem filter_pcm_write_flush_witness :
    (pas16_out 0x802 0x00 (state_out 0x20 0x1234 0x8000 3)).pos
      = max (state_out 0x20 0x1234 0x8000 3).pos (state_out 0x20 0x1234 0x8000 3).sound_pos_global ∧
    (pas16_out 0x802 0x00 (state_out 0x20 0x1234 0x8000 3)).audiofilt = 0x00 ∧
    (pas16_out 0xc00 0x56 (state_out 0x20 0x1234 0x8000 3)).pcm_dat % 256 = 0x56 :=
  ⟨(filter_pcm_write_flush (state_out 0x20 0x1234 0x8000 3) 0x802 0x00 (by decide)
      (Or.inl (by decide))).1,
   ((filter_pcm_write_flush (state_out 0x20 0x1234 0x8000 3) 0x802 0x00 (by decide)
      (Or.inl (by decide))).2.2.2.1 (by decide)).2,
   ((filter_pcm_write_flush (state_out 0x20 0x1234 0x8000 3) 0xc00 0x56 (by decide)
      (Or.inr (Or.inl (by decide)))).2.2.2.2.1 (by decide)).2.1⟩

/-! ## Translation tables -/

theorem getD_eq_get (l : List Nat) (i d : Nat) (h : i < l.length) :
    l.getD i d = l.get ⟨i, h⟩ := by
  rw [List.getD_eq_getElem l d h]
  rfl

theorem pas16_dmas_le (i : Nat) : pas16_dmas.getD i 0 ≤ 7 := by
  rcases Nat.lt_or_ge i 8 with h | h
  · interval_cases i <;> decide
  · rw [List.getD_eq_default _ _ (by simpa [pas16_dmas] using h)]
    exact Nat.zero_le _

theorem pas16_irqs_le (i : Nat) : pas16_irqs.getD i 0 ≤ 15 := by
  rcases Nat.lt_or_ge i 16 with h | h
  · interval_cases i <;> decide
  · rw [List.getD_eq_default _ _ (by simpa [pas16_irqs] using h)]
    exact Nat.zero_le _

theorem table_index_bounds (val : Nat) :
    val &&& 0x7 < pas16_dmas.length ∧ val &&& 0xf < pas16_irqs.length ∧
    (val >>> 3) &&& 7 < pas16_sb_irqs.length ∧ (val >>> 6) &&& 3 < pas16_sb_dmas.length := by
  have h1 : val &&& 0x7 < 2 ^ 3 := Nat.and_lt_two_pow val (by decide)
  have h2 : val &&& 0xf < 2 ^ 4 := Nat.and_lt_two_pow val (by decide)
  have h3 : (val >>> 3) &&& 7 < 2 ^ 3 := Nat.and_lt_two_pow _ (by decide)
  have h4 : (val >>> 6) &&& 3 < 2 ^ 2 := Nat.and_lt_two_pow _ (by decide)
  refine ⟨h1, h2, h3, ?_⟩
  show (val >>> 6) &&& 3 < 8
  omega

theorem pas16_out_io_conf_2 (s : pas16_t) (port val : Nat) (hport : decode port s = 0xf389) :
    pas16_out port val s =
      { s with io_conf_2 := val, dma := pas16_dmas.getD (val &&& 0x7) 0 } := by
  unfold pas16_out
  simp -zeta only [hport]
  rfl

theorem pas16_out_io_conf_3 (s : pas16_t) (port val : Nat) (hport : decode port s = 0xf38a) :
    pas16_out port val s =
      { s with io_conf_3 := val, irq := pas16_irqs.getD (val &&& 0xf) 0 } := by
  unfold pas16_out
  simp -zeta only [hport]
  rfl

theorem pas16_out_sb_irqdma (s : pas16_t) (port val : Nat) (hport : decode port s = 0xfb8a) :
    pas16_out port val s =
      { s with sb_irqdma := val,
               calls := Call.sb_dsp_setdma8 (pas16_sb_dmas.getD ((val >>> 6) &&& 3) 0) ::
                 Call.sb_dsp_setirq (pas16_sb_irqs.getD ((val >>> 3) &&& 7) 0) :: s.calls } := by
  unfold pas16_out
  simp -zeta only [hport]
  rfl

theorem ite_snd_irq {c : Prop} [Decidable c] {a b : Nat × pas16_t} {x : Nat}
    (ha : a.2.irq = x) (hb : b.2.irq = x) : (if c then a else b).2.irq = x := by
  split_ifs
  · exact ha
  · exact hb

theorem ite_irq_le {c : Prop} [Decidable c] {a b : pas16_t}
    (ha : a.irq ≤ 15) (hb : b.irq ≤ 15) : (if c then a else b).irq ≤ 15 := by
  split_ifs
  · exact ha
  · exact hb

theorem pas16_update_loop_irq (hold : Bool) (n : Nat) (s : pas16_t) :
    (pas16_update_loop hold n s).irq = s.irq := by
  obtain ⟨buf, pos, h⟩ := pas16_update_loop_frame hold n s
  rw [h]

theorem pas16_update_irq (s : pas16_t) : (pas16_update s).irq = s.irq := by
  obtain ⟨buf, pos, h⟩ := pas16_update_frame s
  rw [h]

theorem pas16_in_irq (port : Nat) (s : pas16_t) : (pas16_in port s).2.irq = s.irq := by
  simp only [pas16_in, call]
  repeat' apply ite_snd_irq
  all_goals rfl

theorem pas16_out_irq_le (port val : Nat) (s : pas16_t) (h : s.irq ≤ 15) :
    (pas16_out port val s).irq ≤ 15 := by
  simp only [pas16_out, call]
  repeat' apply ite_irq_le
  all_goals first
    | exact h
    | exact (pas16_update_loop_irq _ _ _).trans_le h
    | exact pas16_irqs_le _

/-! ## Relocation as a change of base and windows only -/

theorem relocated_fields (b : Nat) (w pw : List Nat) (s : pas16_t) :
    (relocated b w pw s).base = b ∧ (relocated b w pw s).io_windows = w ∧
    (relocated b w pw s).pit_windows = pw := ⟨rfl, rfl, rfl⟩

theorem relocated_relocated (b b2 : Nat) (w w2 pw pw2 : List Nat) (s : pas16_t) :
    relocated b2 w2 pw2 (relocated b w pw s) = relocated b2 w2 pw2 s := rfl

theorem relocated_self (s : pas16_t) : relocated s.base s.io_windows s.pit_windows s = s := rfl

theorem io_removehandler_fold (l : List Int) (s : pas16_t) :
    l.foldl (fun s off => io_removehandler (window_port s.base off) s) s =
      relocated s.base (l.foldl (fun w off => w.erase (window_port s.base off)) s.io_windows)
        s.pit_windows s := by
  induction l generalizing s with
  | nil => rfl
  | cons a l ih =>
    rw [List.foldl_cons, ih]
    rfl

theorem io_sethandler_fold (l : List Int) (s : pas16_t) :
    l.foldl (fun s off => io_sethandler (window_port s.base off) s) s =
      relocated s.base (l.foldl (fun w off => window_port s.base off :: w) s.io_windows)
        s.pit_windows s := by
  induction l generalizing s with
  | nil => rfl
  | cons a l ih =>
    rw [List.foldl_cons, ih]
    rfl

theorem foldl_take_drop {α : Type} (f : α → Int → α) (l : List Int) (n : Nat) (a : α) :
    (l.drop n).foldl f ((l.take n).foldl f a) = l.foldl f a := by
  rw [← List.foldl_append, List.take_append_drop]

/-- `pas16_out_base` changes the base address and the bound windows and nothing
else. -/
theorem pas16_out_base_eq (val : Nat) (s : pas16_t) :
    pas16_out_base val s =
      relocated ((val <<< 2) % 65536)
        (bind_all ((val <<< 2) % 65536) (unbind_all s.base s.io_windows))
        (window_port ((val <<< 2) % 65536) pit_window_offset ::
          s.pit_windows.erase (window_port s.base pit_window_offset)) s := by
  have r1 := io_removehandler_fold (io_window_offsets.take 4) s
  have p1 : ∀ (b : Nat) (w pw : List Nat) (p : Nat),
      pit_handler 0 p (relocated b w pw s) = relocated b w (pw.erase p) s := fun _ _ _ _ => rfl
  have r2 : ∀ (b : Nat) (w pw : List Nat),
      (io_window_offsets.drop 4).foldl
          (fun s off => io_removehandler (window_port s.base off) s) (relocated b w pw s)
        = relocated b ((io_window_offsets.drop 4).foldl
            (fun w off => w.erase (window_port b off)) w) pw s := by
    intro b w pw
    rw [io_removehandler_fold]
    rfl
  have b1 : ∀ (b B : Nat) (w pw : List Nat),
      ({ relocated b w pw s with base := B } : pas16_t) = relocated B w pw s :=
    fun _ _ _ _ => rfl
  have s1 : ∀ (l : List Int) (b : Nat) (w pw : List Nat),
      l.foldl (fun s off => io_sethandler (window_port s.base off) s) (relocated b w pw s)
        = relocated b (l.foldl (fun w off => window_port b off :: w) w) pw s := by
    intro l b w pw
    rw [io_sethandler_fold]
    rfl
  have p2 : ∀ (b : Nat) (w pw : List Nat) (p : Nat),
      pit_handler 1 p (relocated b w pw s) = relocated b w (p :: pw) s := fun _ _ _ _ => rfl
  unfold pas16_out_base
  simp only []
  rw [r1, p1, r2, b1, s1, p2, s1]
  unfold bind_all unbind_all
  rw [foldl_take_drop, foldl_take_drop]
  rfl

/-- Everything a tick can change: the output buffer and its cursor, the call log, the
interrupt status, the latches, the stereo toggle, the DMA position and the timer. -/
theorem pas16_pcm_poll_frame (s : pas16_t) :
    ∃ buf pos calls irq l r lr dr pit, pas16_pcm_poll s =
      { s with pcm_buffer := buf, pos := pos, calls := calls, irq_stat := irq,
               pcm_dat_l := l, pcm_dat_r := r, stereo_lr := lr, dma_reads := dr,
               pit := pit } := by
  obtain ⟨buf, pos, calls, hh⟩ := pas16_pcm_head_frame s
  unfold pas16_pcm_poll
  rw [hh]
  simp only []
  by_cases hen : s.pit.counters_1.enable ≠ 0
  · rw [if_pos hen]
    by_cases hena : s.pcm_ctrl &&& PAS16_PCM_ENA ≠ 0
    · rw [if_pos hena]
      obtain ⟨l, r, lr, dr, hs⟩ := pas16_pcm_sample_frame
        { s with pcm_buffer := buf, pos := pos, calls := calls,
                 irq_stat := s.irq_stat ||| PAS16_INT_SAMP }
      rw [hs]
      obtain ⟨pit, irq, calls2, hc⟩ := pas16_pcm_count_frame
        { s with pcm_buffer := buf, pos := pos, calls := calls,
                 irq_stat := s.irq_stat ||| PAS16_INT_SAMP,
                 pcm_dat_l := l, pcm_dat_r := r, stereo_lr := lr, dma_reads := dr }
      exact ⟨buf, pos, calls2, irq, l, r, lr, dr, pit, hc⟩
    · rw [if_neg hena]
      obtain ⟨pit, irq, calls2, hc⟩ := pas16_pcm_count_frame
        { s with pcm_buffer := buf, pos := pos, calls := calls,
                 irq_stat := s.irq_stat ||| PAS16_INT_SAMP }
      exact ⟨buf, pos, calls2, irq, s.pcm_dat_l, s.pcm_dat_r, s.stereo_lr, s.dma_reads, pit, hc⟩
  · rw [if_neg hen]
    exact ⟨buf, pos, calls, s.irq_stat ||| PAS16_INT_SAMP, s.pcm_dat_l, s.pcm_dat_r,
      s.stereo_lr, s.dma_reads, s.pit, rfl⟩

theorem pas16_pcm_poll_irq_fields (s : pas16_t) :
    (pas16_pcm_poll s).irq = s.irq ∧ (pas16_pcm_poll s).irq_ena = s.irq_ena := by
  obtain ⟨buf, pos, calls, irq, l, r, lr, dr, pit, h⟩ := pas16_pcm_poll_frame s
  rw [h]
  exact ⟨rfl, rfl⟩

theorem reachable_irq_le (s : pas16_t) (hs : Reachable s) : s.irq ≤ 15 := by
  induction hs with
  | init => exact Nat.zero_le _
  | port_in s port _ ih => rw [pas16_in_irq]; exact ih
  | port_out s port val _ _ ih => exact pas16_out_irq_le port val s ih
  | base_out s val _ _ ih => rw [pas16_out_base_eq]; exact ih
  | tick s _ ih => rw [(pas16_pcm_poll_irq_fields s).1]; exact ih
  | timer0 s new_out _ ih => exact ih
  | pull s buffer len _ ih =>
    have e : (pas16_get_buffer buffer len s).2.irq = (pas16_update (call Call.sb_dsp_update s)).irq :=
      rfl
    rw [e, pas16_update_irq]
    exact ih
  | pull_music s buffer len _ ih => exact ih
  | timer_write s pit _ ih => exact ih
  | host_time s g _ ih => exact ih

/-- C13: every translation-table index `pas16_out` computes is inside its table: an
I/O-config-2 write (0xf389) sets `dma = pas16_dmas[val & 7]`, a value in 0..7; an
I/O-config-3 write (0xf38a) sets `irq = pas16_irqs[val & 15]`, a value in 0..15; a
legacy IRQ/DMA write (0xfb8a) passes `pas16_sb_irqs[(val >> 3) & 7]` and
`pas16_sb_dmas[(val >> 6) & 3]` to the DSP; hence `irq` is in 0..15 in every
reachable state and `1 << irq` is a single bit below bit 16. -/
theorem table_lookups_in_bounds :
    (∀ val : Nat, val &&& 0x7 < pas16_dmas.length ∧ val &&& 0xf < pas16_irqs.length ∧
      (val >>> 3) &&& 7 < pas16_sb_irqs.length ∧ (val >>> 6) &&& 3 < pas16_sb_dmas.length) ∧
    (∀ (s : pas16_t) (port val : Nat), decode port s = 0xf389 →
      ∃ h : val &&& 0x7 < pas16_dmas.length,
        (pas16_out port val s).dma = pas16_dmas.get ⟨val &&& 0x7, h⟩ ∧
        (pas16_out port val s).dma ≤ 7 ∧ (pas16_out port val s).io_conf_2 = val) ∧
    (∀ (s : pas16_t) (port val : Nat), decode port s = 0xf38a →
      ∃ h : val &&& 0xf < pas16_irqs.length,
        (pas16_out port val s).irq = pas16_irqs.get ⟨val &&& 0xf, h⟩ ∧
        (pas16_out port val s).irq ≤ 15 ∧ (pas16_out port val s).io_conf_3 = val) ∧
    (∀ (s : pas16_t) (port val : Nat), decode port s = 0xfb8a →
      ∃ (h1 : (val >>> 3) &&& 7 < pas16_sb_irqs.length)
        (h2 : (val >>> 6) &&& 3 < pas16_sb_dmas.length),
        (pas16_out port val s).calls =
          Call.sb_dsp_setdma8 (pas16_sb_dmas.get ⟨(val >>> 6) &&& 3, h2⟩) ::
            Call.sb_dsp_setirq (pas16_sb_irqs.get ⟨(val >>> 3) &&& 7, h1⟩) :: s.calls) ∧
    (∀ s : pas16_t, Reachable s →
      s.irq ≤ 15 ∧ 1 <<< s.irq = 2 ^ s.irq ∧ 1 <<< s.irq < 2 ^ 16) := by
  refine ⟨table_index_bounds, ?_, ?_, ?_, ?_⟩
  · intro s port val hport
    obtain ⟨h1, -, -, -⟩ := table_index_bounds val
    have e := pas16_out_io_conf_2 s port val hport
    refine ⟨h1, ?_, ?_, ?_⟩
    · rw [e, ← getD_eq_get _ _ 0 h1]
    · rw [e]; exact pas16_dmas_le _
    · rw [e]
  · intro s port val hport
    obtain ⟨-, h2, -, -⟩ := table_index_bounds val
    have e := pas16_out_io_conf_3 s port val hport
    refine ⟨h2, ?_, ?_, ?_⟩
    · rw [e, ← getD_eq_get _ _ 0 h2]
    · rw [e]; exact pas16_irqs_le _
    · rw [e]
  · intro s port val hport
    obtain ⟨-, -, h3, h4⟩ := table_index_bounds val
    have e := pas16_out_sb_irqdma s port val hport
    refine ⟨h3, h4, ?_⟩
    rw [e, ← getD_eq_get _ _ 0 h3, ← getD_eq_get _ _ 0 h4]
  · intro s hs
    have h := reachable_irq_le s hs
    refine ⟨h, ?_, ?_⟩
    · rw [Nat.shiftLeft_eq, Nat.one_mul]
    · rw [Nat.shiftLeft_eq, Nat.one_mul]
      exact Nat.pow_lt_pow_right (by decide) (by omega)

theorem table_lookups_in_bounds_witness :
    (pas16_out 0xf002 0x07 state_init).irq ≤ 15 ∧
    (pas16_out 0xf001 0x05 state_init).dma ≤ 7 ∧
    1 <<< (pas16_out 0xf002 0x07 state_init).irq < 2 ^ 16 :=
  ⟨(table_lookups_in_bounds.2.2.1 state_init 0xf002 0x07 (by decide)).2.2.1,
   (table_lookups_in_bounds.2.1 state_init 0xf001 0x05 (by decide)).2.2.1,
   (table_lookups_in_bounds.2.2.2.2 _ (Reachable.port_out _ 0xf002 0x07 (by decide)
      (Reachable.init pit_zero 0 (fun _ _ => 0) (fun _ _ => 0) (fun _ => 0)
        (fun _ _ => 0)))).2.2⟩

/-! ## Receive FIFO pop -/

/-- The helper the first definition calls (`es1371_set_rx_irq`, absent from the
file), as modelled, touches nothing but the UART status. -/
theorem es1371_set_rx_irq_frame (set : Nat) (t : pas16_t) :
    (es1371_set_rx_irq set t).uart_data = t.uart_data ∧
    (es1371_set_rx_irq set t).read_fifo_pos = t.read_fifo_pos ∧
    (es1371_set_rx_irq set t).write_fifo_pos = t.write_fifo_pos ∧
    (es1371_set_rx_irq set t).uart_fifo = t.uart_fifo := by
  unfold es1371_set_rx_irq pas16_set_rx_irq
  simp only []
  by_cases h : set ≠ 0
  · rw [if_pos h]
    exact ⟨rfl, rfl, rfl, rfl⟩
  · rw [if_neg h]
    exact ⟨rfl, rfl, rfl, rfl⟩

/-- The body of the first definition of `pas16_scan_fifo`, up to its call of
`es1371_set_rx_irq`. -/
theorem pas16_scan_fifo_eq (s : pas16_t) :
    pas16_scan_fifo s =
      (if s.read_fifo_pos ≠ s.write_fifo_pos then
        es1371_set_rx_irq 1
          { s with uart_data := s.uart_fifo s.read_fifo_pos % 256,
                   read_fifo_pos := (s.read_fifo_pos + 1) &&& 0x0f }
       else es1371_set_rx_irq 0 s) := rfl

/-- The body of the second definition of `pas16_scan_fifo`, up to its call of
`pas16_set_rx_irq`. -/
theorem pas16_scan_fifo_2_eq (s : pas16_t) :
    pas16_scan_fifo_2 s =
      (if s.read_fifo_pos ≠ s.write_fifo_pos then
        pas16_set_rx_irq 1
          { s with uart_data := s.uart_fifo s.read_fifo_pos % 256,
                   read_fifo_pos := (s.read_fifo_pos + 1) &&& 7 }
       else pas16_set_rx_irq 0 s) := rfl

/-- C14 (as the code behaves): the file defines the pop operation `pas16_scan_fifo`
twice.  When the cursors differ, both definitions copy the byte stored at the read
cursor to the MIDI data register, advance the read cursor and then call the
receive-ready helper with argument 1, whether or not more data remains; the first
definition advances the read cursor to `(read + 1) mod 16`, the second to
`(read + 1) mod 8`, which differs for every read cursor from 7 to 14.  When the
cursors are equal, both definitions only call the helper with argument 0.  The helper
(absent from the file) is left as it is called; as modelled it touches neither the
cursors nor the data register, so these are as stated in the final state too. -/
theorem scan_fifo_pop (s : pas16_t) :
    (s.read_fifo_pos ≠ s.write_fifo_pos →
      pas16_scan_fifo s =
        es1371_set_rx_irq 1
          { s with uart_data := s.uart_fifo s.read_fifo_pos % 256,
                   read_fifo_pos := (s.read_fifo_pos + 1) % 16 } ∧
      pas16_scan_fifo_2 s =
        pas16_set_rx_irq 1
          { s with uart_data := s.uart_fifo s.read_fifo_pos % 256,
                   read_fifo_pos := (s.read_fifo_pos + 1) % 8 } ∧
      (pas16_scan_fifo s).uart_data = s.uart_fifo s.read_fifo_pos % 256 ∧
      (pas16_scan_fifo s).read_fifo_pos = (s.read_fifo_pos + 1) % 16 ∧
      (pas16_scan_fifo s).write_fifo_pos = s.write_fifo_pos ∧
      (pas16_scan_fifo_2 s).uart_data = s.uart_fifo s.read_fifo_pos % 256 ∧
      (pas16_scan_fifo_2 s).read_fifo_pos = (s.read_fifo_pos + 1) % 8 ∧
      (pas16_scan_fifo_2 s).write_fifo_pos = s.write_fifo_pos) ∧
    (s.read_fifo_pos = s.write_fifo_pos →
      pas16_scan_fifo s = es1371_set_rx_irq 0 s ∧
      pas16_scan_fifo_2 s = pas16_set_rx_irq 0 s ∧
      (pas16_scan_fifo s).read_fifo_pos = s.read_fifo_pos ∧
      (pas16_scan_fifo s).write_fifo_pos = s.write_fifo_pos ∧
      (pas16_scan_fifo s).uart_data = s.uart_data ∧
      (pas16_scan_fifo_2 s).read_fifo_pos = s.read_fifo_pos ∧
      (pas16_scan_fifo_2 s).write_fifo_pos = s.write_fifo_pos ∧
      (pas16_scan_fifo_2 s).uart_data = s.uart_data) ∧
    (7 ≤ s.read_fifo_pos → s.read_fifo_pos ≤ 14 →
      (s.read_fifo_pos + 1) % 8 ≠ (s.read_fifo_pos + 1) % 16) := by
  have m16 : (s.read_fifo_pos + 1) &&& 0x0f = (s.read_fifo_pos + 1) % 16 :=
    Nat.and_pow_two_sub_one_eq_mod _ 4
  have m8 : (s.read_fifo_pos + 1) &&& 7 = (s.read_fifo_pos + 1) % 8 :=
    Nat.and_pow_two_sub_one_eq_mod _ 3
  refine ⟨?_, ?_, ?_⟩
  · intro h
    have e1 : pas16_scan_fifo s =
        es1371_set_rx_irq 1
          { s with uart_data := s.uart_fifo s.read_fifo_pos % 256,
                   read_fifo_pos := (s.read_fifo_pos + 1) % 16 } := by
      rw [pas16_scan_fifo_eq, if_pos h, m16]
    have e2 : pas16_scan_fifo_2 s =
        pas16_set_rx_irq 1
          { s with uart_data := s.uart_fifo s.read_fifo_pos % 256,
                   read_fifo_pos := (s.read_fifo_pos + 1) % 8 } := by
      rw [pas16_scan_fifo_2_eq, if_pos h, m8]
    obtain ⟨f1, f2, f3, -⟩ := es1371_set_rx_irq_frame 1
      { s with uart_data := s.uart_fifo s.read_fifo_pos % 256,
               read_fifo_pos := (s.read_fifo_pos + 1) % 16 }
    obtain ⟨g1, g2, g3, -⟩ := es1371_set_rx_irq_frame 1
      { s with uart_data := s.uart_fifo s.read_fifo_pos % 256,
               read_fifo_pos := (s.read_fifo_pos + 1) % 8 }
    refine ⟨e1, e2, ?_, ?_, ?_, ?_, ?_, ?_⟩
    · rw [e1]; exact f1
    · rw [e1]; exact f2
    · rw [e1]; exact f3
    · rw [e2]; exact g1
    · rw [e2]; exact g2
    · rw [e2]; exact g3
  · intro h
    have h2 : ¬ (s.read_fifo_pos ≠ s.write_fifo_pos) := not_not.mpr h
    have e1 : pas16_scan_fifo s = es1371_set_rx_irq 0 s := by
      rw [pas16_scan_fifo_eq, if_neg h2]
    have e2 : pas16_scan_fifo_2 s = pas16_set_rx_irq 0 s := by
      rw [pas16_scan_fifo_2_eq, if_neg h2]
    obtain ⟨f1, f2, f3, -⟩ := es1371_set_rx_irq_frame 0 s
    refine ⟨e1, e2, ?_, ?_, ?_, ?_, ?_, ?_⟩
    · rw [e1]; exact f2
    · rw [e1]; exact f3
    · rw [e1]; exact f1
    · rw [e2]; exact f2
    · rw [e2]; exact f3
    · rw [e2]; exact f1
  · intro h7 h14
    omega

theorem scan_fifo_pop_witness :
    (pas16_scan_fifo (es1371_write_fifo 0x90 state_init)).uart_data
      = (es1371_write_fifo 0x90 state_init).uart_fifo
          (es1371_write_fifo 0x90 state_init).read_fifo_pos % 256 ∧
    (pas16_scan_fifo (es1371_write_fifo 0x90 state_init)).read_fifo_pos
      = ((es1371_write_fifo 0x90 state_init).read_fifo_pos + 1) % 16 ∧
    (pas16_scan_fifo_2 { state_init with read_fifo_pos := 7, write_fifo_pos := 9 }).read_fifo_pos
      = (7 + 1) % 8 ∧
    (pas16_scan_fifo state_init).read_fifo_pos = state_init.read_fifo_pos :=
  ⟨((scan_fifo_pop (es1371_write_fifo 0x90 state_init)).1
      (by decide)).2.2.1,
   ((scan_fifo_pop (es1371_write_fifo 0x90 state_init)).1
      (by decide)).2.2.2.1,
   ((scan_fifo_pop { state_init with read_fifo_pos := 7, write_fifo_pos := 9 }).1
      (by decide)).2.2.2.2.2.2.1,
   ((scan_fifo_pop state_init).2.1 (by decide)).2.2.1⟩

/-- C14 fails on the second definition of `pas16_scan_fifo`: with the read cursor at 7
and the write cursor at 9 the pop sets the read cursor to 0, not to 8; the first
definition sets it to 8.  The state is reached by nine writes and seven pops; the
eighth pop delivers the byte of slot 7 and the ninth delivers the byte of slot 0
again, not the byte of slot 8. -/
theorem scan_fifo_pop_counterexample :
    (pas16_scan_fifo_2
      { state_init with read_fifo_pos := 7, write_fifo_pos := 9 }).read_fifo_pos = 0 ∧
    (pas16_scan_fifo
      { state_init with read_fifo_pos := 7, write_fifo_pos := 9 }).read_fifo_pos = 8 ∧
    (7 + 1) % 16 = 8 ∧
    (pas16_scan_fifo_2^[7]
      (fifo_writes [0x90, 0x91, 0x92, 0x93, 0x94, 0x95, 0x96, 0x97, 0x98]
        state_init)).read_fifo_pos = 7 ∧
    (pas16_scan_fifo_2^[7]
      (fifo_writes [0x90, 0x91, 0x92, 0x93, 0x94, 0x95, 0x96, 0x97, 0x98]
        state_init)).write_fifo_pos = 9 ∧
    (pas16_scan_fifo_2^[8]
      (fifo_writes [0x90, 0x91, 0x92, 0x93, 0x94, 0x95, 0x96, 0x97, 0x98]
        state_init)).read_fifo_pos = 0 ∧
    (pas16_scan_fifo_2^[8]
      (fifo_writes [0x90, 0x91, 0x92, 0x93, 0x94, 0x95, 0x96, 0x97, 0x98]
        state_init)).uart_data = 0x97 ∧
    (pas16_scan_fifo_2^[9]
      (fifo_writes [0x90, 0x91, 0x92, 0x93, 0x94, 0x95, 0x96, 0x97, 0x98]
        state_init)).uart_data = 0x90 := by
  refine ⟨by decide, by decide, by decide, by decide, by decide, by decide, by decide,
    by decide⟩

/-! ## Sample assembly -/

theorem pas16_pcm_assemble_eq (s : pas16_t) :
    (pas16_pcm_assemble s).1 =
      (if s.sys_conf_2 &&& PAS16_SC2_MSBINV ≠ 0 then pcm_raw s ^^^ 0x8000 else pcm_raw s) ∧
    (pas16_pcm_assemble s).2 =
      { s with dma_reads :=
          s.dma_reads + (if s.sys_conf_2 &&& PAS16_SC2_16BIT ≠ 0 then 2 else 1) } := by
  unfold pas16_pcm_assemble pcm_raw pas16_readdma
  by_cases h16 : s.sys_conf_2 &&& PAS16_SC2_16BIT ≠ 0
  · rw [if_pos h16, if_pos h16, if_pos h16]
    exact ⟨rfl, rfl⟩
  · rw [if_neg h16, if_neg h16, if_neg h16]
    exact ⟨rfl, rfl⟩

theorem xor_msb_testBit (x i : Nat) :
    (x ^^^ 0x8000).testBit i = if i = 15 then !x.testBit i else x.testBit i := by
  rw [Nat.testBit_xor, show (0x8000 : Nat) = 2 ^ 15 from rfl, Nat.testBit_two_pow]
  by_cases h : i = 15
  · subst h; simp
  · have h2 : ¬ 15 = i := fun e => h e.symm
    simp [h, h2]

theorem sign_flips_cancel (b : Nat) : ((b ^^^ 0x80) <<< 8) ^^^ 0x8000 = b <<< 8 := by
  apply Nat.eq_of_testBit_eq
  intro i
  rw [Nat.testBit_xor, Nat.testBit_shiftLeft, Nat.testBit_shiftLeft, Nat.testBit_xor,
    show (0x8000 : Nat) = 2 ^ 15 from rfl, show (0x80 : Nat) = 2 ^ 7 from rfl,
    Nat.testBit_two_pow, Nat.testBit_two_pow]
  by_cases h8 : i ≥ 8
  · by_cases h15 : 15 = i
    · have h7 : 7 = i - 8 := by omega
      simp [h8, h15, h7]
    · have h7 : ¬ 7 = i - 8 := by omega
      simp [h8, h15, h7]
  · have h15 : ¬ 15 = i := by omega
    simp [h8, h15]

theorem byte_xor80_shift (b : Nat) (hb : b < 256) :
    ((b ^^^ 0x80) <<< 8) % 65536 = (b ^^^ 0x80) <<< 8 ∧ ((b ^^^ 0x80) <<< 8) % 256 = 0 := by
  have h : b ^^^ 0x80 < 2 ^ 8 := Nat.xor_lt_two_pow hb (by decide)
  rw [Nat.shiftLeft_eq]
  omega

/-- C15: the sample a tick assembles.  In 8-bit mode the raw sample for DMA byte `b`
is `(b xor 0x80) << 8`, with low byte 0; in both modes, when the MSB-invert bit 0x10
of system-config-2 is set the assembled sample is the raw sample with bit 15 flipped
(and no other bit changed); so in 8-bit mode with MSB-invert set the sample is
`b << 8`; a sampled tick consumes one DMA byte in 8-bit mode and two in 16-bit
mode. -/
theorem pcm_assemble_sample (s : pas16_t) (b : Nat) (hb : b < 256)
    (hd : s.dma_channel_read s.dma s.dma_reads = b) :
    (s.sys_conf_2 &&& PAS16_SC2_16BIT = 0 →
      pcm_raw s = (b ^^^ 0x80) <<< 8 ∧ pcm_raw s % 256 = 0) ∧
    (s.sys_conf_2 &&& PAS16_SC2_MSBINV = 0 → (pas16_pcm_assemble s).1 = pcm_raw s) ∧
    (s.sys_conf_2 &&& PAS16_SC2_MSBINV ≠ 0 →
      (pas16_pcm_assemble s).1 = pcm_raw s ^^^ 0x8000 ∧
      (∀ i, (pas16_pcm_assemble s).1.testBit i =
        if i = 15 then !(pcm_raw s).testBit i else (pcm_raw s).testBit i)) ∧
    (s.sys_conf_2 &&& PAS16_SC2_16BIT = 0 → s.sys_conf_2 &&& PAS16_SC2_MSBINV ≠ 0 →
      (pas16_pcm_assemble s).1 = b <<< 8) ∧
    (s.pit.counters_1.enable ≠ 0 → s.pcm_ctrl &&& PAS16_PCM_ENA ≠ 0 →
      (s.sys_conf_2 &&& PAS16_SC2_16BIT = 0 →
        (pas16_pcm_poll s).dma_reads = s.dma_reads + 1) ∧
      (s.sys_conf_2 &&& PAS16_SC2_16BIT ≠ 0 →
        (pas16_pcm_poll s).dma_reads = s.dma_reads + 2)) := by
  obtain ⟨ha, -⟩ := pas16_pcm_assemble_eq s
  have hraw8 : s.sys_conf_2 &&& PAS16_SC2_16BIT = 0 → pcm_raw s = (b ^^^ 0x80) <<< 8 := by
    intro h8
    unfold pcm_raw
    rw [if_neg (not_not.mpr h8), hd, Nat.mod_eq_of_lt hb, (byte_xor80_shift b hb).1]
  refine ⟨?_, ?_, ?_, ?_, ?_⟩
  · intro h8
    refine ⟨hraw8 h8, ?_⟩
    rw [hraw8 h8]
    exact (byte_xor80_shift b hb).2
  · intro hinv
    rw [ha, if_neg (not_not.mpr hinv)]
  · intro hinv
    rw [ha, if_pos hinv]
    exact ⟨rfl, fun i => xor_msb_testBit _ i⟩
  · intro h8 hinv
    rw [ha, if_pos hinv, hraw8 h8]
    exact sign_flips_cancel b
  · intro hen hena
    obtain ⟨-, -, -, hdr, -⟩ := pas16_pcm_poll_sampled s hen hena
    constructor
    · intro h8
      rw [hdr, if_neg (not_not.mpr h8)]
    · intro h16
      rw [hdr, if_pos h16]

theorem pcm_assemble_sample_witness :
    pcm_raw (state_pcm 4 0x10 0x40 [0x90]) = (0x90 ^^^ 0x80) <<< 8 ∧
    (pas16_pcm_assemble (state_pcm 4 0x10 0x40 [0x90])).1 = 0x90 <<< 8 ∧
    (pas16_pcm_poll (state_pcm 4 0x10 0x40 [0x90])).dma_reads
      = (state_pcm 4 0x10 0x40 [0x90]).dma_reads + 1 :=
  ⟨((pcm_assemble_sample (state_pcm 4 0x10 0x40 [0x90]) 0x90 (by decide) (by decide)).1
      (by decide)).1,
   (pcm_assemble_sample (state_pcm 4 0x10 0x40 [0x90]) 0x90 (by decide) (by decide)).2.2.2.1
      (by decide) (by decide),
   ((pcm_assemble_sample (state_pcm 4 0x10 0x40 [0x90]) 0x90 (by decide) (by decide)).2.2.2.2
      (by decide) (by decide)).1 (by decide)⟩

/-! ## Sample routing -/

/-- A tick that does not sample (countdown disabled, or PCM enable clear) leaves the
latches, the stereo toggle and the DMA position as they were. -/
theorem pas16_pcm_poll_unsampled (s : pas16_t)
    (h : s.pit.counters_1.enable = 0 ∨ s.pcm_ctrl &&& PAS16_PCM_ENA = 0) :
    (pas16_pcm_poll s).dma_reads = s.dma_reads ∧
    (pas16_pcm_poll s).pcm_dat_l = s.pcm_dat_l ∧
    (pas16_pcm_poll s).pcm_dat_r = s.pcm_dat_r ∧
    (pas16_pcm_poll s).stereo_lr = s.stereo_lr := by
  obtain ⟨buf, pos, calls, hh⟩ := pas16_pcm_head_frame s
  unfold pas16_pcm_poll
  rw [hh]
  simp only []
  by_cases hen : s.pit.counters_1.enable ≠ 0
  · have hena : ¬ (s.pcm_ctrl &&& PAS16_PCM_ENA ≠ 0) := by
      rcases h with h | h
      · exact absurd h hen
      · exact not_not.mpr h
    rw [if_pos hen, if_neg hena]
    obtain ⟨pit, irq, calls2, hc⟩ := pas16_pcm_count_frame
      { s with pcm_buffer := buf, pos := pos, calls := calls,
               irq_stat := s.irq_stat ||| PAS16_INT_SAMP }
    rw [hc]
    exact ⟨rfl, rfl, rfl, rfl⟩
  · rw [if_neg hen]
    exact ⟨rfl, rfl, rfl, rfl⟩

/-- C16: on a sampled tick (countdown enabled, PCM enable set) with assembled sample
`smp`: in mono mode both latches become `smp` and the stereo toggle is unchanged; in
stereo mode the left latch becomes `smp` if the toggle is left-next (0) and the right
latch otherwise, the other latch is unchanged and the toggle flips.  When the
countdown is disabled or PCM enable is clear, no DMA byte is consumed and the latches
and the toggle are unchanged. -/
theorem pcm_tick_routing (s : pas16_t) :
    (s.pit.counters_1.enable ≠ 0 → s.pcm_ctrl &&& PAS16_PCM_ENA ≠ 0 →
      (s.pcm_ctrl &&& PAS16_PCM_MONO ≠ 0 →
        (pas16_pcm_poll s).pcm_dat_l = (pas16_pcm_assemble s).1 ∧
        (pas16_pcm_poll s).pcm_dat_r = (pas16_pcm_assemble s).1 ∧
        (pas16_pcm_poll s).stereo_lr = s.stereo_lr) ∧
      (s.pcm_ctrl &&& PAS16_PCM_MONO = 0 → s.stereo_lr = 0 →
        (pas16_pcm_poll s).pcm_dat_l = (pas16_pcm_assemble s).1 ∧
        (pas16_pcm_poll s).pcm_dat_r = s.pcm_dat_r ∧
        (pas16_pcm_poll s).stereo_lr = 1) ∧
      (s.pcm_ctrl &&& PAS16_PCM_MONO = 0 → s.stereo_lr ≠ 0 →
        (pas16_pcm_poll s).pcm_dat_r = (pas16_pcm_assemble s).1 ∧
        (pas16_pcm_poll s).pcm_dat_l = s.pcm_dat_l ∧
        (pas16_pcm_poll s).stereo_lr = 0)) ∧
    (s.pit.counters_1.enable = 0 ∨ s.pcm_ctrl &&& PAS16_PCM_ENA = 0 →
      (pas16_pcm_poll s).dma_reads = s.dma_reads ∧
      (pas16_pcm_poll s).pcm_dat_l = s.pcm_dat_l ∧
      (pas16_pcm_poll s).pcm_dat_r = s.pcm_dat_r ∧
      (pas16_pcm_poll s).stereo_lr = s.stereo_lr) := by
  refine ⟨?_, pas16_pcm_poll_unsampled s⟩
  intro hen hena
  obtain ⟨hl, hr, hlr, -⟩ := pas16_pcm_poll_sampled s hen hena
  refine ⟨?_, ?_, ?_⟩
  · intro hm
    rw [if_pos hm] at hl hr hlr
    exact ⟨hl, hr, hlr⟩
  · intro hm h0
    have hm' : ¬ (s.pcm_ctrl &&& PAS16_PCM_MONO ≠ 0) := not_not.mpr hm
    have h0' : ¬ (s.stereo_lr ≠ 0) := not_not.mpr h0
    rw [if_neg hm'] at hl hr hlr
    rw [if_neg h0'] at hl hr
    refine ⟨hl, hr, ?_⟩
    rw [hlr, h0]
    rfl
  · intro hm h1
    have hm' : ¬ (s.pcm_ctrl &&& PAS16_PCM_MONO ≠ 0) := not_not.mpr hm
    rw [if_neg hm'] at hl hr hlr
    rw [if_pos h1] at hl hr
    refine ⟨hr, hl, ?_⟩
    rw [hlr]
    unfold lnot
    rw [if_neg h1]

theorem pcm_tick_routing_witness :
    (pas16_pcm_poll (state_pcm 4 0 0x60 [0x90])).pcm_dat_l
      = (pas16_pcm_assemble (state_pcm 4 0 0x60 [0x90])).1 ∧
    (pas16_pcm_poll (state_pcm 4 0 0x40 [0x90])).stereo_lr = 1 ∧
    (pas16_pcm_poll (state_pcm 4 0 0x00 [0x90])).dma_reads
      = (state_pcm 4 0 0x00 [0x90]).dma_reads :=
  ⟨(((pcm_tick_routing (state_pcm 4 0 0x60 [0x90])).1 (by decide) (by decide)).1
      (by decide)).1,
   (((pcm_tick_routing (state_pcm 4 0 0x40 [0x90])).1 (by decide) (by decide)).2.1
      (by decide) (by decide)).2.2,
   ((pcm_tick_routing (state_pcm 4 0 0x00 [0x90])).2 (Or.inr (by decide))).1⟩

/-! ## Countdown underflow and reload -/

/-- A tick with the countdown disabled: the second counter is untouched and the
interrupt status only gains the sample-rate bit. -/
theorem pas16_pcm_poll_disabled (s : pas16_t) (hen : s.pit.counters_1.enable = 0) :
    (pas16_pcm_poll s).pit.counters_1 = s.pit.counters_1 ∧
    (pas16_pcm_poll s).irq_stat = s.irq_stat ||| PAS16_INT_SAMP ∧
    (pas16_pcm_poll s).calls = (pas16_pcm_head s).calls := by
  obtain ⟨buf, pos, calls, hh⟩ := pas16_pcm_head_frame s
  have hen' : ¬ ((pas16_pcm_head s).pit.counters_1.enable ≠ 0) := by
    rw [hh]
    exact not_not.mpr hen
  have hpoll : pas16_pcm_poll s = pas16_pcm_head s := by
    unfold pas16_pcm_poll
    simp only []
    rw [if_neg hen']
  rw [hpoll, hh]
  exact ⟨rfl, rfl, rfl⟩

theorem pas16_pcm_head_calls (s : pas16_t) :
    (pas16_pcm_head s).calls = line_call s PAS16_INT_SAMP :: (timer_rearm s ++ s.calls) := by
  obtain ⟨buf, pos, h⟩ := pas16_update_frame s
  unfold pas16_pcm_head line_call timer_rearm
  rw [h]
  simp only [picint, picintc, call]
  split_ifs <;> rfl

theorem pas16_pcm_count_calls (u : pas16_t) :
    (pas16_pcm_count u).calls =
      (if pcm_dec u = 0xffff then line_call u PAS16_INT_PCM :: u.calls else u.calls) := by
  have h1 : (if u.sys_conf_2 &&& PAS16_SC2_16BIT ≠ 0 then
        set_rl ((u.pit.counters_1.rl + 65536 - 2) % 65536) u
      else set_rl ((u.pit.counters_1.rl + 65536 - 1) % 65536) u) = set_rl (pcm_dec u) u := by
    unfold pcm_dec
    split_ifs <;> rfl
  unfold pas16_pcm_count line_call
  rw [h1]
  by_cases hd : pcm_dec u = 0xffff
  · have hd' : (set_rl (pcm_dec u) u).pit.counters_1.rl = 0xffff := hd
    simp only []
    rw [if_pos hd', if_pos hd]
    unfold picint picintc set_rl set_enable
    split_ifs <;> rfl
  · have hd' : ¬ ((set_rl (pcm_dec u) u).pit.counters_1.rl = 0xffff) := hd
    simp only []
    rw [if_neg hd', if_neg hd]
    rfl

/-- The host calls of a tick with the countdown enabled, newest first. -/
theorem pas16_pcm_poll_calls (s : pas16_t) (hen : s.pit.counters_1.enable ≠ 0) :
    (pas16_pcm_poll s).calls =
      (if pcm_dec s = 0xffff then
        line_call s PAS16_INT_PCM :: line_call s PAS16_INT_SAMP :: (timer_rearm s ++ s.calls)
       else line_call s PAS16_INT_SAMP :: (timer_rearm s ++ s.calls)) := by
  have hcalls := pas16_pcm_head_calls s
  obtain ⟨buf, pos, calls, hh⟩ := pas16_pcm_head_frame s
  have hen' : (pas16_pcm_head s).pit.counters_1.enable ≠ 0 := by rw [hh]; exact hen
  have hpoll : pas16_pcm_poll s = pas16_pcm_count
      (if (pas16_pcm_head s).pcm_ctrl &&& PAS16_PCM_ENA ≠ 0 then
        pas16_pcm_sample (pas16_pcm_head s) else pas16_pcm_head s) := by
    unfold pas16_pcm_poll
    simp only []
    rw [if_pos hen']
  obtain ⟨l, r, lr, dr, hsmp⟩ := pas16_pcm_sample_frame (pas16_pcm_head s)
  have main : ∀ u : pas16_t, u.pit = s.pit → u.sys_conf_2 = s.sys_conf_2 →
      u.irq_ena = s.irq_ena → u.irq = s.irq → u.calls = (pas16_pcm_head s).calls →
      (pas16_pcm_count u).calls =
        (if pcm_dec s = 0xffff then
          line_call s PAS16_INT_PCM :: line_call s PAS16_INT_SAMP :: (timer_rearm s ++ s.calls)
         else line_call s PAS16_INT_SAMP :: (timer_rearm s ++ s.calls)) := by
    intro u hp hs he hq hc
    have hdec : pcm_dec u = pcm_dec s := by
      unfold pcm_dec
      rw [hp, hs]
    have hline : line_call u PAS16_INT_PCM = line_call s PAS16_INT_PCM := by
      unfold line_call
      rw [he, hq]
    rw [pas16_pcm_count_calls, hdec, hline, hc, hcalls]
  rw [hpoll]
  by_cases hena : (pas16_pcm_head s).pcm_ctrl &&& PAS16_PCM_ENA ≠ 0
  · rw [if_pos hena, hsmp]
    refine main _ ?_ ?_ ?_ ?_ rfl
    · show (pas16_pcm_head s).pit = s.pit
      rw [hh]
    · show (pas16_pcm_head s).sys_conf_2 = s.sys_conf_2
      rw [hh]
    · show (pas16_pcm_head s).irq_ena = s.irq_ena
      rw [hh]
    · show (pas16_pcm_head s).irq = s.irq
      rw [hh]
  · rw [if_neg hena]
    refine main _ ?_ ?_ ?_ ?_ rfl
    · rw [hh]
    · rw [hh]
    · rw [hh]
    · rw [hh]

theorem testBit_or_left (x y i : Nat) (h : x.testBit i = true) : (x ||| y).testBit i = true := by
  rw [Nat.testBit_or, h]
  rfl

theorem or_samp_and_samp (x : Nat) : (x ||| PAS16_INT_SAMP) &&& PAS16_INT_SAMP ≠ 0 := by
  have e4 : PAS16_INT_SAMP = 2 ^ 2 := rfl
  rw [e4]
  rw [and_two_pow_ne_zero, Nat.testBit_or, Nat.testBit_two_pow_self, Bool.or_true]

theorem or_or_samp_and_samp (x : Nat) :
    (x ||| PAS16_INT_SAMP ||| PAS16_INT_PCM) &&& PAS16_INT_SAMP ≠ 0 := by
  have e4 : PAS16_INT_SAMP = 2 ^ 2 := rfl
  rw [e4]
  rw [and_two_pow_ne_zero, Nat.testBit_or, Nat.testBit_or, Nat.testBit_two_pow_self,
    Bool.or_true, Bool.true_or]

/-- The interrupt status after any tick. -/
theorem pas16_pcm_poll_irq_stat (s : pas16_t) :
    (pas16_pcm_poll s).irq_stat =
      (if s.pit.counters_1.enable ≠ 0 ∧ pcm_dec s = 0xffff then
        s.irq_stat ||| PAS16_INT_SAMP ||| PAS16_INT_PCM
       else s.irq_stat ||| PAS16_INT_SAMP) := by
  by_cases hen : s.pit.counters_1.enable ≠ 0
  · rw [(pas16_pcm_poll_countdown s hen).2.1]
    by_cases hd : pcm_dec s = 0xffff
    · rw [if_pos hd, if_pos ⟨hen, hd⟩]
    · rw [if_neg hd, if_neg (fun h => hd h.2)]
  · rw [(pas16_pcm_poll_disabled s (not_not.mp hen)).2.1, if_neg (fun h => hen h.1)]

/-- C18: on every tick, whatever the countdown and PCM-enable state, the sample-rate
bit (0x04) of the interrupt status is set; the sample-rate producer drives the shared
line by `picint` iff mask bit 0x04 is enabled and by `picintc` otherwise, and on an
underflow tick the block-complete producer then does the same for mask bit 0x08 (these
are the only line calls of the tick, after the callback-timer re-arm); no interrupt
status bit is cleared by a tick, and the interrupt mask register is unchanged. -/
theorem pcm_tick_interrupts (s : pas16_t) :
    (pas16_pcm_poll s).irq_stat &&& PAS16_INT_SAMP ≠ 0 ∧
    (pas16_pcm_poll s).calls =
      (if s.pit.counters_1.enable ≠ 0 ∧ pcm_dec s = 0xffff then
        line_call s PAS16_INT_PCM :: line_call s PAS16_INT_SAMP :: (timer_rearm s ++ s.calls)
       else line_call s PAS16_INT_SAMP :: (timer_rearm s ++ s.calls)) ∧
    (∀ bit : Nat, line_call s bit =
      (if s.irq_ena &&& bit ≠ 0 then Call.picint (1 <<< s.irq)
       else Call.picintc (1 <<< s.irq))) ∧
    (∀ i : Nat, s.irq_stat.testBit i = true → (pas16_pcm_poll s).irq_stat.testBit i = true) ∧
    (pas16_pcm_poll s).irq_ena = s.irq_ena := by
  refine ⟨?_, ?_, fun _ => rfl, ?_, (pas16_pcm_poll_irq_fields s).2⟩
  · rw [pas16_pcm_poll_irq_stat]
    split
    · exact or_or_samp_and_samp _
    · exact or_samp_and_samp _
  · by_cases hen : s.pit.counters_1.enable ≠ 0
    · rw [pas16_pcm_poll_calls s hen]
      by_cases hd : pcm_dec s = 0xffff
      · rw [if_pos hd, if_pos ⟨hen, hd⟩]
      · rw [if_neg hd, if_neg (fun h => hd h.2)]
    · rw [(pas16_pcm_poll_disabled s (not_not.mp hen)).2.2, pas16_pcm_head_calls,
        if_neg (fun h => hen h.1)]
  · intro i hi
    rw [pas16_pcm_poll_irq_stat]
    split
    · exact testBit_or_left _ _ _ (testBit_or_left _ _ _ hi)
    · exact testBit_or_left _ _ _ hi

theorem pcm_tick_interrupts_witness :
    (pas16_pcm_poll (state_pcm 0 0 0x40 [0x90])).irq_stat &&& PAS16_INT_SAMP ≠ 0 ∧
    (pas16_pcm_poll (state_pcm 0 0 0x40 [0x90])).calls =
      Call.picintc 1 :: Call.picintc 1 :: (state_pcm 0 0 0x40 [0x90]).calls ∧
    (pas16_pcm_poll { state_init with irq_stat := 0x10 }).irq_stat.testBit 4 = true :=
  ⟨(pcm_tick_interrupts (state_pcm 0 0 0x40 [0x90])).1,
   (pcm_tick_interrupts (state_pcm 0 0 0x40 [0x90])).2.1.trans rfl,
   (pcm_tick_interrupts { state_init with irq_stat := 0x10 }).2.2.2.1 4 (by decide)⟩

/-! ## MIDI interrupt helpers -/

theorem pas16_update_midi_irqs_eq (s : pas16_t) :
    pas16_update_midi_irqs s =
      (if s.uart_status &&& 0x18 ≠ 0 ∨ s.uart_status &&& 0x04 ≠ 0 then
        picint (1 <<< s.irq)
          { s with irq_stat := and_not s.irq_stat PAS16_INT_MIDI ||| PAS16_INT_MIDI }
       else picintc (1 <<< s.irq) { s with irq_stat := and_not s.irq_stat PAS16_INT_MIDI }) := by
  unfold pas16_update_midi_irqs
  simp only []

theorem midi_bit_set (x : Nat) : (x ||| PAS16_INT_MIDI) &&& PAS16_INT_MIDI ≠ 0 := by
  rw [show PAS16_INT_MIDI = 2 ^ 4 from rfl, and_two_pow_ne_zero, Nat.testBit_or,
    Nat.testBit_two_pow_self, Bool.or_true]

theorem midi_bit_other (x i : Nat) (hi : i ≠ 4) :
    (x ||| PAS16_INT_MIDI).testBit i = x.testBit i := by
  have h : (2 ^ 4 : Nat).testBit i = false := by
    rw [Nat.testBit_two_pow]
    exact decide_eq_false (fun e => hi e.symm)
  rw [show PAS16_INT_MIDI = 2 ^ 4 from rfl, Nat.testBit_or, h, Bool.or_false]

theorem and_not_midi_other (x i : Nat) (h8 : i < 8) (hi : i ≠ 4) :
    (and_not x PAS16_INT_MIDI).testBit i = x.testBit i := by
  have h : (2 ^ 4 : Nat).testBit i = false := by
    rw [Nat.testBit_two_pow]
    exact decide_eq_false (fun e => hi e.symm)
  rw [show PAS16_INT_MIDI = 2 ^ 4 from rfl, and_not_testBit x (2 ^ 4) i h8, h]
  simp

theorem and_not_mask_clear (x m : Nat) (hm : m < 256) : and_not x m &&& m = 0 := by
  apply Nat.eq_of_testBit_eq
  intro i
  rw [Nat.testBit_and, Nat.zero_testBit]
  by_cases h8 : i < 8
  · rw [and_not_testBit x m i h8]
    cases x.testBit i <;> cases m.testBit i <;> rfl
  · have hm' : m.testBit i = false := by
      apply Nat.testBit_lt_two_pow
      calc m < 2 ^ 8 := hm
        _ ≤ 2 ^ i := Nat.pow_le_pow_right (by decide) (Nat.le_of_not_lt h8)
    rw [hm', Bool.and_false]

theorem and_not_mask_set (x m : Nat) : (and_not x m ||| m) &&& m = m := by
  apply Nat.eq_of_testBit_eq
  intro i
  rw [Nat.testBit_and, Nat.testBit_or]
  cases (and_not x m).testBit i <;> cases m.testBit i <;> rfl

/-- The UART status after `pas16_update_tx_irq`. -/
theorem pas16_update_tx_irq_status (s : pas16_t) :
    (pas16_update_tx_irq s).uart_status =
      (if s.irq_ena &&& PAS16_INT_MIDI ≠ 0 ∧ s.uart_ctrl &&& 0x18 ≠ 0 then
        and_not s.uart_status 0x18 ||| 0x18
       else and_not s.uart_status 0x18) := by
  unfold pas16_update_tx_irq
  simp only []
  by_cases hc : s.irq_ena &&& PAS16_INT_MIDI ≠ 0 ∧ s.uart_ctrl &&& 0x18 ≠ 0
  · rw [if_pos hc, if_pos hc, pas16_update_midi_irqs_eq]
    unfold picint picintc
    split <;> rfl
  · rw [if_neg hc, if_neg hc, pas16_update_midi_irqs_eq]
    unfold picint picintc
    split <;> rfl

/-- The UART status after `pas16_update_rx_irq`. -/
theorem pas16_update_rx_irq_status (s : pas16_t) :
    (pas16_update_rx_irq s).uart_status =
      (if s.irq_ena &&& PAS16_INT_MIDI ≠ 0 ∧ s.uart_ctrl &&& 0x04 ≠ 0 then
        and_not s.uart_status 0x04 ||| 0x04
       else and_not s.uart_status 0x04) := by
  unfold pas16_update_rx_irq
  simp only []
  by_cases hc : s.irq_ena &&& PAS16_INT_MIDI ≠ 0 ∧ s.uart_ctrl &&& 0x04 ≠ 0
  · rw [if_pos hc, if_pos hc, pas16_update_midi_irqs_eq]
    unfold picint picintc
    split <;> rfl
  · rw [if_neg hc, if_neg hc, pas16_update_midi_irqs_eq]
    unfold picint picintc
    split <;> rfl

/-- C19: after `pas16_update_midi_irqs`, for every device state, the MIDI activity bit
(0x10) of the interrupt status is set iff the transmit-ready sub-bits (0x18) or the
receive-ready sub-bit (0x04) of the UART status are set; every other bit of the 8-bit
interrupt status is unchanged; the one host call made is `picint(1 << irq)` if the MIDI
activity bit is now set and `picintc(1 << irq)` otherwise; the UART status is not
touched.  After `pas16_update_tx_irq` (`pas16_update_rx_irq`) the sub-bits 0x18 (0x04)
of the UART status are set iff the MIDI mask bit (0x10) is enabled and the control
bits 0x18 (0x04) are set, and are clear otherwise. -/
theorem midi_irq_helpers (s : pas16_t) :
    ((pas16_update_midi_irqs s).irq_stat &&& PAS16_INT_MIDI ≠ 0 ↔
      (s.uart_status &&& 0x18 ≠ 0 ∨ s.uart_status &&& 0x04 ≠ 0)) ∧
    (∀ i : Nat, i < 8 → i ≠ 4 →
      (pas16_update_midi_irqs s).irq_stat.testBit i = s.irq_stat.testBit i) ∧
    (pas16_update_midi_irqs s).calls =
      (if (pas16_update_midi_irqs s).irq_stat &&& PAS16_INT_MIDI ≠ 0 then
        Call.picint (1 <<< s.irq) else Call.picintc (1 <<< s.irq)) :: s.calls ∧
    (pas16_update_midi_irqs s).uart_status = s.uart_status ∧
    ((pas16_update_tx_irq s).uart_status &&& 0x18 =
      (if s.irq_ena &&& PAS16_INT_MIDI ≠ 0 ∧ s.uart_ctrl &&& 0x18 ≠ 0 then 0x18 else 0)) ∧
    ((pas16_update_rx_irq s).uart_status &&& 0x04 =
      (if s.irq_ena &&& PAS16_INT_MIDI ≠ 0 ∧ s.uart_ctrl &&& 0x04 ≠ 0 then 0x04 else 0)) := by
  have hclr : and_not s.irq_stat PAS16_INT_MIDI &&& PAS16_INT_MIDI = 0 :=
    and_not_mask_clear _ _ (by decide)
  refine ⟨?_, ?_, ?_, ?_, ?_, ?_⟩
  · rw [pas16_update_midi_irqs_eq]
    by_cases hc : s.uart_status &&& 0x18 ≠ 0 ∨ s.uart_status &&& 0x04 ≠ 0
    · rw [if_pos hc]
      exact ⟨fun _ => hc, fun _ => midi_bit_set _⟩
    · rw [if_neg hc]
      exact ⟨fun h => absurd hclr h, fun h => absurd h hc⟩
  · intro i h8 hi
    rw [pas16_update_midi_irqs_eq]
    by_cases hc : s.uart_status &&& 0x18 ≠ 0 ∨ s.uart_status &&& 0x04 ≠ 0
    · rw [if_pos hc]
      exact (midi_bit_other _ i hi).trans (and_not_midi_other _ i h8 hi)
    · rw [if_neg hc]
      exact and_not_midi_other _ i h8 hi
  · rw [pas16_update_midi_irqs_eq]
    by_cases hc : s.uart_status &&& 0x18 ≠ 0 ∨ s.uart_status &&& 0x04 ≠ 0
    · rw [if_pos hc]
      have hb : (and_not s.irq_stat PAS16_INT_MIDI ||| PAS16_INT_MIDI) &&& PAS16_INT_MIDI ≠ 0 :=
        midi_bit_set _
      show Call.picint (1 <<< s.irq) :: s.calls =
        (if (and_not s.irq_stat PAS16_INT_MIDI ||| PAS16_INT_MIDI) &&& PAS16_INT_MIDI ≠ 0 then
          Call.picint (1 <<< s.irq) else Call.picintc (1 <<< s.irq)) :: s.calls
      rw [if_pos hb]
    · rw [if_neg hc]
      have hb : ¬ (and_not s.irq_stat PAS16_INT_MIDI &&& PAS16_INT_MIDI ≠ 0) :=
        not_not.mpr hclr
      show Call.picintc (1 <<< s.irq) :: s.calls =
        (if and_not s.irq_stat PAS16_INT_MIDI &&& PAS16_INT_MIDI ≠ 0 then
          Call.picint (1 <<< s.irq) else Call.picintc (1 <<< s.irq)) :: s.calls
      rw [if_neg hb]
  · rw [pas16_update_midi_irqs_eq]
    split <;> rfl
  · rw [pas16_update_tx_irq_status]
    by_cases hc : s.irq_ena &&& PAS16_INT_MIDI ≠ 0 ∧ s.uart_ctrl &&& 0x18 ≠ 0
    · rw [if_pos hc, if_pos hc]
      exact and_not_mask_set _ _
    · rw [if_neg hc, if_neg hc]
      exact and_not_mask_clear _ _ (by decide)
  · rw [pas16_update_rx_irq_status]
    by_cases hc : s.irq_ena &&& PAS16_INT_MIDI ≠ 0 ∧ s.uart_ctrl &&& 0x04 ≠ 0
    · rw [if_pos hc, if_pos hc]
      exact and_not_mask_set _ _
    · rw [if_neg hc, if_neg hc]
      exact and_not_mask_clear _ _ (by decide)

theorem midi_irq_helpers_witness :
    (pas16_update_midi_irqs { state_init with irq_stat := 0x0c }).irq_stat.testBit 3
      = (0x0c : Nat).testBit 3 ∧
    (pas16_update_midi_irqs { state_init with uart_status := 0x04 }).irq_stat
      &&& PAS16_INT_MIDI ≠ 0 :=
  ⟨(midi_irq_helpers { state_init with irq_stat := 0x0c }).2.1 3 (by decide) (by decide),
   (midi_irq_helpers { state_init with uart_status := 0x04 }).1.mpr (Or.inr (by decide))⟩

/-! ## Base relocation -/

theorem unbind_all_eq_diff (b : Nat) (w : List Nat) :
    unbind_all b w = w.diff (io_window_offsets.map (window_port b)) := by
  unfold unbind_all
  generalize io_window_offsets = l
  induction l generalizing w with
  | nil => rfl
  | cons a l ih => rw [List.foldl_cons, ih, List.map_cons, List.diff_cons]

theorem bind_all_eq_append (b : Nat) (w : List Nat) :
    bind_all b w = (io_window_offsets.map (window_port b)).reverse ++ w := by
  unfold bind_all
  generalize io_window_offsets = l
  induction l generalizing w with
  | nil => rfl
  | cons a l ih =>
    rw [List.foldl_cons, ih, List.map_cons, List.reverse_cons, List.append_assoc]
    rfl

theorem diff_self_nil (l : List Nat) : l.diff l = [] := by
  induction l with
  | nil => rfl
  | cons a l ih => rw [List.diff_cons, List.erase_cons_head, ih]

/-- Unbinding the windows of a base from exactly those windows leaves none bound. -/
theorem unbind_all_bind_all (b : Nat) : unbind_all b (bind_all b []) = [] := by
  rw [unbind_all_eq_diff, bind_all_eq_append, List.append_nil]
  have h := List.Perm.diff_right (io_window_offsets.map (window_port b))
    (List.reverse_perm (io_window_offsets.map (window_port b)))
  rw [diff_self_nil] at h
  exact List.Perm.eq_nil h

theorem erase_singleton (p : Nat) : [p].erase p = [] := List.erase_cons_head p []

/-- A base-select write in a state whose windows are those of its base. -/
theorem pas16_out_base_bound (v : Nat) (s : pas16_t) (hv : v < 256) (hs : bound_at_base s) :
    pas16_out_base v s =
      relocated (v <<< 2) (bind_all (v <<< 2) [])
        [window_port (v <<< 2) pit_window_offset] s := by
  rw [pas16_out_base_eq, (shl2_bound v hv).1, hs.1, hs.2, unbind_all_bind_all, erase_singleton]

theorem window_port_shift (b : Nat) (hb : b ≤ 0x3fc) (off : Int) (h1 : 0x388 ≤ off)
    (h2 : off ≤ 0xff88) : window_port b off = b + window_port 0 off := by
  unfold window_port port16
  omega

theorem in_window_shift (b k : Nat) (l : List Nat) :
    in_window (b + k) (l.map (fun p => b + p)) = in_window k l := by
  unfold in_window
  rw [List.any_map]
  congr 1
  funext p
  simp only [Function.comp]
  apply decide_eq_decide.mpr
  omega

theorem bind_all_shift (b : Nat) (hb : b ≤ 0x3fc) :
    bind_all b [] = (bind_all 0 []).map (fun p => b + p) := by
  rw [bind_all_eq_append, bind_all_eq_append, List.append_nil, List.append_nil,
    ← List.map_reverse, ← List.map_reverse, List.map_map]
  apply List.map_congr_left
  intro off hoff
  have hr : off ∈ io_window_offsets := List.mem_reverse.mp hoff
  have hbounds : ∀ o ∈ io_window_offsets, (0x388 : Int) ≤ o ∧ o ≤ 0xff88 := by decide
  exact window_port_shift b hb off (hbounds off hr).1 (hbounds off hr).2

/-- Whether `base + k` lies in a device window bound at `base` depends on `k` only. -/
theorem in_window_bind_all (b k : Nat) (hb : b ≤ 0x3fc) :
    in_window (b + k) (bind_all b []) = in_window k (bind_all 0 []) := by
  rw [bind_all_shift b hb, in_window_shift]

theorem in_window_pit (b k : Nat) (hb : b ≤ 0x3fc) :
    in_window (b + k) [window_port b pit_window_offset] =
      in_window k [window_port 0 pit_window_offset] := by
  rw [window_port_shift b hb pit_window_offset (by decide) (by decide)]
  exact in_window_shift b k [window_port 0 pit_window_offset]

theorem decode_relocated (b k : Nat) (w pw : List Nat) (s : pas16_t) :
    decode (b + k) (relocated b w pw s) = decode (s.base + k) s := by
  unfold decode
  show ((b + k : Nat) : Int) - (b : Int) + 0x388 = ((s.base + k : Nat) : Int) - (s.base : Int) + 0x388
  omega

/-! Every handler commutes with a relocation: no handler reads or writes the base
address or the bound windows, except through `decode`. -/

theorem call_relocated (b : Nat) (w pw : List Nat) (c : Call) (s : pas16_t) :
    call c (relocated b w pw s) = relocated b w pw (call c s) := rfl

theorem pas16_update_loop_relocated (b : Nat) (w pw : List Nat) (hold : Bool) (n : Nat)
    (s : pas16_t) :
    pas16_update_loop hold n (relocated b w pw s) =
      relocated b w pw (pas16_update_loop hold n s) := by
  induction n generalizing s with
  | zero => rfl
  | succ n ih =>
    by_cases h : s.pos < s.sound_pos_global
    · have h2 : (relocated b w pw s).pos < (relocated b w pw s).sound_pos_global := h
      rw [pas16_update_loop_step hold n s h, pas16_update_loop_step hold n _ h2]
      refine Eq.trans ?_ (ih _)
      rfl
    · have h2 : ¬ ((relocated b w pw s).pos < (relocated b w pw s).sound_pos_global) := h
      rw [pas16_update_loop, pas16_update_loop, if_neg h, if_neg h2]

theorem pas16_update_relocated (b : Nat) (w pw : List Nat) (s : pas16_t) :
    pas16_update (relocated b w pw s) = relocated b w pw (pas16_update s) := by
  unfold pas16_update
  by_cases h : s.audiofilt &&& PAS16_FILT_MUTE = 0
  · have h2 : (relocated b w pw s).audiofilt &&& PAS16_FILT_MUTE = 0 := h
    rw [if_pos h, if_pos h2]
    exact pas16_update_loop_relocated b w pw false _ s
  · have h2 : ¬ ((relocated b w pw s).audiofilt &&& PAS16_FILT_MUTE = 0) := h
    rw [if_neg h, if_neg h2]
    exact pas16_update_loop_relocated b w pw true _ s

theorem pas16_set_tx_irq_relocated (b : Nat) (w pw : List Nat) (set : Nat) (s : pas16_t) :
    pas16_set_tx_irq set (relocated b w pw s) = relocated b w pw (pas16_set_tx_irq set s) := by
  unfold pas16_set_tx_irq
  simp only []
  by_cases h : set ≠ 0
  · rw [if_pos h, if_pos h]
    rfl
  · rw [if_neg h, if_neg h]
    rfl

theorem pas16_set_rx_irq_relocated (b : Nat) (w pw : List Nat) (set : Nat) (s : pas16_t) :
    pas16_set_rx_irq set (relocated b w pw s) = relocated b w pw (pas16_set_rx_irq set s) := by
  unfold pas16_set_rx_irq
  simp only []
  by_cases h : set ≠ 0
  · rw [if_pos h, if_pos h]
    rfl
  · rw [if_neg h, if_neg h]
    rfl

theorem pas16_reset_fifo_relocated (b : Nat) (w pw : List Nat) (s : pas16_t) :
    pas16_reset_fifo (relocated b w pw s) = relocated b w pw (pas16_reset_fifo s) := by
  unfold pas16_reset_fifo es1371_reset_fifo es1371_set_rx_irq
  simp only []
  refine Eq.trans ?_ (pas16_set_rx_irq_relocated b w pw 0 _)
  rfl

theorem pas16_update_midi_irqs_relocated (b : Nat) (w pw : List Nat) (s : pas16_t) :
    pas16_update_midi_irqs (relocated b w pw s) =
      relocated b w pw (pas16_update_midi_irqs s) := by
  rw [pas16_update_midi_irqs_eq, pas16_update_midi_irqs_eq]
  by_cases hc : s.uart_status &&& 0x18 ≠ 0 ∨ s.uart_status &&& 0x04 ≠ 0
  · have hc2 : (relocated b w pw s).uart_status &&& 0x18 ≠ 0 ∨
        (relocated b w pw s).uart_status &&& 0x04 ≠ 0 := hc
    rw [if_pos hc, if_pos hc2]
    rfl
  · have hc2 : ¬ ((relocated b w pw s).uart_status &&& 0x18 ≠ 0 ∨
        (relocated b w pw s).uart_status &&& 0x04 ≠ 0) := hc
    rw [if_neg hc, if_neg hc2]
    rfl

theorem pas16_update_tx_irq_relocated (b : Nat) (w pw : List Nat) (s : pas16_t) :
    pas16_update_tx_irq (relocated b w pw s) = relocated b w pw (pas16_update_tx_irq s) := by
  unfold pas16_update_tx_irq
  simp only []
  by_cases hc : s.irq_ena &&& PAS16_INT_MIDI ≠ 0 ∧ s.uart_ctrl &&& 0x18 ≠ 0
  · have hc2 : (relocated b w pw s).irq_ena &&& PAS16_INT_MIDI ≠ 0 ∧
        (relocated b w pw s).uart_ctrl &&& 0x18 ≠ 0 := hc
    rw [if_pos hc, if_pos hc2]
    refine Eq.trans ?_ (pas16_update_midi_irqs_relocated b w pw _)
    rfl
  · have hc2 : ¬ ((relocated b w pw s).irq_ena &&& PAS16_INT_MIDI ≠ 0 ∧
        (relocated b w pw s).uart_ctrl &&& 0x18 ≠ 0) := hc
    rw [if_neg hc, if_neg hc2]
    refine Eq.trans ?_ (pas16_update_midi_irqs_relocated b w pw _)
    rfl

theorem pas16_update_rx_irq_relocated (b : Nat) (w pw : List Nat) (s : pas16_t) :
    pas16_update_rx_irq (relocated b w pw s) = relocated b w pw (pas16_update_rx_irq s) := by
  unfold pas16_update_rx_irq
  simp only []
  by_cases hc : s.irq_ena &&& PAS16_INT_MIDI ≠ 0 ∧ s.uart_ctrl &&& 0x04 ≠ 0
  · have hc2 : (relocated b w pw s).irq_ena &&& PAS16_INT_MIDI ≠ 0 ∧
        (relocated b w pw s).uart_ctrl &&& 0x04 ≠ 0 := hc
    rw [if_pos hc, if_pos hc2]
    refine Eq.trans ?_ (pas16_update_midi_irqs_relocated b w pw _)
    rfl
  · have hc2 : ¬ ((relocated b w pw s).irq_ena &&& PAS16_INT_MIDI ≠ 0 ∧
        (relocated b w pw s).uart_ctrl &&& 0x04 ≠ 0) := hc
    rw [if_neg hc, if_neg hc2]
    refine Eq.trans ?_ (pas16_update_midi_irqs_relocated b w pw _)
    rfl

theorem pas16_reset_relocated (b : Nat) (w pw : List Nat) (s : pas16_t) :
    pas16_reset (relocated b w pw s) = relocated b w pw (pas16_reset s) := by
  rw [pas16_reset_eq, pas16_reset_eq, ← pas16_update_midi_irqs_relocated,
    ← pas16_reset_fifo_relocated, ← pas16_set_tx_irq_relocated]
  rfl

theorem ite_relocated_snd (b : Nat) (w pw : List Nat) {c : Prop} [Decidable c]
    {x y x2 y2 : Nat × pas16_t}
    (hx : x2 = (x.1, relocated b w pw x.2)) (hy : y2 = (y.1, relocated b w pw y.2)) :
    (if c then x2 else y2) =
      ((if c then x else y).1, relocated b w pw (if c then x else y).2) := by
  by_cases h : c
  · rw [if_pos h, if_pos h]
    exact hx
  · rw [if_neg h, if_neg h]
    exact hy

theorem ite_relocated (b : Nat) (w pw : List Nat) {c : Prop} [Decidable c]
    {x y x2 y2 : pas16_t}
    (hx : x2 = relocated b w pw x) (hy : y2 = relocated b w pw y) :
    (if c then x2 else y2) = relocated b w pw (if c then x else y) := by
  by_cases h : c
  · rw [if_pos h, if_pos h]
    exact hx
  · rw [if_neg h, if_neg h]
    exact hy

/-- A read that decodes to the same switch value in a relocated state returns the same
value and leaves the same state, relocated. -/
theorem pas16_in_relocated (b : Nat) (w pw : List Nat) (p q : Nat) (s : pas16_t)
    (h : decode p (relocated b w pw s) = decode q s) :
    pas16_in p (relocated b w pw s) =
      ((pas16_in q s).1, relocated b w pw (pas16_in q s).2) := by
  unfold pas16_in
  rw [h]
  generalize decode q s = off
  simp only []
  repeat' apply ite_relocated_snd
  all_goals rfl

/-- A write that decodes to the same switch value in a relocated state leaves the same
state, relocated. -/
theorem pas16_out_relocated (b : Nat) (w pw : List Nat) (p q val : Nat) (s : pas16_t)
    (h : decode p (relocated b w pw s) = decode q s) :
    pas16_out p val (relocated b w pw s) = relocated b w pw (pas16_out q val s) := by
  unfold pas16_out
  rw [h]
  generalize decode q s = off
  simp only []
  repeat' apply ite_relocated
  all_goals try rfl
  · rw [pas16_update_relocated]
    generalize pas16_update s = x
    rfl
  · rw [pas16_update_relocated]
    generalize pas16_update s = x
    rfl
  · rw [pas16_update_relocated]
    generalize pas16_update s = x
    rfl
  · by_cases hc : val &&& PAS16_PCM_ENA ≠ 0 ∧ ¬ (s.pcm_ctrl &&& PAS16_PCM_ENA ≠ 0)
    · have hc2 : val &&& PAS16_PCM_ENA ≠ 0 ∧
          ¬ ((relocated b w pw s).pcm_ctrl &&& PAS16_PCM_ENA ≠ 0) := hc
      simp only [if_pos hc, if_pos hc2]
      rfl
    · have hc2 : ¬ (val &&& PAS16_PCM_ENA ≠ 0 ∧
          ¬ ((relocated b w pw s).pcm_ctrl &&& PAS16_PCM_ENA ≠ 0)) := hc
      simp only [if_neg hc, if_neg hc2]
      rfl
  · rw [← pas16_update_rx_irq_relocated, ← pas16_update_tx_irq_relocated,
      ← pas16_set_tx_irq_relocated]
    rfl
  · by_cases hc : val &&& 0x80 ≠ 0 ∧ ¬ (s.sys_conf_1 &&& 0x80 ≠ 0)
    · have hc2 : val &&& 0x80 ≠ 0 ∧ ¬ ((relocated b w pw s).sys_conf_1 &&& 0x80 ≠ 0) := hc
      simp only [if_pos hc, if_pos hc2]
      rw [pas16_reset_relocated]
      generalize pas16_reset s = x
      rfl
    · have hc2 : ¬ (val &&& 0x80 ≠ 0 ∧ ¬ ((relocated b w pw s).sys_conf_1 &&& 0x80 ≠ 0)) := hc
      simp only [if_neg hc, if_neg hc2]
      rfl
  · by_cases h2 : val &&& 0x02 ≠ 0
    · simp only [if_pos h2]
      apply ite_relocated <;> rfl
    · simp only [if_neg h2]
      apply ite_relocated <;> rfl
  · by_cases h2 : s.compat &&& 0x02 ≠ 0
    · have h3 : (relocated b w pw s).compat &&& 0x02 ≠ 0 := h2
      simp only [if_pos h2, if_pos h3]
      apply ite_relocated <;> rfl
    · have h3 : ¬ ((relocated b w pw s).compat &&& 0x02 ≠ 0) := h2
      simp only [if_neg h2, if_neg h3]
      apply ite_relocated <;> rfl

/-- C11 (amended): with the port map modelled as the set of bound 4-port windows, in a
state whose bound windows are those of its base address (at most 0x3fc), a base-select
write of the byte `v` yields the same state relocated to `B = v << 2`: the windows of
the old base are unbound and the same window offsets are bound at `B` (eighteen device
windows and the timer's sub-window at +0x1000, nineteen in all), and no device
register other than the base is changed.  So port `B + k` lies in a device (timer)
window after the write iff port `old + k` did before; a read or write at `B + k`
decodes to the same switch value, returns the same value and leaves the same state
(relocated) as the access at `old + k` did; and a read at any port that lies in no
window of the new base is unrouted and returns 0xFF. -/
theorem base_relocation (s : pas16_t) (v : Nat) (hv : v < 256) (hb : s.base ≤ 0x3fc)
    (hs : bound_at_base s) :
    pas16_out_base v s =
      relocated (v <<< 2) (bind_all (v <<< 2) [])
        [window_port (v <<< 2) pit_window_offset] s ∧
    bound_at_base (pas16_out_base v s) ∧
    io_window_offsets.length = 18 ∧ pit_window_offset = 0x388 + 0x1000 ∧
    (∀ k : Nat,
      in_window (v <<< 2 + k) (pas16_out_base v s).io_windows
        = in_window (s.base + k) s.io_windows ∧
      in_window (v <<< 2 + k) (pas16_out_base v s).pit_windows
        = in_window (s.base + k) s.pit_windows ∧
      decode (v <<< 2 + k) (pas16_out_base v s) = decode (s.base + k) s ∧
      pas16_in (v <<< 2 + k) (pas16_out_base v s) =
        ((pas16_in (s.base + k) s).1,
         relocated (v <<< 2) (bind_all (v <<< 2) [])
           [window_port (v <<< 2) pit_window_offset] (pas16_in (s.base + k) s).2) ∧
      ∀ val : Nat, pas16_out (v <<< 2 + k) val (pas16_out_base v s) =
        relocated (v <<< 2) (bind_all (v <<< 2) [])
          [window_port (v <<< 2) pit_window_offset] (pas16_out (s.base + k) val s)) ∧
    (∀ (pit_read : Nat → pit_t → Nat × pit_t) (port : Nat),
      in_window port (bind_all (v <<< 2) []) = false →
      in_window port [window_port (v <<< 2) pit_window_offset] = false →
      io_inb pit_read port (pas16_out_base v s) = (0xff, pas16_out_base v s)) ∧
    (∀ (pit_read : Nat → pit_t → Nat × pit_t) (k : Nat),
      in_window (s.base + k) s.io_windows = true →
      io_inb pit_read (v <<< 2 + k) (pas16_out_base v s) =
        ((io_inb pit_read (s.base + k) s).1,
         relocated (v <<< 2) (bind_all (v <<< 2) [])
           [window_port (v <<< 2) pit_window_offset] (io_inb pit_read (s.base + k) s).2)) ∧
    (∀ (pit_write : Nat → Nat → pit_t → pit_t) (k val : Nat),
      in_window (s.base + k) s.io_windows = true →
      io_outb pit_write (v <<< 2 + k) val (pas16_out_base v s) =
        relocated (v <<< 2) (bind_all (v <<< 2) [])
          [window_port (v <<< 2) pit_window_offset]
          (io_outb pit_write (s.base + k) val s)) := by
  have hB : v <<< 2 ≤ 0x3fc := (shl2_bound v hv).2.1
  have hio : ∀ k : Nat, in_window (v <<< 2 + k) (bind_all (v <<< 2) [])
      = in_window (s.base + k) s.io_windows := by
    intro k
    rw [hs.1, in_window_bind_all _ _ hB, in_window_bind_all _ _ hb]
  have hpit : ∀ k : Nat, in_window (v <<< 2 + k) [window_port (v <<< 2) pit_window_offset]
      = in_window (s.base + k) s.pit_windows := by
    intro k
    rw [hs.2, in_window_pit _ _ hB, in_window_pit _ _ hb]
  rw [pas16_out_base_bound v s hv hs]
  refine ⟨rfl, ⟨rfl, rfl⟩, rfl, rfl, ?_, ?_, ?_, ?_⟩
  · intro k
    exact ⟨hio k, hpit k, decode_relocated _ _ _ _ _,
      pas16_in_relocated _ _ _ _ _ _ (decode_relocated _ _ _ _ _),
      fun val => pas16_out_relocated _ _ _ _ _ val _ (decode_relocated _ _ _ _ _)⟩
  · intro pit_read port h1 h2
    have c1 : ¬ (in_window port
        (relocated (v <<< 2) (bind_all (v <<< 2) [])
          [window_port (v <<< 2) pit_window_offset] s).io_windows = true) := by
      show ¬ (in_window port (bind_all (v <<< 2) []) = true)
      rw [h1]
      exact Bool.false_ne_true
    have c2 : ¬ (in_window port
        (relocated (v <<< 2) (bind_all (v <<< 2) [])
          [window_port (v <<< 2) pit_window_offset] s).pit_windows = true) := by
      show ¬ (in_window port [window_port (v <<< 2) pit_window_offset] = true)
      rw [h2]
      exact Bool.false_ne_true
    unfold io_inb
    rw [if_neg c1, if_neg c2]
  · intro pit_read k hk
    have hk2 : in_window (v <<< 2 + k)
        (relocated (v <<< 2) (bind_all (v <<< 2) [])
          [window_port (v <<< 2) pit_window_offset] s).io_windows = true :=
      (hio k).trans hk
    unfold io_inb
    rw [if_pos hk, if_pos hk2]
    exact pas16_in_relocated _ _ _ _ _ _ (decode_relocated _ _ _ _ _)
  · intro pit_write k val hk
    have hk2 : in_window (v <<< 2 + k)
        (relocated (v <<< 2) (bind_all (v <<< 2) [])
          [window_port (v <<< 2) pit_window_offset] s).io_windows = true :=
      (hio k).trans hk
    unfold io_outb
    rw [if_pos hk, if_pos hk2]
    exact pas16_out_relocated _ _ _ _ _ val _ (decode_relocated _ _ _ _ _)

theorem base_relocation_witness :
    io_inb (fun _ p => (0, p)) 0xb89 (pas16_out_base 0x98 (pas16_out_base 0xe2 state_init))
      = (0xff, pas16_out_base 0x98 (pas16_out_base 0xe2 state_init)) ∧
    in_window (0x98 <<< 2 + 0x801)
        (pas16_out_base 0x98 (pas16_out_base 0xe2 state_init)).io_windows
      = in_window ((pas16_out_base 0xe2 state_init).base + 0x801)
          (pas16_out_base 0xe2 state_init).io_windows ∧
    in_window 0xb89 (pas16_out_base 0xe2 state_init).io_windows = true :=
  ⟨(base_relocation (pas16_out_base 0xe2 state_init) 0x98 (by decide) (by decide)
      (by decide)).2.2.2.2.2.1 (fun _ p => (0, p)) 0xb89 (by decide) (by decide),
   ((base_relocation (pas16_out_base 0xe2 state_init) 0x98 (by decide) (by decide)
      (by decide)).2.2.2.2.1 0x801).1,
   by decide⟩

/-- The windows a base-select write binds are nineteen distinct windows, not eleven:
after the write of 0xe2 in the initial state eighteen device windows and the timer
window are bound, and a second write unbinds and rebinds nineteen. -/
theorem base_relocation_counterexample :
    ((pas16_out_base 0xe2 state_init).io_windows
      ++ (pas16_out_base 0xe2 state_init).pit_windows).Nodup ∧
    ((pas16_out_base 0xe2 state_init).io_windows
      ++ (pas16_out_base 0xe2 state_init).pit_windows).length = 19 ∧
    ((pas16_out_base 0x98 (pas16_out_base 0xe2 state_init)).io_windows
      ++ (pas16_out_base 0x98 (pas16_out_base 0xe2 state_init)).pit_windows).length = 19 ∧
    (∀ p ∈ (pas16_out_base 0xe2 state_init).io_windows
        ++ (pas16_out_base 0xe2 state_init).pit_windows,
      p ∉ (pas16_out_base 0x98 (pas16_out_base 0xe2 state_init)).io_windows
        ++ (pas16_out_base 0x98 (pas16_out_base 0xe2 state_init)).pit_windows) := by
  decide

/-! ## Legacy-compatibility writes -/

/-- A write to the legacy-compatibility enable register (0xf788). -/
theorem pas16_out_compat (s : pas16_t) (port val : Nat) (hport : decode port s = 0xf788) :
    pas16_out port val s =
      { s with compat := val,
               calls :=
                 Call.mpu401_change_addr
                   (if val &&& 0x01 ≠ 0 then (s.compat_base &&& 0xf0) ||| 0x300 else 0) ::
                 Call.sb_dsp_setaddr
                   (if val &&& 0x02 ≠ 0 then ((s.compat_base &&& 0xf) <<< 4) ||| 0x200 else 0) ::
                 s.calls } := by
  have hout : pas16_out port val s =
      (let s := { s with compat := val }
       let s := if s.compat &&& 0x02 ≠ 0 then
           call (Call.sb_dsp_setaddr (((s.compat_base &&& 0xf) <<< 4) ||| 0x200)) s
         else call (Call.sb_dsp_setaddr 0) s
       if s.compat &&& 0x01 ≠ 0 then
         call (Call.mpu401_change_addr ((s.compat_base &&& 0xf0) ||| 0x300)) s
       else call (Call.mpu401_change_addr 0) s) := by
    unfold pas16_out
    simp -zeta only [hport]
    rfl
  rw [hout]
  simp only []
  by_cases h2 : val &&& 0x02 ≠ 0
  · rw [if_pos h2, if_pos h2]
    by_cases h1 : val &&& 0x01 ≠ 0
    · rw [if_pos h1]
      exact (if_pos h1).trans rfl
    · rw [if_neg h1]
      exact (if_neg h1).trans rfl
  · rw [if_neg h2, if_neg h2]
    by_cases h1 : val &&& 0x01 ≠ 0
    · rw [if_pos h1]
      exact (if_pos h1).trans rfl
    · rw [if_neg h1]
      exact (if_neg h1).trans rfl

/-- A write to the legacy-compatibility base byte (0xf789). -/
theorem pas16_out_compat_base (s : pas16_t) (port val : Nat)
    (hport : decode port s = 0xf789) :
    pas16_out port val s =
      { s with compat_base := val,
               calls :=
                 (if s.compat &&& 0x01 ≠ 0 then
                   [Call.mpu401_change_addr ((val &&& 0xf0) ||| 0x300)] else []) ++
                 ((if s.compat &&& 0x02 ≠ 0 then
                   [Call.sb_dsp_setaddr (((val &&& 0xf) <<< 4) ||| 0x200)] else []) ++
                 s.calls) } := by
  have hout : pas16_out port val s =
      (let s := { s with compat_base := val }
       let s := if s.compat &&& 0x02 ≠ 0 then
           call (Call.sb_dsp_setaddr (((s.compat_base &&& 0xf) <<< 4) ||| 0x200)) s else s
       if s.compat &&& 0x01 ≠ 0 then
         call (Call.mpu401_change_addr ((s.compat_base &&& 0xf0) ||| 0x300)) s
       else s) := by
    unfold pas16_out
    simp -zeta only [hport]
    rfl
  rw [hout]
  simp only []
  by_cases h2 : s.compat &&& 0x02 ≠ 0
  · rw [if_pos h2, if_pos h2]
    by_cases h1 : s.compat &&& 0x01 ≠ 0
    · rw [if_pos h1]
      exact (if_pos h1).trans rfl
    · rw [if_neg h1]
      exact (if_neg h1).trans rfl
  · rw [if_neg h2, if_neg h2]
    by_cases h1 : s.compat &&& 0x01 ≠ 0
    · rw [if_pos h1, if_pos h1]
      rfl
    · rw [if_neg h1, if_neg h1]
      rfl

theorem dsp_addr_range (cb : Nat) :
    (((cb &&& 0xf) <<< 4) ||| 0x200) % 0x10 = 0 ∧ 0x200 ≤ ((cb &&& 0xf) <<< 4) ||| 0x200 ∧
    ((cb &&& 0xf) <<< 4) ||| 0x200 ≤ 0x2f0 := by
  have h : cb &&& 0xf < 16 := Nat.and_lt_two_pow cb (show 0xf < 2 ^ 4 by decide)
  generalize cb &&& 0xf = x at h
  interval_cases x <;> decide

theorem mpu_addr_range (cb : Nat) :
    ((cb &&& 0xf0) ||| 0x300) % 0x10 = 0 ∧ 0x300 ≤ (cb &&& 0xf0) ||| 0x300 ∧
    (cb &&& 0xf0) ||| 0x300 ≤ 0x3f0 := by
  have hlt : cb &&& 0xf0 < 2 ^ 8 := Nat.and_lt_two_pow cb (show 0xf0 < 2 ^ 8 by decide)
  have hle : cb &&& 0xf0 ≤ 0xf0 := Nat.and_le_right
  have hmod : (cb &&& 0xf0) % 16 = 0 := by
    have e : (cb &&& 0xf0) &&& (2 ^ 4 - 1) = 0 := by
      rw [Nat.and_assoc]
      show cb &&& 0 = 0
      exact Nat.and_zero cb
    rw [Nat.and_pow_two_sub_one_eq_mod] at e
    exact e
  have e := Nat.mul_add_lt_is_or hlt 3
  have e2 : (cb &&& 0xf0) ||| 0x300 = 0x300 + (cb &&& 0xf0) := by
    rw [Nat.or_comm]
    exact e.symm
  rw [e2]
  omega

/-- C21: a write of `val` to the legacy-compatibility enable register (0xf788), with
`cb` the stored base byte, pushes to the DSP the address `((cb & 0x0f) << 4) | 0x200`
if bit 0x02 of `val` is set and 0 otherwise, and then to the MIDI UART the address
`(cb & 0xf0) | 0x300` if bit 0x01 of `val` is set and 0 otherwise.  A write of `val` to
the base byte (0xf789) pushes the same formulas, with `val` as the base byte, for
exactly the collaborators whose enable bit is set in the stored enable byte, and
makes no call for the others.  A DSP address of the formula is a multiple of 0x10 in
0x200..0x2f0, a MIDI address a multiple of 0x10 in 0x300..0x3f0. -/
theorem compat_write_addresses (s : pas16_t) (port val : Nat) :
    (decode port s = 0xf788 →
      (pas16_out port val s).calls =
        Call.mpu401_change_addr
          (if val &&& 0x01 ≠ 0 then (s.compat_base &&& 0xf0) ||| 0x300 else 0) ::
        Call.sb_dsp_setaddr
          (if val &&& 0x02 ≠ 0 then ((s.compat_base &&& 0xf) <<< 4) ||| 0x200 else 0) ::
        s.calls ∧
      (pas16_out port val s).compat = val ∧
      (pas16_out port val s).compat_base = s.compat_base) ∧
    (decode port s = 0xf789 →
      (pas16_out port val s).calls =
        (if s.compat &&& 0x01 ≠ 0 then
          [Call.mpu401_change_addr ((val &&& 0xf0) ||| 0x300)] else []) ++
        ((if s.compat &&& 0x02 ≠ 0 then
          [Call.sb_dsp_setaddr (((val &&& 0xf) <<< 4) ||| 0x200)] else []) ++
        s.calls) ∧
      (pas16_out port val s).compat_base = val ∧
      (pas16_out port val s).compat = s.compat) ∧
    (∀ cb : Nat,
      (((cb &&& 0xf) <<< 4) ||| 0x200) % 0x10 = 0 ∧ 0x200 ≤ ((cb &&& 0xf) <<< 4) ||| 0x200 ∧
      ((cb &&& 0xf) <<< 4) ||| 0x200 ≤ 0x2f0) ∧
    (∀ cb : Nat,
      ((cb &&& 0xf0) ||| 0x300) % 0x10 = 0 ∧ 0x300 ≤ (cb &&& 0xf0) ||| 0x300 ∧
      (cb &&& 0xf0) ||| 0x300 ≤ 0x3f0) := by
  refine ⟨?_, ?_, dsp_addr_range, mpu_addr_range⟩
  · intro h
    rw [pas16_out_compat s port val h]
    exact ⟨rfl, rfl, rfl⟩
  · intro h
    rw [pas16_out_compat_base s port val h]
    exact ⟨rfl, rfl, rfl⟩

theorem compat_write_addresses_witness :
    (pas16_out 0xf400 0x03 { state_init with compat_base := 0x24 }).calls =
      [Call.mpu401_change_addr 0x320, Call.sb_dsp_setaddr 0x240] ∧
    (pas16_out 0xf401 0x5a { state_init with compat := 0x02 }).calls =
      [Call.sb_dsp_setaddr 0x2a0] :=
  ⟨((compat_write_addresses { state_init with compat_base := 0x24 } 0xf400 0x03).1
      (by decide)).1.trans rfl,
   ((compat_write_addresses { state_init with compat := 0x02 } 0xf401 0x5a).2.1
      (by decide)).1.trans rfl⟩

/-! ## System-config registers -/

theorem decode_pas16_out (port port2 val : Nat) (s : pas16_t) :
    decode port2 (pas16_out port val s) = decode port2 s := by
  unfold decode
  rw [pas16_out_keeps_base]

theorem pas16_out_sys_conf_2 (s : pas16_t) (port val : Nat) (hport : decode port s = 0x8389) :
    pas16_out port val s = { s with sys_conf_2 := val } := by
  unfold pas16_out
  simp -zeta only [hport]
  rfl

theorem pas16_out_sys_conf_3 (s : pas16_t) (port val : Nat) (hport : decode port s = 0x838a) :
    pas16_out port val s = { s with sys_conf_3 := val } := by
  unfold pas16_out
  simp -zeta only [hport]
  rfl

theorem pas16_out_sys_conf_4 (s : pas16_t) (port val : Nat) (hport : decode port s = 0x838b) :
    pas16_out port val s = { s with sys_conf_4 := val } := by
  unfold pas16_out
  simp -zeta only [hport]
  rfl

theorem pas16_in_sys_conf_1 (s : pas16_t) (port : Nat) (hport : decode port s = 0x8388) :
    pas16_in port s = (s.sys_conf_1, s) := by
  unfold pas16_in
  simp -zeta only [hport]
  rfl

theorem pas16_in_sys_conf_2 (s : pas16_t) (port : Nat) (hport : decode port s = 0x8389) :
    pas16_in port s = (s.sys_conf_2, s) := by
  unfold pas16_in
  simp -zeta only [hport]
  rfl

/-- The switch of `pas16_in` has no case 0x838a. -/
theorem pas16_in_838a (s : pas16_t) (port : Nat) (hport : decode port s = 0x838a) :
    pas16_in port s = (0xff, s) := by
  unfold pas16_in
  simp -zeta only [hport]
  rfl

theorem pas16_in_sys_conf_3 (s : pas16_t) (port : Nat) (hport : decode port s = 0x838b) :
    pas16_in port s = (s.sys_conf_3, s) := by
  unfold pas16_in
  simp -zeta only [hport]
  rfl

theorem pas16_in_sys_conf_4 (s : pas16_t) (port : Nat) (hport : decode port s = 0x838c) :
    pas16_in port s = (s.sys_conf_4, s) := by
  unfold pas16_in
  simp -zeta only [hport]
  rfl

/-- The offset 0x838c at which `pas16_in` returns system-config 4 lies in no window
that `pas16_out_base` binds: one port above the window at 0x8388. -/
theorem sys_conf_4_offset_unbound (s : pas16_t) (port : Nat) (hb : s.base ≤ 0x3fc)
    (hs : bound_at_base s) (hport : decode port s = 0x838c) :
    in_window port s.io_windows = false ∧ in_window port s.pit_windows = false := by
  have hp : port = s.base + 0x8004 := by
    unfold decode at hport
    omega
  rw [hp, hs.1, hs.2, in_window_bind_all _ _ hb, in_window_pit _ _ hb]
  exact ⟨by decide, by decide⟩

/-- C22 (as the code behaves): a byte written to system-config 1 (0x8388) or 2
(0x8389) is returned by a read at the same offset.  A byte written at 0x838a is stored
in system-config 3, yet a read at 0x838a returns 0xFF: `pas16_in` has no case 0x838a
and returns system-config 3 at 0x838b.  A byte written at 0x838b is stored in
system-config 4, yet a read at 0x838b returns system-config 3 as it was before the
write: `pas16_in` returns system-config 4 at 0x838c. -/
theorem sys_conf_read_back (s : pas16_t) (port val : Nat) :
    (decode port s = 0x8388 → (pas16_in port (pas16_out port val s)).1 = val) ∧
    (decode port s = 0x8389 → (pas16_in port (pas16_out port val s)).1 = val) ∧
    (decode port s = 0x838a →
      (pas16_out port val s).sys_conf_3 = val ∧
      (pas16_in port (pas16_out port val s)).1 = 0xff ∧
      ∀ port2, decode port2 s = 0x838b → (pas16_in port2 (pas16_out port val s)).1 = val) ∧
    (decode port s = 0x838b →
      (pas16_out port val s).sys_conf_4 = val ∧
      (pas16_in port (pas16_out port val s)).1 = s.sys_conf_3 ∧
      ∀ port2, decode port2 s = 0x838c → (pas16_in port2 (pas16_out port val s)).1 = val) := by
  refine ⟨?_, ?_, ?_, ?_⟩
  · intro h
    have hd : decode port (pas16_out port val s) = 0x8388 := (decode_pas16_out _ _ _ _).trans h
    rw [pas16_in_sys_conf_1 _ port hd, pas16_out_sys_conf_1 s port val h]
  · intro h
    have hd : decode port (pas16_out port val s) = 0x8389 := (decode_pas16_out _ _ _ _).trans h
    rw [pas16_in_sys_conf_2 _ port hd, pas16_out_sys_conf_2 s port val h]
  · intro h
    have hd : decode port (pas16_out port val s) = 0x838a := (decode_pas16_out _ _ _ _).trans h
    refine ⟨?_, ?_, ?_⟩
    · rw [pas16_out_sys_conf_3 s port val h]
    · rw [pas16_in_838a _ port hd]
    · intro port2 h2
      have hd2 : decode port2 (pas16_out port val s) = 0x838b :=
        (decode_pas16_out _ _ _ _).trans h2
      rw [pas16_in_sys_conf_3 _ port2 hd2, pas16_out_sys_conf_3 s port val h]
  · intro h
    have hd : decode port (pas16_out port val s) = 0x838b := (decode_pas16_out _ _ _ _).trans h
    refine ⟨?_, ?_, ?_⟩
    · rw [pas16_out_sys_conf_4 s port val h]
    · rw [pas16_in_sys_conf_3 _ port hd, pas16_out_sys_conf_4 s port val h]
    · intro port2 h2
      have hd2 : decode port2 (pas16_out port val s) = 0x838c :=
        (decode_pas16_out _ _ _ _).trans h2
      rw [pas16_in_sys_conf_4 _ port2 hd2, pas16_out_sys_conf_4 s port val h]

theorem sys_conf_read_back_witness :
    (pas16_in 0x8389 (pas16_out 0x8389 0x55 (pas16_out_base 0xe2 state_init))).1 = 0x55 ∧
    (pas16_in 0x838a (pas16_out 0x838a 0x55 (pas16_out_base 0xe2 state_init))).1 = 0xff ∧
    (pas16_in 0x838b (pas16_out 0x838b 0x55 (pas16_out_base 0xe2 state_init))).1
      = (pas16_out_base 0xe2 state_init).sys_conf_3 :=
  ⟨(sys_conf_read_back (pas16_out_base 0xe2 state_init) 0x8389 0x55).2.1 (by decide),
   ((sys_conf_read_back (pas16_out_base 0xe2 state_init) 0x838a 0x55).2.2.1 (by decide)).2.1,
   ((sys_conf_read_back (pas16_out_base 0xe2 state_init) 0x838b 0x55).2.2.2 (by decide)).2.1⟩

/-- C22 fails on the code: with the base at 0x388, the byte 0x55 written to
system-config 3 (port 0x838a) is stored, but the read at port 0x838a returns 0xFF; the
byte 0x55 written to system-config 4 (port 0x838b) is stored, but the read at port
0x838b returns 0. -/
theorem sys_conf_read_back_counterexample :
    (pas16_out_base 0xe2 state_init).base = 0x388 ∧
    (pas16_out 0x838a 0x55 (pas16_out_base 0xe2 state_init)).sys_conf_3 = 0x55 ∧
    (pas16_in 0x838a (pas16_out 0x838a 0x55 (pas16_out_base 0xe2 state_init))).1 = 0xff ∧
    (pas16_out 0x838b 0x55 (pas16_out_base 0xe2 state_init)).sys_conf_4 = 0x55 ∧
    (pas16_in 0x838b (pas16_out 0x838b 0x55 (pas16_out_base 0xe2 state_init))).1 = 0 := by
  refine ⟨by decide, by decide, by decide, by decide, by decide⟩

/-! ## Port arithmetic of the decode -/

/-- With a base of at most 0x3fc, the port of a canonical offset in 0x388..0xff8b is
formed without wrapping and decodes back to that offset. -/
theorem decode_port_exact (s : pas16_t) (hb : s.base ≤ 0x3fc) (c : Int) (h1 : 0x388 ≤ c)
    (h2 : c ≤ 0xff8b) :
    port16 (((s.base : Int) - 0x388) + c) = s.base + (c - 0x388).toNat ∧
    s.base + (c - 0x388).toNat < 65536 ∧
    decode (s.base + (c - 0x388).toNat) s = c := by
  unfold decode port16
  omega

/-- C23: for every base address a base-select write of a byte `v` sets (`v << 2`, a
multiple of 4, at most 0x3fc) and every canonical offset `c` in 0x388..0xff8b, the port
`(base - 0x388) + c` passed as a 16-bit value is `base + (c - 0x388)` without wrapping,
it is below 0x10000, and the decode `(port - base) + 0x388` of `pas16_in` and
`pas16_out` maps it back to exactly `c` (so the decode is not negative); two different
offsets give different ports; and every port of every window that the write binds,
device or timer, is such a port: port `k < 4` of the window at offset `off` decodes to
`off + k`. -/
theorem decode_never_wraps (s : pas16_t) (v : Nat) (hv : v < 256) :
    (pas16_out_base v s).base = v <<< 2 ∧ (pas16_out_base v s).base % 4 = 0 ∧
    (pas16_out_base v s).base ≤ 0x3fc ∧
    (∀ c : Int, 0x388 ≤ c → c ≤ 0xff8b →
      port16 ((((pas16_out_base v s).base : Int) - 0x388) + c)
        = (pas16_out_base v s).base + (c - 0x388).toNat ∧
      (pas16_out_base v s).base + (c - 0x388).toNat < 65536 ∧
      decode ((pas16_out_base v s).base + (c - 0x388).toNat) (pas16_out_base v s) = c ∧
      0 ≤ decode ((pas16_out_base v s).base + (c - 0x388).toNat) (pas16_out_base v s)) ∧
    (∀ c1 c2 : Int, 0x388 ≤ c1 → c1 ≤ 0xff8b → 0x388 ≤ c2 → c2 ≤ 0xff8b → c1 ≠ c2 →
      (pas16_out_base v s).base + (c1 - 0x388).toNat
        ≠ (pas16_out_base v s).base + (c2 - 0x388).toNat) ∧
    (∀ off ∈ pit_window_offset :: io_window_offsets, ∀ k : Nat, k < 4 →
      0x388 ≤ off + (k : Int) ∧ off + (k : Int) ≤ 0xff8b ∧
      window_port (pas16_out_base v s).base off + k < 65536 ∧
      decode (window_port (pas16_out_base v s).base off + k) (pas16_out_base v s)
        = off + (k : Int)) := by
  obtain ⟨e1, e2, e3⟩ := shl2_bound v hv
  have hbase : (pas16_out_base v s).base = v <<< 2 := by
    rw [pas16_out_base_sets_base, e1]
  have hle : (pas16_out_base v s).base ≤ 0x3fc := by
    rw [hbase]
    exact e2
  refine ⟨hbase, by rw [hbase]; exact e3, hle, ?_, ?_, ?_⟩
  · intro c h1 h2
    obtain ⟨p1, p2, p3⟩ := decode_port_exact (pas16_out_base v s) hle c h1 h2
    refine ⟨p1, p2, p3, ?_⟩
    rw [p3]
    omega
  · intro c1 c2 h1 h2 h3 h4 hne
    omega
  · intro off hoff k hk
    have hbounds : ∀ o ∈ pit_window_offset :: io_window_offsets,
        (0x388 : Int) ≤ o ∧ o ≤ 0xff88 := by decide
    obtain ⟨b1, b2⟩ := hbounds off hoff
    have hc1 : (0x388 : Int) ≤ off + (k : Int) := by omega
    have hc2 : off + (k : Int) ≤ 0xff8b := by omega
    obtain ⟨p1, p2, p3⟩ := decode_port_exact (pas16_out_base v s) hle (off + (k : Int)) hc1 hc2
    obtain ⟨q1, -, -⟩ := decode_port_exact (pas16_out_base v s) hle off b1 (by omega)
    have hw : window_port (pas16_out_base v s).base off + k
        = (pas16_out_base v s).base + (off + (k : Int) - 0x388).toNat := by
      unfold window_port
      rw [q1]
      omega
    rw [hw]
    exact ⟨hc1, hc2, p2, p3⟩

theorem decode_never_wraps_witness :
    decode ((pas16_out_base 0xff state_init).base + ((0xff8b : Int) - 0x388).toNat)
        (pas16_out_base 0xff state_init) = 0xff8b ∧
    (pas16_out_base 0xff state_init).base + ((0xff8b : Int) - 0x388).toNat < 65536 ∧
    (pas16_out_base 0xff state_init).base = 0x3fc :=
  ⟨((decode_never_wraps state_init 0xff (by decide)).2.2.2.1 0xff8b (by decide)
      (by decide)).2.2.1,
   ((decode_never_wraps state_init 0xff (by decide)).2.2.2.1 0xff8b (by decide)
      (by decide)).2.1,
   (decode_never_wraps state_init 0xff (by decide)).1.trans (by decide)⟩

end PAS16
